import Mathlib

/-!
# Streamline tractography filter (itkStreamlineTrackingFilter.cpp)

A shallow embedding of `itk::StreamlineTrackingFilter` and theorems about it.

Conventions of the embedding

* Scalars (`float`, `double`) are elements of an arbitrary linear ordered field `F`
  (exact arithmetic; rounding is not modelled).  Concrete runs are evaluated over `ℚ`.
* The C library functions `sqrt`, `acos`, `cos`, `sin`, the constant `M_PI` and the constant
  `mitk::eps` are not part of the translated source; they are the fields of `MathEnv`.
* The tracking handler (`mitk::TrackingDataHandler`), the mask lookups `mitk::imv::IsInsideMask`
  and the image geometry are external to the translated file.  The handler is a state machine over an
  abstract state `σ`: every query returns its answer together with the next state, which
  covers deterministic as well as probabilistic handlers and the random number generator.
* `std::deque` / `std::vector` are `List`s; `push_front` is `::`, `push_back` appends.
* The live preview (`m_DemoMode`) and the busy wait on `m_PauseTracking` are not modelled:
  the embedding describes runs with `m_DemoMode = false` and `m_PauseTracking = false`.
* `GenerateData` is the loop as one worker runs it.  The `omp parallel` region with several
  workers is described by `parallelRound`: one worker per seed, the `omp critical` blocks
  entered in a given order.
-/

namespace itk

/-! ## Vectors and points -/

/-- Three floats: stands for both `vnl_vector_fixed<float,3>` and `itk::Point<float,3>`. -/
structure Vec3 (F : Type) where
  x : F
  y : F
  z : F
deriving DecidableEq

/-- Voxel index `itk::Index<3>`. -/
structure Index3 where
  i : ℤ
  j : ℤ
  k : ℤ
deriving DecidableEq

/-- External numeric functions and constants used by the filter. -/
structure MathEnv (F : Type) where
  sqrt : F → F
  acos : F → F
  cos : F → F
  sin : F → F
  M_PI : F
  eps : F

section VectorOps
variable {F : Type} [LinearOrderedField F]

/-- The vector `v.fill(c)`. -/
def Vec3.fill (c : F) : Vec3 F := ⟨c, c, c⟩

/-- Component-wise sum, `a + b`. -/
def Vec3.add (a b : Vec3 F) : Vec3 F := ⟨a.x + b.x, a.y + b.y, a.z + b.z⟩

/-- Component-wise difference, `a - b`. -/
def Vec3.sub (a b : Vec3 F) : Vec3 F := ⟨a.x - b.x, a.y - b.y, a.z - b.z⟩

/-- Unary minus, `-a`. -/
def Vec3.neg (a : Vec3 F) : Vec3 F := ⟨-a.x, -a.y, -a.z⟩

/-- Scaling by a scalar, `a * c`. -/
def Vec3.scale (a : Vec3 F) (c : F) : Vec3 F := ⟨a.x * c, a.y * c, a.z * c⟩

/-- The inner product `dot_product(a, b)`. -/
def dot_product (a b : Vec3 F) : F := a.x * b.x + a.y * b.y + a.z * b.z

/-- The squared Euclidean norm `v.squared_magnitude()`. -/
def Vec3.squared_magnitude (v : Vec3 F) : F := dot_product v v

/-- The Euclidean norm `v.magnitude()`: the square root of the squared magnitude. -/
def Vec3.magnitude (M : MathEnv F) (v : Vec3 F) : F := M.sqrt v.squared_magnitude

/-- The in-place `v.normalize()` of vnl: a vector whose squared magnitude is non-zero is
scaled by `1 / sqrt (squared magnitude)`, the zero vector is left as it is. -/
def Vec3.normalize (M : MathEnv F) (v : Vec3 F) : Vec3 F :=
  if v.squared_magnitude ≠ 0 then v.scale (1 / M.sqrt v.squared_magnitude) else v

end VectorOps

/-! ## The filter, its collaborators and its shared state -/

/-- A fiber (`FiberType`, a deque of points); the head of the list is `front()`. -/
abbrev FiberType (F : Type) := List (Vec3 F)

/-- The member variables of the filter that tracking reads, after `BeforeTracking`.  Each
interpolator field stands for `mitk::imv::IsInsideMask(pos, m_InterpolateMask, interpolator)`. -/
structure StreamlineTrackingFilter (F : Type) where
  m_StepSize : F
  m_MaxLength : ℤ
  m_MinTractLength : F
  m_MaxTractLength : F
  m_AvoidStop : Bool
  m_RandomSampling : Bool
  m_SamplingDistance : F
  m_AngularThreshold : F
  m_DeflectionMod : F
  m_OnlyForwardSamples : Bool
  m_UseStopVotes : Bool
  m_NumberOfSamples : ℤ
  m_NumPreviousDirections : ℕ
  m_MaxNumTracts : ℤ
  m_AposterioriCurvCheck : Bool
  m_Random : Bool
  m_UseOutputProbabilityMap : Bool
  m_TargetImageSet : Bool
  m_SeedImageSet : Bool
  m_MaskInterpolator : Vec3 F → Bool
  m_StopInterpolator : Vec3 F → Bool
  m_SeedInterpolator : Vec3 F → Bool
  m_TargetInterpolator : Vec3 F → Bool

/-- The collaborators of the filter, as a state machine over `σ`: the tracking handler
(`ProposeDirection`, `GetRandDouble`, `WorldToIndex`), the geometry of the output probability
map, and the externally controlled flag `m_AbortTracking`, read in the current state. -/
structure TrackingDataHandler (F σ : Type) where
  ProposeDirection : σ → Vec3 F → List (Vec3 F) → Index3 → Vec3 F × σ
  GetRandDouble : σ → F → F → F × σ
  WorldToIndex : Vec3 F → Index3
  TransformPhysicalPointToIndex : Vec3 F → Index3
  RegionIsInside : Index3 → Bool
  m_AbortTracking : σ → Bool

section Filter
variable {F : Type} [LinearOrderedField F] {σ : Type}

/-! ## IsValidFiber -/

/-- Source `StreamlineTrackingFilter::IsValidFiber`.  `fib->front()` and `fib->back()` are
undefined on an empty deque: the result is `none` where the code reads an endpoint of an
empty fiber. -/
def StreamlineTrackingFilter.IsValidFiber (f : StreamlineTrackingFilter F) (fib : FiberType F) :
    Option Bool :=
  if f.m_TargetImageSet && f.m_SeedImageSet then
    match fib.head?, fib.getLast? with
    | some front, some back =>
      if f.m_SeedInterpolator front && f.m_TargetInterpolator back then some true
      else if f.m_SeedInterpolator back && f.m_TargetInterpolator front then some true
      else some false
    | _, _ => none
  else if f.m_TargetImageSet then
    match fib.head?, fib.getLast? with
    | some front, some back =>
      if f.m_TargetInterpolator front && f.m_TargetInterpolator back then some true
      else some false
    | _, _ => none
  else some true

/-! ## CreateDirections -/

/-- The height `-1.0 + 2.0*i/(NPoints-1.0)` of the `i`-th point of the shell. -/
def shellHeight (NPoints : ℤ) (i : ℕ) : F := -1 + 2 * (i : F) / ((NPoints : F) - 1)

/-- The array `phi` of `CreateDirections`: `phi[0] = 0`, `phi[NPoints-1] = 0` and, for
`0 < i < NPoints-1`, `phi[i] = phi[i-1] + C / sqrt(NPoints*(1 - h*h))` with
`C = sqrt(4*M_PI)` and `h` the height of point `i`. -/
def shellPhi (M : MathEnv F) (NPoints : ℤ) : ℕ → F
  | 0 => 0
  | i + 1 =>
    if ((i + 1 : ℕ) : ℤ) < NPoints - 1 then
      shellPhi M NPoints i + M.sqrt (4 * M.M_PI) /
        M.sqrt ((NPoints : F) * (1 - shellHeight NPoints (i + 1) * shellHeight NPoints (i + 1)))
    else 0

/-- The array `theta` of `CreateDirections`: `theta[i] = acos(height i) - M_PI/2`. -/
def shellTheta (M : MathEnv F) (NPoints : ℤ) (i : ℕ) : F :=
  M.acos (shellHeight NPoints i) - M.M_PI / 2

/-- Source `StreamlineTrackingFilter::CreateDirections`: empty for `NPoints < 2`, otherwise
the `NPoints` vectors `(cos θ cos φ, cos θ sin φ, sin θ)`. -/
def CreateDirections (M : MathEnv F) (NPoints : ℤ) : List (Vec3 F) :=
  if NPoints < 2 then []
  else (List.range NPoints.toNat).map fun i =>
    ⟨M.cos (shellTheta M NPoints i) * M.cos (shellPhi M NPoints i),
     M.cos (shellTheta M NPoints i) * M.sin (shellPhi M NPoints i),
     M.sin (shellTheta M NPoints i)⟩

/-! ## GetNewDirection -/

/-- The recurring fragment `tempDir.fill(0.0); if (IsInsideMask(sample_pos)) tempDir =
ProposeDirection(sample_pos, olddirs, oldIndex)`: the handler is queried only inside the
tracking mask. -/
def sampleNeighborhood (f : StreamlineTrackingFilter F) (h : TrackingDataHandler F σ)
    (olddirs : List (Vec3 F)) (oldIndex : Index3) (s : σ) (sample_pos : Vec3 F) : Vec3 F × σ :=
  if f.m_MaskInterpolator sample_pos then h.ProposeDirection s sample_pos olddirs oldIndex
  else (Vec3.fill 0, s)

/-- The variables that the probe loop of `GetNewDirection` updates (the counter
`alternatives` only labels preview points and is left out). -/
structure ProbeState (F σ : Type) where
  direction : Vec3 F
  stop_votes : ℕ
  possible_stop_votes : ℕ
  handler : σ

/-- The part of one loop iteration of `GetNewDirection` after the probe offset `d` has been
chosen: primary sample, and on a degenerate sample the reflected or inverted secondary
sample (avoid-stop) or the stop vote. -/
def probeSample (f : StreamlineTrackingFilter F) (M : MathEnv F) (h : TrackingDataHandler F σ)
    (pos : Vec3 F) (olddirs : List (Vec3 F)) (oldIndex : Index3) (olddir : Vec3 F)
    (is_stop_voter : Bool) (d : Vec3 F) (st : ProbeState F σ) : ProbeState F σ :=
  let sample_pos := pos.add d
  let r := sampleNeighborhood f h olddirs oldIndex st.handler sample_pos
  if r.1.magnitude M > M.eps then
    { st with direction := st.direction.add r.1, handler := r.2 }
  else if f.m_AvoidStop && decide (olddir.magnitude M > 1 / 2) then
    let stop_votes := if is_stop_voter then st.stop_votes + 1 else st.stop_votes
    let dot := dot_product d olddir
    let d2 := if dot ≥ 0 then d.neg.add (olddir.scale (2 * dot)) else d.neg
    let sample_pos2 := pos.add d2
    let r2 := sampleNeighborhood f h olddirs oldIndex r.2 sample_pos2
    if r2.1.magnitude M > M.eps then
      { st with direction := (st.direction.add (d2.scale f.m_DeflectionMod)).add r2.1,
                stop_votes := stop_votes, handler := r2.2 }
    else
      { st with stop_votes := stop_votes, handler := r2.2 }
  else
    { st with stop_votes := if is_stop_voter then st.stop_votes + 1 else st.stop_votes,
              handler := r.2 }

/-- One iteration of the probe loop of `GetNewDirection` for the shell vector `probe`. -/
def probeStep (f : StreamlineTrackingFilter F) (M : MathEnv F) (h : TrackingDataHandler F σ)
    (pos : Vec3 F) (olddirs : List (Vec3 F)) (oldIndex : Index3) (olddir : Vec3 F)
    (st : ProbeState F σ) (probe : Vec3 F) : ProbeState F σ :=
  if f.m_Random && f.m_RandomSampling then
    let r0 := h.GetRandDouble st.handler (-(1 / 2)) (1 / 2)
    let r1 := h.GetRandDouble r0.2 (-(1 / 2)) (1 / 2)
    let r2 := h.GetRandDouble r1.2 (-(1 / 2)) (1 / 2)
    let r3 := h.GetRandDouble r2.2 0 f.m_SamplingDistance
    let d := ((⟨r0.1, r1.1, r2.1⟩ : Vec3 F).normalize M).scale r3.1
    probeSample f M h pos olddirs oldIndex olddir false d { st with handler := r3.2 }
  else
    let dot := dot_product probe olddir
    if f.m_UseStopVotes && decide (dot > 7 / 10) then
      probeSample f M h pos olddirs oldIndex olddir true (probe.scale f.m_SamplingDistance)
        { st with possible_stop_votes := st.possible_stop_votes + 1 }
    else if f.m_OnlyForwardSamples && decide (dot < 0) then st
    else probeSample f M h pos olddirs oldIndex olddir false (probe.scale f.m_SamplingDistance) st

/-- The probe loop of `GetNewDirection` over the vectors of the shell. -/
def probeLoop (f : StreamlineTrackingFilter F) (M : MathEnv F) (h : TrackingDataHandler F σ)
    (pos : Vec3 F) (olddirs : List (Vec3 F)) (oldIndex : Index3) (olddir : Vec3 F)
    (st : ProbeState F σ) (probeVecs : List (Vec3 F)) : ProbeState F σ :=
  probeVecs.foldl (probeStep f M h pos olddirs oldIndex olddir) st

/-- The final decision of `GetNewDirection`: normalise the sum when its magnitude exceeds
`0.001` and the stop votes are no majority, otherwise the zero vector. -/
def finalDirection (M : MathEnv F) (st : ProbeState F σ) : Vec3 F :=
  if st.direction.magnitude M > 1 / 1000 ∧
      (st.possible_stop_votes = 0 ∨
        (st.stop_votes : F) / (st.possible_stop_votes : F) < 1 / 2) then
    st.direction.normalize M
  else Vec3.fill 0

/-- Source `StreamlineTrackingFilter::GetNewDirection`.  `olddirs.back()` is read as the
zero vector on an empty history; `FollowStreamline` always passes a non-empty one. -/
def StreamlineTrackingFilter.GetNewDirection (f : StreamlineTrackingFilter F) (M : MathEnv F)
    (h : TrackingDataHandler F σ) (s : σ) (pos : Vec3 F) (olddirs : List (Vec3 F))
    (oldIndex : Index3) : Vec3 F × σ :=
  if f.m_MaskInterpolator pos && !f.m_StopInterpolator pos then
    let r := h.ProposeDirection s pos olddirs oldIndex
    let olddir := olddirs.getLastD (Vec3.fill 0)
    let probeVecs := CreateDirections M f.m_NumberOfSamples
    let st := probeLoop f M h pos olddirs oldIndex olddir
      { direction := r.1, stop_votes := 0, possible_stop_votes := 0, handler := r.2 } probeVecs
    (finalDirection M st, st.handler)
  else (Vec3.fill 0, s)

/-! ## CheckCurvature -/

/-- The window walk of `CheckCurvature`, from the growing end of the path: while the walked
distance is below `m_Distance = 5` and a next point exists, the segment to the next point is
measured, normalised and stored. -/
def curvatureVectors (M : MathEnv F) : FiberType F → F → List (Vec3 F)
  | p1 :: p2 :: rest, dist =>
    if dist < 5 then
      let v := p2.sub p1
      v.normalize M :: curvatureVectors M (p2 :: rest) (dist + v.magnitude M)
    else []
  | _, _ => []

/-- Source `StreamlineTrackingFilter::CheckCurvature`.  With `front` the walk starts at
index `0` and goes up, otherwise it starts at the last index and goes down, which is the walk
from the head of the reversed list.  The mean vector is the first stored vector. -/
def CheckCurvature (M : MathEnv F) (fib : FiberType F) (front : Bool) : ℕ :=
  if fib.length < 3 then 0
  else
    let vectors := curvatureVectors M (if front then fib else fib.reverse) 0
    let meanV := ((Vec3.fill 0).add (vectors.headD (Vec3.fill 0))).normalize M
    let dev := (vectors.map fun v =>
      let angle := dot_product meanV v
      let angle := if angle > 1 then 1 else angle
      let angle := if angle < -1 then -1 else angle
      M.acos angle * 180 / M.M_PI).foldl (· + ·) 0
    let dev := if vectors.length > 0 then dev / (vectors.length : F) else dev
    if dev < 30 then 0 else vectors.length

/-! ## FollowStreamline -/

/-- Source `StreamlineTrackingFilter::CalculateNewPosition`. -/
def StreamlineTrackingFilter.CalculateNewPosition (f : StreamlineTrackingFilter F)
    (pos dir : Vec3 F) : Vec3 F :=
  ⟨pos.x + dir.x * f.m_StepSize, pos.y + dir.y * f.m_StepSize, pos.z + dir.z * f.m_StepSize⟩

/-- Removal of `curv` points at the growing end: `pop_front` with `front`, else `pop_back`. -/
def popPoints (front : Bool) : ℕ → FiberType F → FiberType F
  | 0, fib => fib
  | curv + 1, fib => popPoints front curv (if front then fib.tail else fib.dropLast)

/-- The step loop of `FollowStreamline` with `steps` iterations left.  The result is the
returned tract length, the fiber and the state of the collaborators. -/
def followLoop (f : StreamlineTrackingFilter F) (M : MathEnv F) (h : TrackingDataHandler F σ)
    (front : Bool) : ℕ → Vec3 F → Vec3 F → FiberType F → F → List (Vec3 F) → σ →
    F × FiberType F × σ
  | 0, _, _, fib, tractLength, _, s => (tractLength, fib, s)
  | steps + 1, pos, dir, fib, tractLength, last_dirs, s =>
    let oldIndex := h.WorldToIndex pos
    let pos := f.CalculateNewPosition pos dir
    if h.m_AbortTracking s then (tractLength, fib, s)
    else
      let tractLength := tractLength + f.m_StepSize
      let fib := if front then pos :: fib else fib ++ [pos]
      let curv := if f.m_AposterioriCurvCheck then CheckCurvature M fib front else 0
      if curv > 0 then
        (tractLength - f.m_StepSize * (curv : F), popPoints front curv fib, s)
      else if tractLength > f.m_MaxTractLength then (tractLength, fib, s)
      else
        let dir := dir.normalize M
        let last_dirs := last_dirs ++ [dir]
        let last_dirs :=
          if last_dirs.length > f.m_NumPreviousDirections then last_dirs.tail else last_dirs
        let r := f.GetNewDirection M h s pos last_dirs oldIndex
        if r.1.magnitude M < 1 / 10000 then (tractLength, fib, r.2)
        else followLoop f M h front steps pos r.1 fib tractLength last_dirs r.2

/-- Source `StreamlineTrackingFilter::FollowStreamline`.  The history starts with
`m_NumPreviousDirections - 1` zero vectors (unsigned 32-bit subtraction) and the loop runs
for `step = 0 .. m_MaxLength/2 - 1` (integer division truncating towards zero). -/
def StreamlineTrackingFilter.FollowStreamline (f : StreamlineTrackingFilter F) (M : MathEnv F)
    (h : TrackingDataHandler F σ) (s : σ) (pos dir : Vec3 F) (fib : FiberType F)
    (tractLength : F) (front : Bool) : F × FiberType F × σ :=
  followLoop f M h front (Int.tdiv f.m_MaxLength 2).toNat pos dir fib tractLength
    (List.replicate ((f.m_NumPreviousDirections + 4294967295) % 4294967296) (Vec3.fill 0)) s

/-! ## FiberToProbmap -/

/-- One iteration of the loop of `FiberToProbmap`; the state is the map and `last_idx`. -/
def probmapStep (h : TrackingDataHandler F σ) (acc : (Index3 → F) × Index3) (p : Vec3 F) :
    (Index3 → F) × Index3 :=
  let idx := h.TransformPhysicalPointToIndex p
  if idx ≠ acc.2 then
    (if h.RegionIsInside idx then fun v => if v = idx then acc.1 idx + 1 else acc.1 v
     else acc.1, idx)
  else acc

/-- Source `StreamlineTrackingFilter::FiberToProbmap`: `last_idx` starts at `(0,0,0)`. -/
def FiberToProbmap (h : TrackingDataHandler F σ) (probmap : Index3 → F) (fib : FiberType F) :
    Index3 → F :=
  (fib.foldl (probmapStep h) (probmap, ⟨0, 0, 0⟩)).1

/-! ## GenerateData -/

/-- The state that the workers of `GenerateData` share and change under `omp critical`. -/
structure SharedState (F : Type) where
  m_Tractogram : List (FiberType F)
  m_OutputProbabilityMap : Index3 → F
  m_CurrentTracts : ℕ
  m_StopTracking : Bool

/-- The worker-local part of one iteration of `GenerateData` for the seed `worldPos`: the
start direction, then the pass along `dir`, the insertion of the seed at the front and the
pass along `-dir`.  The result is `none` when the start direction has magnitude at most
`0.0001`, else the fiber and its tract length. -/
def StreamlineTrackingFilter.traceSeed (f : StreamlineTrackingFilter F) (M : MathEnv F)
    (h : TrackingDataHandler F σ) (s : σ) (worldPos : Vec3 F) :
    Option (FiberType F × F) × σ :=
  let olddirs := List.replicate f.m_NumPreviousDirections (Vec3.fill (0 : F))
  let r := if f.m_MaskInterpolator worldPos then h.ProposeDirection s worldPos olddirs ⟨0, 0, 0⟩
    else (Vec3.fill 0, s)
  if r.1.magnitude M > 1 / 10000 then
    let fwd := f.FollowStreamline M h r.2 worldPos r.1 [] 0 false
    let fib := worldPos :: fwd.2.1
    let bwd := f.FollowStreamline M h fwd.2.2 worldPos r.1.neg fib fwd.1 true
    (some (bwd.2.1, bwd.1), bwd.2.2)
  else (none, r.2)

/-- The `omp critical` block of `GenerateData` that follows the length and point-count
test: the fiber is stored (or rasterised) and counted when it is valid and tracking has not
been stopped, and the stop flag is raised once the counter has reached `m_MaxNumTracts`.
`m_CurrentTracts` is an unsigned 32-bit counter.  `IsValidFiber` is defined here because
the fiber has at least two points. -/
def StreamlineTrackingFilter.criticalSection (f : StreamlineTrackingFilter F)
    (h : TrackingDataHandler F σ) (sh : SharedState F) (fib : FiberType F) : SharedState F :=
  if f.IsValidFiber fib = some true then
    let sh1 : SharedState F :=
      if !sh.m_StopTracking then
        if !f.m_UseOutputProbabilityMap then
          { sh with m_Tractogram := sh.m_Tractogram ++ [fib],
                    m_CurrentTracts := (sh.m_CurrentTracts + 1) % 4294967296 }
        else
          { sh with m_OutputProbabilityMap := FiberToProbmap h sh.m_OutputProbabilityMap fib,
                    m_CurrentTracts := (sh.m_CurrentTracts + 1) % 4294967296 }
      else sh
    if f.m_MaxNumTracts > 0 ∧ (sh1.m_CurrentTracts : ℤ) ≥ f.m_MaxNumTracts % 4294967296 then
      { sh1 with m_StopTracking := true }
    else sh1
  else sh

/-- The acceptance test of `GenerateData` for a traced fiber: `tractLength >=
m_MinTractLength && counter >= 2`, then the critical block. -/
def StreamlineTrackingFilter.acceptFiber (f : StreamlineTrackingFilter F)
    (h : TrackingDataHandler F σ) (sh : SharedState F) (fib : FiberType F) (tractLength : F) :
    SharedState F :=
  if tractLength ≥ f.m_MinTractLength ∧ fib.length ≥ 2 then f.criticalSection h sh fib else sh

/-- One iteration of the loop of `GenerateData` for a claimed seed. -/
def StreamlineTrackingFilter.processSeed (f : StreamlineTrackingFilter F) (M : MathEnv F)
    (h : TrackingDataHandler F σ) (sh : SharedState F) (s : σ) (worldPos : Vec3 F) :
    SharedState F × σ :=
  match f.traceSeed M h s worldPos with
  | (some (fib, tractLength), s1) => (f.acceptFiber h sh fib tractLength, s1)
  | (none, s1) => (sh, s1)

/-- The loop of `GenerateData` run by one worker over the (already shuffled) seed list: a
seed is claimed while `m_StopTracking` is not set. -/
def StreamlineTrackingFilter.trackingLoop (f : StreamlineTrackingFilter F) (M : MathEnv F)
    (h : TrackingDataHandler F σ) : List (Vec3 F) → SharedState F → σ → SharedState F × σ
  | [], sh, s => (sh, s)
  | worldPos :: seeds, sh, s =>
    if sh.m_StopTracking then (sh, s)
    else
      let r := f.processSeed M h sh s worldPos
      f.trackingLoop M h seeds r.1 r.2

/-- The shared state at the start of the loop of `GenerateData`: `BeforeTracking` clears
the tractogram, fills the probability map with `0` and resets `m_StopTracking`;
`GenerateData` resets `m_CurrentTracts`. -/
def initialSharedState : SharedState F :=
  { m_Tractogram := [], m_OutputProbabilityMap := fun _ => 0, m_CurrentTracts := 0,
    m_StopTracking := false }

/-- Source `StreamlineTrackingFilter::GenerateData`, one worker, after `BeforeTracking` and
the shuffle of the seed points. -/
def StreamlineTrackingFilter.GenerateData (f : StreamlineTrackingFilter F) (M : MathEnv F)
    (h : TrackingDataHandler F σ) (seeds : List (Vec3 F)) (s : σ) : SharedState F × σ :=
  f.trackingLoop M h seeds initialSharedState s

/-- A schedule of the `omp parallel` loop of `GenerateData` with one worker per seed: every
worker claims its seed before the first fiber is finished, so every seed is traced, each
trace from the handler state `s` (tracing does not read the shared state); the workers then
enter the `omp critical` block one at a time in the order `completion`, given as positions in
the seed list. -/
def StreamlineTrackingFilter.parallelRound (f : StreamlineTrackingFilter F) (M : MathEnv F)
    (h : TrackingDataHandler F σ) (seeds : List (Vec3 F)) (s : σ) (completion : List ℕ) :
    SharedState F :=
  completion.foldl (fun sh k =>
    match seeds.get? k with
    | some worldPos => (f.processSeed M h sh s worldPos).1
    | none => sh) initialSharedState

/-! ## BeforeTracking -/

/-- The settings of the filter before `BeforeTracking`; `Img` is the image type and a null
image pointer is `none`. -/
structure FilterSettings (F Img : Type) where
  m_StoppingRegions : Option Img
  m_TargetRegions : Option Img
  m_SeedImage : Option Img
  m_MaskImage : Option Img
  m_AngularThresholdDeg : F
  m_StepSizeVox : F
  m_SamplingDistanceVox : F
  m_MaxLength : ℤ
  m_MinTractLength : F
  m_MaxTractLength : F
  m_AvoidStop : Bool
  m_RandomSampling : Bool
  m_DeflectionMod : F
  m_OnlyForwardSamples : Bool
  m_UseStopVotes : Bool
  m_NumberOfSamples : ℤ
  m_NumPreviousDirections : ℕ
  m_MaxNumTracts : ℤ
  m_AposterioriCurvCheck : Bool
  m_Random : Bool
  m_UseOutputProbabilityMap : Bool

/-- The image services that `BeforeTracking` uses: `IsInsideMask img pos` is
`mitk::imv::IsInsideMask(pos, m_InterpolateMask, interpolator)` for an interpolator whose
input image is `img` (`none`: no input image was set), and `FilledImage c` is a new image
with the geometry of the tracking handler and every voxel equal to `c`. -/
structure ImageEnv (F Img : Type) where
  IsInsideMask : Option Img → Vec3 F → Bool
  FilledImage : F → Img

/-- The value `minSpacing` of `BeforeTracking` for the spacing `imageSpacing`. -/
def minSpacing (imageSpacing : Vec3 F) : F :=
  if imageSpacing.x < imageSpacing.y ∧ imageSpacing.x < imageSpacing.z then imageSpacing.x
  else if imageSpacing.y < imageSpacing.z then imageSpacing.y
  else imageSpacing.z

/-- Source `StreamlineTrackingFilter::BeforeTracking`: the step size, the angular threshold
and the sampling distance are resolved against the smallest spacing, missing images are
replaced and the flags `m_TargetImageSet`, `m_SeedImageSet` record which were given.  The
target interpolator gets its input image only when a target image was given. -/
def BeforeTracking {Img : Type} (M : MathEnv F) (E : ImageEnv F Img) (imageSpacing : Vec3 F)
    (c : FilterSettings F Img) : StreamlineTrackingFilter F :=
  let minSp := minSpacing imageSpacing
  let stepSize := if c.m_StepSizeVox < M.eps then 1 / 2 * minSp else c.m_StepSizeVox * minSp
  let angularThreshold :=
    if c.m_AngularThresholdDeg < 0 then
      if stepSize / minSp ≤ 1 then M.cos (1 / 2 * M.M_PI * stepSize / minSp)
      else M.cos (1 / 2 * M.M_PI)
    else M.cos (c.m_AngularThresholdDeg * M.M_PI / 180)
  let samplingDistance :=
    if c.m_SamplingDistanceVox < M.eps then minSp * (1 / 4) else c.m_SamplingDistanceVox * minSp
  { m_StepSize := stepSize
    m_MaxLength := c.m_MaxLength
    m_MinTractLength := c.m_MinTractLength
    m_MaxTractLength := c.m_MaxTractLength
    m_AvoidStop := c.m_AvoidStop
    m_RandomSampling := c.m_RandomSampling
    m_SamplingDistance := samplingDistance
    m_AngularThreshold := angularThreshold
    m_DeflectionMod := c.m_DeflectionMod
    m_OnlyForwardSamples := c.m_OnlyForwardSamples
    m_UseStopVotes := c.m_UseStopVotes
    m_NumberOfSamples := c.m_NumberOfSamples
    m_NumPreviousDirections := c.m_NumPreviousDirections
    m_MaxNumTracts := c.m_MaxNumTracts
    m_AposterioriCurvCheck := c.m_AposterioriCurvCheck
    m_Random := c.m_Random
    m_UseOutputProbabilityMap := c.m_UseOutputProbabilityMap
    m_TargetImageSet := c.m_TargetRegions.isSome
    m_SeedImageSet := c.m_SeedImage.isSome
    m_MaskInterpolator := E.IsInsideMask (some (c.m_MaskImage.getD (E.FilledImage 1)))
    m_StopInterpolator := E.IsInsideMask (some (c.m_StoppingRegions.getD (E.FilledImage 0)))
    m_SeedInterpolator := E.IsInsideMask (some (c.m_SeedImage.getD (E.FilledImage 1)))
    m_TargetInterpolator := E.IsInsideMask c.m_TargetRegions }

/-! ## GetSeedPointsFromSeedImage -/

/-- The inner loop of `GetSeedPointsFromSeedImage` with `n` iterations left: three random
offsets in `[-0.5, 0.5]` are added to the voxel index and the result is mapped to world
coordinates by `toWorld` (`TransformContinuousIndexToPhysicalPoint` of the seed image). -/
def jitteredSeeds (h : TrackingDataHandler F σ) (toWorld : Vec3 F → Vec3 F) (index : Index3) :
    ℕ → σ → List (Vec3 F) × σ
  | 0, s => ([], s)
  | n + 1, s =>
    let r0 := h.GetRandDouble s (-(1 / 2)) (1 / 2)
    let r1 := h.GetRandDouble r0.2 (-(1 / 2)) (1 / 2)
    let r2 := h.GetRandDouble r1.2 (-(1 / 2)) (1 / 2)
    let worldPos := toWorld ⟨(index.i : F) + r0.1, (index.j : F) + r1.1, (index.k : F) + r2.1⟩
    let rest := jitteredSeeds h toWorld index n r2.2
    (worldPos :: rest.1, rest.2)

/-- The body of the voxel loop of `GetSeedPointsFromSeedImage` for one voxel, given as its
index and value: the seed points that the voxel appends to `m_SeedPoints`.  The inner loop
runs for `s = 1 .. m_SeedsPerVoxel - 1`. -/
def seedsOfVoxel (f : StreamlineTrackingFilter F) (h : TrackingDataHandler F σ)
    (m_SeedsPerVoxel : ℤ) (toWorld : Vec3 F → Vec3 F) (s : σ) (voxel : Index3 × F) :
    List (Vec3 F) × σ :=
  if voxel.2 > 0 then
    let worldPos := toWorld ⟨(voxel.1.i : F), (voxel.1.j : F), (voxel.1.k : F)⟩
    if f.m_MaskInterpolator worldPos then
      let r := jitteredSeeds h toWorld voxel.1 (m_SeedsPerVoxel - 1).toNat s
      (worldPos :: r.1, r.2)
    else ([], s)
  else ([], s)

/-- Source `StreamlineTrackingFilter::GetSeedPointsFromSeedImage`.  The seed image is given
by its voxels (index and value) in the order of the region iterator and by its
index-to-world transform `toWorld`; the result is `m_SeedPoints`. -/
def GetSeedPointsFromSeedImage (f : StreamlineTrackingFilter F) (h : TrackingDataHandler F σ)
    (m_SeedsPerVoxel : ℤ) (toWorld : Vec3 F → Vec3 F) :
    List (Index3 × F) → σ → List (Vec3 F) × σ
  | [], s => ([], s)
  | voxel :: voxels, s =>
    let r := seedsOfVoxel f h m_SeedsPerVoxel toWorld s voxel
    let rest := GetSeedPointsFromSeedImage f h m_SeedsPerVoxel toWorld voxels r.2
    (r.1 ++ rest.1, rest.2)

/-! ## Fragments of the loops, named for the statements -/

/-- The secondary probe offset of the avoid-stop branch of `GetNewDirection`: with
`dot = dot_product(d, olddir)`, the offset `d` is reflected (`-d + 2*dot*olddir`) when
`dot >= 0` and inverted (`-d`) otherwise. -/
def secondaryOffset (d olddir : Vec3 F) : Vec3 F :=
  if dot_product d olddir ≥ 0 then d.neg.add (olddir.scale (2 * dot_product d olddir))
  else d.neg

/-- The fragment `if (front) fib->push_front(pos); else fib->push_back(pos);` of
`FollowStreamline`. -/
def pushPoint (front : Bool) (pos : Vec3 F) (fib : FiberType F) : FiberType F :=
  if front then pos :: fib else fib ++ [pos]

/-- The fragment `dir.normalize(); last_dirs.push_back(dir); if (last_dirs.size() >
m_NumPreviousDirections) last_dirs.pop_front();` of `FollowStreamline`: the history that is
passed to `GetNewDirection` after a step in direction `dir`. -/
def pushDirection (f : StreamlineTrackingFilter F) (M : MathEnv F) (last_dirs : List (Vec3 F))
    (dir : Vec3 F) : List (Vec3 F) :=
  if (last_dirs ++ [dir.normalize M]).length > f.m_NumPreviousDirections then
    (last_dirs ++ [dir.normalize M]).tail
  else last_dirs ++ [dir.normalize M]

/-- The step loop of `FollowStreamline` together with a record of its calls of
`GetNewDirection`: for every call, in the order of the calls, the direction `dir` of the step
just taken (before `dir.normalize()`) and the history `last_dirs` that is passed.  The first
component is the result of the loop. -/
def followLoopLog (f : StreamlineTrackingFilter F) (M : MathEnv F) (h : TrackingDataHandler F σ)
    (front : Bool) : ℕ → Vec3 F → Vec3 F → FiberType F → F → List (Vec3 F) → σ →
    (F × FiberType F × σ) × List (Vec3 F × List (Vec3 F))
  | 0, _, _, fib, tractLength, _, s => ((tractLength, fib, s), [])
  | steps + 1, pos, dir, fib, tractLength, last_dirs, s =>
    let oldIndex := h.WorldToIndex pos
    let pos := f.CalculateNewPosition pos dir
    if h.m_AbortTracking s then ((tractLength, fib, s), [])
    else
      let tractLength := tractLength + f.m_StepSize
      let fib := if front then pos :: fib else fib ++ [pos]
      let curv := if f.m_AposterioriCurvCheck then CheckCurvature M fib front else 0
      if curv > 0 then
        ((tractLength - f.m_StepSize * (curv : F), popPoints front curv fib, s), [])
      else if tractLength > f.m_MaxTractLength then ((tractLength, fib, s), [])
      else
        let dirN := dir.normalize M
        let last_dirs := last_dirs ++ [dirN]
        let last_dirs :=
          if last_dirs.length > f.m_NumPreviousDirections then last_dirs.tail else last_dirs
        let r := f.GetNewDirection M h s pos last_dirs oldIndex
        if r.1.magnitude M < 1 / 10000 then ((tractLength, fib, r.2), [(dir, last_dirs)])
        else
          let rest := followLoopLog f M h front steps pos r.1 fib tractLength last_dirs r.2
          (rest.1, (dir, last_dirs) :: rest.2)

/-! ## Reference notions used in the statements -/

/-- The voxel indices at which a walk along the index sequence `path` enters a voxel that
differs from the voxel before it, `last` being the voxel before the first point. -/
def voxelEntries : Index3 → List Index3 → List Index3
  | _, [] => []
  | last, idx :: path =>
    if idx ≠ last then idx :: voxelEntries idx path else voxelEntries last path

/-- The count of the specification for `FiberToProbmap`: the number of positions `k` of the
index sequence `path` whose index is `v` and differs from the index at position `k - 1`,
where `(0,0,0)` is taken as the predecessor of the first position.  Every position is paired
with its predecessor by zipping the sequence with itself shifted by one. -/
def specVoxelCount (v : Index3) (path : List Index3) : ℕ :=
  (((⟨0, 0, 0⟩ : Index3) :: path).zip path).countP fun pc => decide (pc.2 = v ∧ pc.2 ≠ pc.1)

/-- The mean angular deviation in the words of the specification: over the segments inside
the 5 mm window from the growing end, the mean of the angle in degrees between the unit
segment and the unit tangent of the first segment. -/
def specMeanDeviation (M : MathEnv F) (fib : FiberType F) (front : Bool) : F :=
  ((curvatureVectors M (if front then fib else fib.reverse) 0).map fun v =>
      M.acos (dot_product
        ((curvatureVectors M (if front then fib else fib.reverse) 0).headD (Vec3.fill 0)) v)
        * 180 / M.M_PI).foldl (· + ·) 0 /
    ((curvatureVectors M (if front then fib else fib.reverse) 0).length : F)

end Filter

/-! ## Worked instances -/

/-- Square root on `ℚ` that is exact on squares of rationals (integer square roots of
numerator and denominator). -/
def ratSqrt (q : ℚ) : ℚ := (Nat.sqrt q.num.toNat : ℚ) / (Nat.sqrt q.den : ℚ)

/-- A numeric environment over `ℚ` for worked instances: `M_PI` is `22/7`, and the
trigonometric functions are step tables that take the exact values at the arguments that a
shell of two points needs (`acos 1 = 0`, `acos (-1) = M_PI`, `cos 0 = 1`,
`cos (±M_PI/2) = 0`, `sin 0 = 0`, `sin (±M_PI/2) = ±1`). -/
def ratMath : MathEnv ℚ :=
  { sqrt := ratSqrt
    acos := fun t => if t = 1 then 0 else if t = -1 then 22 / 7 else 11 / 7
    cos := fun t => if t = 0 then 1 else if t = 22 / 7 ∨ t = -(22 / 7) then -1 else 0
    sin := fun t => if t = 11 / 7 then 1 else if t = -(11 / 7) then -1 else 0
    M_PI := 22 / 7
    eps := 1 / 1000000 }

/-- Image services for worked instances: an image is its membership predicate, a filled
image is inside everywhere exactly when its value exceeds `1/2`, and an interpolator
without input image is inside nowhere. -/
def demoImages (F : Type) [LinearOrderedField F] : ImageEnv F (Vec3 F → Bool) :=
  { IsInsideMask := fun img pos => match img with
      | some m => m pos
      | none => false
    FilledImage := fun c _ => decide (c > 1 / 2) }

/-- Settings for worked instances: step size one voxel, two probe directions, tract length
between `1` and `3`, no masks, at most `m_MaxLength / 2 = 5` steps per pass. -/
def demoSettings (F : Type) [LinearOrderedField F] : FilterSettings F (Vec3 F → Bool) :=
  { m_StoppingRegions := none
    m_TargetRegions := none
    m_SeedImage := none
    m_MaskImage := none
    m_AngularThresholdDeg := -1
    m_StepSizeVox := 1
    m_SamplingDistanceVox := 1 / 4
    m_MaxLength := 10
    m_MinTractLength := 1
    m_MaxTractLength := 3
    m_AvoidStop := true
    m_RandomSampling := false
    m_DeflectionMod := 1
    m_OnlyForwardSamples := true
    m_UseStopVotes := true
    m_NumberOfSamples := 2
    m_NumPreviousDirections := 1
    m_MaxNumTracts := -1
    m_AposterioriCurvCheck := false
    m_Random := false
    m_UseOutputProbabilityMap := false }

/-- A handler for worked instances: the field is the z axis everywhere, returned with the
sign of the z component of the latest previous direction; the state counts the queries
made so far and abort is never requested. -/
def demoHandler (F : Type) [LinearOrderedField F] : TrackingDataHandler F ℕ :=
  { ProposeDirection := fun s _ olddirs _ =>
      (if (olddirs.getLastD (Vec3.fill 0)).z < 0 then ⟨0, 0, -1⟩ else ⟨0, 0, 1⟩, s + 1)
    GetRandDouble := fun s lo _ => (lo, s + 1)
    WorldToIndex := fun _ => ⟨0, 0, 0⟩
    TransformPhysicalPointToIndex := fun _ => ⟨0, 0, 0⟩
    RegionIsInside := fun _ => true
    m_AbortTracking := fun _ => false }

/-- The filter that `BeforeTracking` derives from `demoSettings` on unit voxels. -/
def demoFilter : StreamlineTrackingFilter ℚ :=
  BeforeTracking ratMath (demoImages ℚ) ⟨1, 1, 1⟩ (demoSettings ℚ)

/-- The filter for `demoSettings` with a seed region `x < 0` and a target region `x > 10`. -/
def regionFilter : StreamlineTrackingFilter ℚ :=
  BeforeTracking ratMath (demoImages ℚ) ⟨1, 1, 1⟩
    { demoSettings ℚ with
      m_SeedImage := some fun p => decide (p.x < 0)
      m_TargetRegions := some fun p => decide (p.x > 10) }

/-- The filter for `demoSettings` with a target region `x > 10` and no seed region. -/
def targetFilter : StreamlineTrackingFilter ℚ :=
  BeforeTracking ratMath (demoImages ℚ) ⟨1, 1, 1⟩
    { demoSettings ℚ with m_TargetRegions := some fun p => decide (p.x > 10) }

/-- The filter for `demoSettings` with a seed region `x < 0` and no target region. -/
def seedOnlyFilter : StreamlineTrackingFilter ℚ :=
  BeforeTracking ratMath (demoImages ℚ) ⟨1, 1, 1⟩
    { demoSettings ℚ with m_SeedImage := some fun p => decide (p.x < 0) }

/-- The filter for `demoSettings` with the tracking mask `z < 1/5`. -/
def maskedFilter : StreamlineTrackingFilter ℚ :=
  BeforeTracking ratMath (demoImages ℚ) ⟨1, 1, 1⟩
    { demoSettings ℚ with m_MaskImage := some fun p => decide (p.z < 1 / 5) }

/-- The filter for `demoSettings` with at most one accepted tract. -/
def cutoffFilter : StreamlineTrackingFilter ℚ :=
  BeforeTracking ratMath (demoImages ℚ) ⟨1, 1, 1⟩ { demoSettings ℚ with m_MaxNumTracts := 1 }

/-- The filter for `demoSettings` with a single neighbourhood sample. -/
def oneSampleFilter : StreamlineTrackingFilter ℚ :=
  BeforeTracking ratMath (demoImages ℚ) ⟨1, 1, 1⟩ { demoSettings ℚ with m_NumberOfSamples := 1 }

/-- The filter for `demoSettings` without neighbourhood samples (`m_NumberOfSamples = 0`). -/
def zeroSampleFilter : StreamlineTrackingFilter ℚ :=
  BeforeTracking ratMath (demoImages ℚ) ⟨1, 1, 1⟩ { demoSettings ℚ with m_NumberOfSamples := 0 }

/-- The filter for `demoSettings` with the a-posteriori curvature check, one neighbourhood
sample, maximum tract length `20` and at most `20` steps per pass. -/
def curvFilter : StreamlineTrackingFilter ℚ :=
  BeforeTracking ratMath (demoImages ℚ) ⟨1, 1, 1⟩
    { demoSettings ℚ with
      m_AposterioriCurvCheck := true
      m_NumberOfSamples := 1
      m_MaxTractLength := 20
      m_MaxLength := 40 }

/-- The filter for `demoSettings` with the probability map as output. -/
def probmapFilter : StreamlineTrackingFilter ℚ :=
  BeforeTracking ratMath (demoImages ℚ) ⟨1, 1, 1⟩
    { demoSettings ℚ with m_UseOutputProbabilityMap := true }

/-- A handler whose field vanishes for `z ≥ 8`, points up the z axis for `z ≤ -1` and
otherwise is the z axis with the sign of the latest previous direction: a path that runs
down the z axis is turned around at `z = -1`. -/
def reversingHandler (F : Type) [LinearOrderedField F] : TrackingDataHandler F ℕ :=
  { demoHandler F with
    ProposeDirection := fun s pos olddirs _ =>
      (if pos.z ≥ 8 then Vec3.fill 0
       else if pos.z ≤ -1 then ⟨0, 0, 1⟩
       else if (olddirs.getLastD (Vec3.fill 0)).z < 0 then ⟨0, 0, -1⟩ else ⟨0, 0, 1⟩, s + 1) }

/-- The handler `demoHandler` with the abort flag set from the third query on. -/
def abortingHandler (F : Type) [LinearOrderedField F] : TrackingDataHandler F ℕ :=
  { demoHandler F with m_AbortTracking := fun s => decide (3 ≤ s) }

/-- The handler `demoHandler` with the abort flag set throughout. -/
def abortedHandler (F : Type) [LinearOrderedField F] : TrackingDataHandler F ℕ :=
  { demoHandler F with m_AbortTracking := fun _ => true }

/-- The handler `demoHandler` over `ℚ` with unit voxels: a point lies in the voxel of the
integer parts of its coordinates and the volume has `10 × 10 × 10` voxels. -/
def gridHandler : TrackingDataHandler ℚ ℕ :=
  { demoHandler ℚ with
    TransformPhysicalPointToIndex := fun p => ⟨⌊p.x⌋, ⌊p.y⌋, ⌊p.z⌋⟩
    RegionIsInside := fun v =>
      decide (0 ≤ v.i ∧ v.i < 10 ∧ 0 ≤ v.j ∧ v.j < 10 ∧ 0 ≤ v.k ∧ v.k < 10) }

/-- The filter for `demoSettings` with the stop mask `-1/2 < z < 1/2 or z ≥ 2`: the origin
lies inside the stop mask, and so does the second point of a path up the z axis. -/
def stopFilter : StreamlineTrackingFilter ℚ :=
  BeforeTracking ratMath (demoImages ℚ) ⟨1, 1, 1⟩
    { demoSettings ℚ with
      m_StoppingRegions := some fun p => decide ((-(1 / 2) < p.z ∧ p.z < 1 / 2) ∨ 2 ≤ p.z) }

/-! ## Theorems -/

/-! ### IsValidFiber (C1, C2, C3) -/

/-- C1: with a target region and a seed region configured, `IsValidFiber` returns for a
fiber with front endpoint `front` and back endpoint `back` the truth value of (front in seed
region and back in target region) or (back in seed region and front in target region). -/
theorem IsValidFiber_target_and_seed {F : Type} (f : StreamlineTrackingFilter F) (fib : FiberType F)
    (front back : Vec3 F) (hT : f.m_TargetImageSet = true) (hS : f.m_SeedImageSet = true)
    (hfront : fib.head? = some front) (hback : fib.getLast? = some back) :
    f.IsValidFiber fib =
      some ((f.m_SeedInterpolator front && f.m_TargetInterpolator back) ||
            (f.m_SeedInterpolator back && f.m_TargetInterpolator front)) := by
  unfold StreamlineTrackingFilter.IsValidFiber
  rw [hT, hS, hfront, hback]
  cases h1 : f.m_SeedInterpolator front <;> cases h2 : f.m_TargetInterpolator back <;>
    cases h3 : f.m_SeedInterpolator back <;> cases h4 : f.m_TargetInterpolator front <;>
    simp [h1, h2, h3, h4]

/-- Witness for C1: a fiber from `x = 11` to `x = -1` in the filter with both regions. -/
theorem IsValidFiber_target_and_seed_witness :
    regionFilter.m_TargetImageSet = true ∧ regionFilter.m_SeedImageSet = true ∧
    regionFilter.IsValidFiber [⟨11, 0, 0⟩, ⟨5, 0, 0⟩, ⟨-1, 0, 0⟩] =
      some ((regionFilter.m_SeedInterpolator ⟨11, 0, 0⟩ &&
              regionFilter.m_TargetInterpolator ⟨-1, 0, 0⟩) ||
            (regionFilter.m_SeedInterpolator ⟨-1, 0, 0⟩ &&
              regionFilter.m_TargetInterpolator ⟨11, 0, 0⟩)) :=
  ⟨rfl, rfl, IsValidFiber_target_and_seed regionFilter [⟨11, 0, 0⟩, ⟨5, 0, 0⟩, ⟨-1, 0, 0⟩]
    ⟨11, 0, 0⟩ ⟨-1, 0, 0⟩ rfl rfl rfl rfl⟩

/-- C2: with a target region and no seed region configured, `IsValidFiber` returns for a
fiber with front endpoint `front` and back endpoint `back` the truth value of: both
endpoints are inside the target region. -/
theorem IsValidFiber_target_only {F : Type} (f : StreamlineTrackingFilter F) (fib : FiberType F)
    (front back : Vec3 F) (hT : f.m_TargetImageSet = true) (hS : f.m_SeedImageSet = false)
    (hfront : fib.head? = some front) (hback : fib.getLast? = some back) :
    f.IsValidFiber fib = some (f.m_TargetInterpolator front && f.m_TargetInterpolator back) := by
  unfold StreamlineTrackingFilter.IsValidFiber
  rw [hT, hS, hfront, hback]
  cases h1 : f.m_TargetInterpolator front <;> cases h2 : f.m_TargetInterpolator back <;>
    simp [h1, h2]

/-- Witness for C2: a fiber from `x = 11` to `x = 12` in the filter with a target only. -/
theorem IsValidFiber_target_only_witness :
    targetFilter.m_TargetImageSet = true ∧ targetFilter.m_SeedImageSet = false ∧
    targetFilter.IsValidFiber [⟨11, 0, 0⟩, ⟨12, 0, 0⟩] =
      some (targetFilter.m_TargetInterpolator ⟨11, 0, 0⟩ &&
            targetFilter.m_TargetInterpolator ⟨12, 0, 0⟩) :=
  ⟨rfl, rfl, IsValidFiber_target_only targetFilter [⟨11, 0, 0⟩, ⟨12, 0, 0⟩]
    ⟨11, 0, 0⟩ ⟨12, 0, 0⟩ rfl rfl rfl rfl⟩

/-- C3: when `BeforeTracking` is given no target image, and more generally whenever
`m_TargetImageSet` is not set, `IsValidFiber` returns true for every fiber (the empty one
included), whatever its endpoints and whether or not a seed region is configured. -/
theorem IsValidFiber_no_target {F Img : Type} [LinearOrderedField F] (M : MathEnv F)
    (E : ImageEnv F Img) (imageSpacing : Vec3 F) (c : FilterSettings F Img)
    (f : StreamlineTrackingFilter F) (fib : FiberType F) :
    (c.m_TargetRegions = none →
      (BeforeTracking M E imageSpacing c).IsValidFiber fib = some true) ∧
    (f.m_TargetImageSet = false → f.IsValidFiber fib = some true) := by
  constructor
  · intro hnone
    unfold StreamlineTrackingFilter.IsValidFiber BeforeTracking
    simp only [hnone, Option.isSome_none, Bool.false_and, Bool.false_eq_true, if_false]
  · intro hT
    unfold StreamlineTrackingFilter.IsValidFiber
    rw [hT]
    rfl

/-- Witness for C3: a seed region `x < 0` without target region, and a fiber that stays
away from the seed region. -/
theorem IsValidFiber_no_target_witness :
    seedOnlyFilter.m_TargetImageSet = false ∧ seedOnlyFilter.m_SeedImageSet = true ∧
    seedOnlyFilter.m_SeedInterpolator ⟨5, 0, 0⟩ = false ∧
    seedOnlyFilter.IsValidFiber [⟨5, 0, 0⟩, ⟨6, 0, 0⟩] = some true :=
  ⟨rfl, rfl, by decide!,
   (IsValidFiber_no_target ratMath (demoImages ℚ) ⟨1, 1, 1⟩
      { demoSettings ℚ with m_SeedImage := some fun p => decide (p.x < 0) }
      seedOnlyFilter [⟨5, 0, 0⟩, ⟨6, 0, 0⟩]).1 rfl⟩

/-! ### GetNewDirection (C7, C8, C9, C10) -/

/-- C9: at a position outside the tracking mask or inside the stop mask `GetNewDirection`
returns the zero vector and leaves the state of the tracking handler as it was, for every
handler: no direction is proposed and no neighbourhood sample or random number is drawn. -/
theorem GetNewDirection_outside_mask {F : Type} [LinearOrderedField F] {σ : Type}
    (f : StreamlineTrackingFilter F) (M : MathEnv F) (h : TrackingDataHandler F σ) (s : σ)
    (pos : Vec3 F) (olddirs : List (Vec3 F)) (oldIndex : Index3)
    (hout : f.m_MaskInterpolator pos = false ∨ f.m_StopInterpolator pos = true) :
    f.GetNewDirection M h s pos olddirs oldIndex = (Vec3.fill 0, s) := by
  unfold StreamlineTrackingFilter.GetNewDirection
  rcases hout with hm | hs
  · simp [hm]
  · simp [hs]

/-- Witness for C9: outside the mask `z < 1/5` the query counter of the handler stays `0`. -/
theorem GetNewDirection_outside_mask_witness :
    maskedFilter.m_MaskInterpolator ⟨0, 0, 1⟩ = false ∧
    maskedFilter.GetNewDirection ratMath (demoHandler ℚ) 0 ⟨0, 0, 1⟩ [⟨0, 0, 1⟩] ⟨0, 0, 0⟩ =
      (Vec3.fill 0, 0) :=
  ⟨by decide!, GetNewDirection_outside_mask maskedFilter ratMath (demoHandler ℚ) 0 ⟨0, 0, 1⟩
    [⟨0, 0, 1⟩] ⟨0, 0, 0⟩ (Or.inl (by decide!))⟩

/-- C10: for fewer than two samples `CreateDirections` is empty and `GetNewDirection`,
past the mask test, returns the proposal at the current position, normalised when its
magnitude exceeds `0.001` and replaced by the zero vector otherwise; no neighbourhood or
deflection term is added and the handler is queried once. -/
theorem GetNewDirection_few_samples {F : Type} [LinearOrderedField F] {σ : Type}
    (f : StreamlineTrackingFilter F) (M : MathEnv F) (h : TrackingDataHandler F σ) (s : σ)
    (pos : Vec3 F) (olddirs : List (Vec3 F)) (oldIndex : Index3)
    (hN : f.m_NumberOfSamples < 2) :
    CreateDirections M f.m_NumberOfSamples = [] ∧
    f.GetNewDirection M h s pos olddirs oldIndex =
      if f.m_MaskInterpolator pos && !f.m_StopInterpolator pos then
        (if (h.ProposeDirection s pos olddirs oldIndex).1.magnitude M > 1 / 1000 then
            (h.ProposeDirection s pos olddirs oldIndex).1.normalize M
          else Vec3.fill 0,
         (h.ProposeDirection s pos olddirs oldIndex).2)
      else (Vec3.fill 0, s) := by
  have hempty : CreateDirections M f.m_NumberOfSamples = [] := by
    unfold CreateDirections
    rw [if_pos hN]
  refine ⟨hempty, ?_⟩
  unfold StreamlineTrackingFilter.GetNewDirection
  simp only [hempty, probeLoop, List.foldl_nil, finalDirection, true_or, and_true]

/-- Witness for C10: one sample, proposal `(0,0,1)` at the origin. -/
theorem GetNewDirection_few_samples_witness :
    oneSampleFilter.m_NumberOfSamples < 2 ∧
    CreateDirections ratMath oneSampleFilter.m_NumberOfSamples = [] ∧
    oneSampleFilter.GetNewDirection ratMath (demoHandler ℚ) 0 ⟨0, 0, 0⟩ [⟨0, 0, 1⟩] ⟨0, 0, 0⟩ =
      (⟨0, 0, 1⟩, 1) := by
  have key := GetNewDirection_few_samples oneSampleFilter ratMath (demoHandler ℚ) 0 ⟨0, 0, 0⟩
    [⟨0, 0, 1⟩] ⟨0, 0, 0⟩ (by decide!)
  refine ⟨by decide!, key.1, ?_⟩
  rw [key.2]
  decide!

/-- The probe samples leave the count of possible stop votes as it is. -/
theorem probeSample_possible_stop_votes {F : Type} [LinearOrderedField F] {σ : Type}
    (f : StreamlineTrackingFilter F) (M : MathEnv F) (h : TrackingDataHandler F σ)
    (pos : Vec3 F) (olddirs : List (Vec3 F)) (oldIndex : Index3) (olddir : Vec3 F)
    (v : Bool) (d : Vec3 F) (st : ProbeState F σ) :
    (probeSample f M h pos olddirs oldIndex olddir v d st).possible_stop_votes =
      st.possible_stop_votes := by
  unfold probeSample
  simp only
  split_ifs <;> rfl

/-- The stop-vote tally never decreases in a probe sample. -/
theorem probeSample_stop_votes_le {F : Type} [LinearOrderedField F] {σ : Type}
    (f : StreamlineTrackingFilter F) (M : MathEnv F) (h : TrackingDataHandler F σ)
    (pos : Vec3 F) (olddirs : List (Vec3 F)) (oldIndex : Index3) (olddir : Vec3 F)
    (v : Bool) (d : Vec3 F) (st : ProbeState F σ) :
    st.stop_votes ≤ (probeSample f M h pos olddirs oldIndex olddir v d st).stop_votes := by
  unfold probeSample
  simp only
  split_ifs <;> simp

/-- A stop voter whose primary sample is degenerate raises the tally by one. -/
theorem probeSample_stop_votes_voter {F : Type} [LinearOrderedField F] {σ : Type}
    (f : StreamlineTrackingFilter F) (M : MathEnv F) (h : TrackingDataHandler F σ)
    (pos : Vec3 F) (olddirs : List (Vec3 F)) (oldIndex : Index3) (olddir : Vec3 F)
    (d : Vec3 F) (st : ProbeState F σ)
    (hdeg : ¬ ((sampleNeighborhood f h olddirs oldIndex st.handler (pos.add d)).1.magnitude M
      > M.eps)) :
    (probeSample f M h pos olddirs oldIndex olddir true d st).stop_votes =
      st.stop_votes + 1 := by
  unfold probeSample
  simp only
  rw [if_neg hdeg]
  split_ifs <;> rfl

/-- The counters after one deterministic probe step with stop votes enabled: a stop voter
adds one possible vote, and one stop vote when its primary sample is degenerate. -/
theorem probeStep_votes {F : Type} [LinearOrderedField F] {σ : Type}
    (f : StreamlineTrackingFilter F) (M : MathEnv F) (h : TrackingDataHandler F σ)
    (pos : Vec3 F) (olddirs : List (Vec3 F)) (oldIndex : Index3) (olddir : Vec3 F)
    (deg : Vec3 F → Bool) (hsv : f.m_UseStopVotes = true)
    (hdet : (f.m_Random && f.m_RandomSampling) = false) (d : Vec3 F)
    (hdeg : dot_product d olddir > 7 / 10 → deg d = true → ∀ s : σ,
      ¬ ((sampleNeighborhood f h olddirs oldIndex s
          (pos.add (d.scale f.m_SamplingDistance))).1.magnitude M > M.eps))
    (st : ProbeState F σ) :
    (probeStep f M h pos olddirs oldIndex olddir st d).possible_stop_votes =
        st.possible_stop_votes + (if dot_product d olddir > 7 / 10 then 1 else 0) ∧
    st.stop_votes + (if dot_product d olddir > 7 / 10 ∧ deg d = true then 1 else 0) ≤
        (probeStep f M h pos olddirs oldIndex olddir st d).stop_votes := by
  unfold probeStep
  simp only [hdet, hsv, Bool.true_and, Bool.false_eq_true, if_false, decide_eq_true_eq]
  by_cases hv : dot_product d olddir > 7 / 10
  · simp only [hv, if_true, true_and]
    refine ⟨by rw [probeSample_possible_stop_votes], ?_⟩
    by_cases hd : deg d = true
    · rw [if_pos hd, probeSample_stop_votes_voter _ _ _ _ _ _ _ _ _ (hdeg hv hd _)]
    · rw [if_neg hd, add_zero]
      exact probeSample_stop_votes_le f M h pos olddirs oldIndex olddir true
        (d.scale f.m_SamplingDistance)
        { st with possible_stop_votes := st.possible_stop_votes + 1 }
  · simp only [hv, if_false, false_and, add_zero]
    split_ifs
    · exact ⟨rfl, le_refl _⟩
    · exact ⟨probeSample_possible_stop_votes f M h pos olddirs oldIndex olddir false _ _,
        probeSample_stop_votes_le f M h pos olddirs oldIndex olddir false _ _⟩

/-- The counters after the deterministic probe loop with stop votes enabled: the possible
votes count the stop voters, and the tally is at least the number of stop voters that are
known to obtain a degenerate primary sample. -/
theorem probeLoop_votes {F : Type} [LinearOrderedField F] {σ : Type}
    (f : StreamlineTrackingFilter F) (M : MathEnv F) (h : TrackingDataHandler F σ)
    (pos : Vec3 F) (olddirs : List (Vec3 F)) (oldIndex : Index3) (olddir : Vec3 F)
    (deg : Vec3 F → Bool) (hsv : f.m_UseStopVotes = true)
    (hdet : (f.m_Random && f.m_RandomSampling) = false) (probeVecs : List (Vec3 F))
    (hdeg : ∀ d ∈ probeVecs, dot_product d olddir > 7 / 10 → deg d = true → ∀ s : σ,
      ¬ ((sampleNeighborhood f h olddirs oldIndex s
          (pos.add (d.scale f.m_SamplingDistance))).1.magnitude M > M.eps))
    (st : ProbeState F σ) :
    (probeLoop f M h pos olddirs oldIndex olddir st probeVecs).possible_stop_votes =
        st.possible_stop_votes +
          (probeVecs.filter fun d => decide (dot_product d olddir > 7 / 10)).length ∧
    st.stop_votes +
        ((probeVecs.filter fun d => decide (dot_product d olddir > 7 / 10)).filter deg).length ≤
      (probeLoop f M h pos olddirs oldIndex olddir st probeVecs).stop_votes := by
  induction probeVecs generalizing st with
  | nil => simp [probeLoop]
  | cons d ds ih =>
    have hstep := probeStep_votes f M h pos olddirs oldIndex olddir deg hsv hdet d
      (hdeg d (List.mem_cons_self d ds)) st
    have hrest := ih (fun e he => hdeg e (List.mem_cons_of_mem d he))
      (probeStep f M h pos olddirs oldIndex olddir st d)
    unfold probeLoop at hrest ⊢
    rw [List.foldl_cons]
    rw [hstep.1] at hrest
    by_cases hv : dot_product d olddir > 7 / 10
    · by_cases hd : deg d = true
      · have h2 := hstep.2
        simp only [hv, hd, and_self, if_true] at h2 hrest
        simp only [List.filter_cons, hv, decide_True, if_true, hd, List.length_cons]
        exact ⟨by rw [hrest.1]; omega, by omega⟩
      · have h2 := hstep.2
        simp only [hv, hd, and_false, if_false, if_true, add_zero] at h2 hrest
        simp only [List.filter_cons, hv, decide_True, if_true, hd, List.length_cons]
        exact ⟨by rw [hrest.1]; omega, by simp only [Bool.false_eq_true, if_false]; omega⟩
    · have h2 := hstep.2
      simp only [hv, false_and, if_false, add_zero] at h2 hrest
      simp only [List.filter_cons, hv, decide_False, Bool.false_eq_true, if_false]
      exact ⟨hrest.1, by omega⟩

/-- C7: with stop votes enabled and deterministic sampling, if more than half of the stop
voters (the probe vectors whose dot product with the previous direction exceeds `0.7`;
hence at least one) are known to obtain a degenerate primary sample (magnitude not above
`mitk::eps`, in whatever state the handler is), `GetNewDirection` returns the zero vector,
whatever the remaining probes contribute. -/
theorem GetNewDirection_stop_vote_majority {F : Type} [LinearOrderedField F] {σ : Type}
    (f : StreamlineTrackingFilter F) (M : MathEnv F) (h : TrackingDataHandler F σ) (s : σ)
    (pos : Vec3 F) (olddirs : List (Vec3 F)) (oldIndex : Index3) (deg : Vec3 F → Bool)
    (hsv : f.m_UseStopVotes = true) (hdet : (f.m_Random && f.m_RandomSampling) = false)
    (hdeg : ∀ d ∈ CreateDirections M f.m_NumberOfSamples,
      dot_product d (olddirs.getLastD (Vec3.fill 0)) > 7 / 10 → deg d = true → ∀ s1 : σ,
      ¬ ((sampleNeighborhood f h olddirs oldIndex s1
          (pos.add (d.scale f.m_SamplingDistance))).1.magnitude M > M.eps))
    (hmaj : ((CreateDirections M f.m_NumberOfSamples).filter fun d =>
        decide (dot_product d (olddirs.getLastD (Vec3.fill 0)) > 7 / 10)).length <
      2 * (((CreateDirections M f.m_NumberOfSamples).filter fun d =>
        decide (dot_product d (olddirs.getLastD (Vec3.fill 0)) > 7 / 10)).filter deg).length) :
    (f.GetNewDirection M h s pos olddirs oldIndex).1 = Vec3.fill 0 := by
  unfold StreamlineTrackingFilter.GetNewDirection
  split_ifs with hgate
  · have hv := probeLoop_votes f M h pos olddirs oldIndex (olddirs.getLastD (Vec3.fill 0)) deg
      hsv hdet (CreateDirections M f.m_NumberOfSamples) hdeg
      { direction := (h.ProposeDirection s pos olddirs oldIndex).1, stop_votes := 0,
        possible_stop_votes := 0, handler := (h.ProposeDirection s pos olddirs oldIndex).2 }
    simp only [zero_add] at hv
    obtain ⟨hp, hs⟩ := hv
    have hDV := List.length_filter_le deg ((CreateDirections M f.m_NumberOfSamples).filter
      fun d => decide (dot_product d (olddirs.getLastD (Vec3.fill 0)) > 7 / 10))
    simp only
    unfold finalDirection
    rw [if_neg]
    rintro ⟨-, h0 | hlt⟩
    · rw [hp] at h0
      omega
    · rw [hp] at hlt
      have hpos : (0 : F) < ((((CreateDirections M f.m_NumberOfSamples).filter fun d =>
          decide (dot_product d (olddirs.getLastD (Vec3.fill 0)) > 7 / 10)).length : ℕ) : F) := by
        exact_mod_cast (by omega : 0 < ((CreateDirections M f.m_NumberOfSamples).filter fun d =>
          decide (dot_product d (olddirs.getLastD (Vec3.fill 0)) > 7 / 10)).length)
      rw [div_lt_iff₀ hpos] at hlt
      have hcast : ((((CreateDirections M f.m_NumberOfSamples).filter fun d =>
          decide (dot_product d (olddirs.getLastD (Vec3.fill 0)) > 7 / 10)).length : ℕ) : F) <
          2 * ((probeLoop f M h pos olddirs oldIndex (olddirs.getLastD (Vec3.fill 0))
            { direction := (h.ProposeDirection s pos olddirs oldIndex).1, stop_votes := 0,
              possible_stop_votes := 0,
              handler := (h.ProposeDirection s pos olddirs oldIndex).2 }
            (CreateDirections M f.m_NumberOfSamples)).stop_votes : F) := by
        exact_mod_cast (by omega : ((CreateDirections M f.m_NumberOfSamples).filter fun d =>
          decide (dot_product d (olddirs.getLastD (Vec3.fill 0)) > 7 / 10)).length <
          2 * (probeLoop f M h pos olddirs oldIndex (olddirs.getLastD (Vec3.fill 0))
            { direction := (h.ProposeDirection s pos olddirs oldIndex).1, stop_votes := 0,
              possible_stop_votes := 0,
              handler := (h.ProposeDirection s pos olddirs oldIndex).2 }
            (CreateDirections M f.m_NumberOfSamples)).stop_votes)
      linarith
  · rfl

/-- Witness for C7: at the origin with previous direction `(0,0,1)` and the tracking mask
`z < 1/5`, the only stop voter `(0,0,1)` samples outside the mask. -/
theorem GetNewDirection_stop_vote_majority_witness :
    maskedFilter.m_UseStopVotes = true ∧
    (maskedFilter.m_Random && maskedFilter.m_RandomSampling) = false ∧
    ((CreateDirections ratMath maskedFilter.m_NumberOfSamples).filter fun d =>
      decide (dot_product d (([⟨0, 0, 1⟩] : List (Vec3 ℚ)).getLastD (Vec3.fill 0)) > 7 / 10))
      = [⟨0, 0, 1⟩] ∧
    maskedFilter.m_MaskInterpolator ⟨0, 0, 0⟩ = true ∧
    (maskedFilter.GetNewDirection ratMath (demoHandler ℚ) 0 ⟨0, 0, 0⟩ [⟨0, 0, 1⟩]
      ⟨0, 0, 0⟩).1 = Vec3.fill 0 := by
  have hl : CreateDirections ratMath maskedFilter.m_NumberOfSamples =
      [⟨0, 0, 1⟩, ⟨0, 0, -1⟩] := by decide!
  refine ⟨rfl, rfl, by decide!, by decide!,
    GetNewDirection_stop_vote_majority maskedFilter ratMath (demoHandler ℚ) 0 ⟨0, 0, 0⟩
      [⟨0, 0, 1⟩] ⟨0, 0, 0⟩ (fun _ => true) rfl rfl ?_ (by decide!)⟩
  intro d hd hv _ s1
  rw [hl] at hd
  simp only [List.mem_cons, List.mem_singleton, List.not_mem_nil, or_false] at hd
  rcases hd with rfl | rfl
  · have hs : sampleNeighborhood maskedFilter (demoHandler ℚ) [⟨0, 0, 1⟩] ⟨0, 0, 0⟩ s1
        ((⟨0, 0, 0⟩ : Vec3 ℚ).add ((⟨0, 0, 1⟩ : Vec3 ℚ).scale maskedFilter.m_SamplingDistance))
        = (Vec3.fill 0, s1) := by
      unfold sampleNeighborhood
      rw [if_neg (by decide!)]
    rw [hs]
    show ¬ ((Vec3.fill 0 : Vec3 ℚ).magnitude ratMath > ratMath.eps)
    decide!
  · exact absurd hv (by decide!)

/-- The squared magnitude is a sum of squares. -/
theorem squared_magnitude_nonneg {F : Type} [LinearOrderedField F] (v : Vec3 F) :
    0 ≤ v.squared_magnitude := by
  unfold Vec3.squared_magnitude dot_product
  have hx := mul_self_nonneg v.x
  have hy := mul_self_nonneg v.y
  have hz := mul_self_nonneg v.z
  linarith

/-- Scaling multiplies the squared magnitude by the square of the factor. -/
theorem squared_magnitude_scale {F : Type} [LinearOrderedField F] (v : Vec3 F) (c : F) :
    (v.scale c).squared_magnitude = c * c * v.squared_magnitude := by
  unfold Vec3.squared_magnitude dot_product Vec3.scale
  ring

/-- With an exact square root, a non-negative number whose square is one is one. -/
theorem sqrt_one_of_exact {F : Type} [LinearOrderedField F] (M : MathEnv F)
    (hsqrt : ∀ x : F, 0 ≤ x → 0 ≤ M.sqrt x ∧ M.sqrt x * M.sqrt x = x) : M.sqrt 1 = 1 := by
  obtain ⟨h0, h1⟩ := hsqrt 1 zero_le_one
  have hfac : (M.sqrt 1 - 1) * (M.sqrt 1 + 1) = 0 := by
    have : (M.sqrt 1 - 1) * (M.sqrt 1 + 1) = M.sqrt 1 * M.sqrt 1 - 1 := by ring
    rw [this, h1, sub_self]
  rcases mul_eq_zero.mp hfac with h | h
  · linarith
  · linarith

/-- With an exact square root, normalising a non-zero vector gives a vector of magnitude
one. -/
theorem magnitude_normalize {F : Type} [LinearOrderedField F] (M : MathEnv F)
    (hsqrt : ∀ x : F, 0 ≤ x → 0 ≤ M.sqrt x ∧ M.sqrt x * M.sqrt x = x) (v : Vec3 F)
    (hne : v.squared_magnitude ≠ 0) : (v.normalize M).magnitude M = 1 := by
  obtain ⟨hr0, hrr⟩ := hsqrt v.squared_magnitude (squared_magnitude_nonneg v)
  have hrne : M.sqrt v.squared_magnitude ≠ 0 := by
    intro h0
    rw [h0, mul_zero] at hrr
    exact hne hrr.symm
  unfold Vec3.normalize Vec3.magnitude
  rw [if_pos hne, squared_magnitude_scale]
  have hone : 1 / M.sqrt v.squared_magnitude * (1 / M.sqrt v.squared_magnitude) *
      v.squared_magnitude = 1 := by
    nth_rewrite 3 [← hrr]
    field_simp
  rw [hone]
  exact sqrt_one_of_exact M hsqrt

/-- C8: past the mask test `GetNewDirection` returns, for the running sum and the counters
left by the probe loop, the sum normalised when its magnitude exceeds `0.001` and there is
no stop voter or `stop_votes / possible_stop_votes < 0.5`, and the zero vector otherwise;
with an exact square root every direction that `GetNewDirection` returns is the zero vector
or has magnitude one. -/
theorem GetNewDirection_zero_or_unit {F : Type} [LinearOrderedField F] {σ : Type}
    (f : StreamlineTrackingFilter F) (M : MathEnv F) (h : TrackingDataHandler F σ) (s : σ)
    (pos : Vec3 F) (olddirs : List (Vec3 F)) (oldIndex : Index3)
    (hsqrt : ∀ x : F, 0 ≤ x → 0 ≤ M.sqrt x ∧ M.sqrt x * M.sqrt x = x) :
    ((f.m_MaskInterpolator pos && !f.m_StopInterpolator pos) = true →
      ∀ st : ProbeState F σ,
        st = probeLoop f M h pos olddirs oldIndex (olddirs.getLastD (Vec3.fill 0))
          { direction := (h.ProposeDirection s pos olddirs oldIndex).1, stop_votes := 0,
            possible_stop_votes := 0,
            handler := (h.ProposeDirection s pos olddirs oldIndex).2 }
          (CreateDirections M f.m_NumberOfSamples) →
        (f.GetNewDirection M h s pos olddirs oldIndex).1 =
          if st.direction.magnitude M > 1 / 1000 ∧
              (st.possible_stop_votes = 0 ∨
                (st.stop_votes : F) / (st.possible_stop_votes : F) < 1 / 2) then
            st.direction.normalize M
          else Vec3.fill 0) ∧
    ((f.GetNewDirection M h s pos olddirs oldIndex).1 = Vec3.fill 0 ∨
      (f.GetNewDirection M h s pos olddirs oldIndex).1.magnitude M = 1) := by
  have hfinal : ∀ st : ProbeState F σ,
      finalDirection M st = Vec3.fill 0 ∨ (finalDirection M st).magnitude M = 1 := by
    intro st
    unfold finalDirection
    split_ifs with hc
    · right
      apply magnitude_normalize M hsqrt
      intro h0
      have hmag := hc.1
      unfold Vec3.magnitude at hmag
      rw [h0] at hmag
      obtain ⟨hs0, hss⟩ := hsqrt 0 (le_refl 0)
      have hz : M.sqrt 0 = 0 := by
        rcases mul_self_eq_zero.mp hss with hz
        exact hz
      rw [hz] at hmag
      norm_num at hmag
    · left
      rfl
  constructor
  · intro hgate st hst
    unfold StreamlineTrackingFilter.GetNewDirection
    rw [if_pos hgate, hst]
    rfl
  · unfold StreamlineTrackingFilter.GetNewDirection
    split_ifs
    · exact hfinal _
    · left
      rfl

/-- Witness for C8: real arithmetic with the real square root, `demoSettings` on unit
voxels, at the origin with previous direction `(0,0,1)`. -/
theorem GetNewDirection_zero_or_unit_witness :
    (∀ x : ℝ, 0 ≤ x → 0 ≤ Real.sqrt x ∧ Real.sqrt x * Real.sqrt x = x) ∧
    (((BeforeTracking ⟨Real.sqrt, Real.arccos, Real.cos, Real.sin, Real.pi, 1 / 1000000⟩
        (demoImages ℝ) ⟨1, 1, 1⟩ (demoSettings ℝ)).GetNewDirection
        ⟨Real.sqrt, Real.arccos, Real.cos, Real.sin, Real.pi, 1 / 1000000⟩
        (demoHandler ℝ) 0 ⟨0, 0, 0⟩ [⟨0, 0, 1⟩] ⟨0, 0, 0⟩).1 = Vec3.fill 0 ∨
     ((BeforeTracking ⟨Real.sqrt, Real.arccos, Real.cos, Real.sin, Real.pi, 1 / 1000000⟩
        (demoImages ℝ) ⟨1, 1, 1⟩ (demoSettings ℝ)).GetNewDirection
        ⟨Real.sqrt, Real.arccos, Real.cos, Real.sin, Real.pi, 1 / 1000000⟩
        (demoHandler ℝ) 0 ⟨0, 0, 0⟩ [⟨0, 0, 1⟩] ⟨0, 0, 0⟩).1.magnitude
        ⟨Real.sqrt, Real.arccos, Real.cos, Real.sin, Real.pi, 1 / 1000000⟩ = 1) :=
  ⟨fun x hx => ⟨Real.sqrt_nonneg x, Real.mul_self_sqrt hx⟩,
   (GetNewDirection_zero_or_unit _ _ (demoHandler ℝ) 0 ⟨0, 0, 0⟩ [⟨0, 0, 1⟩] ⟨0, 0, 0⟩
      (fun x hx => ⟨Real.sqrt_nonneg x, Real.mul_self_sqrt hx⟩)).2⟩

/-! ### Tract length (C5) -/

/-- One pass of the step loop returns at most one step size more than the larger of the
length passed in and the maximum tract length. -/
theorem followLoop_length_le {F : Type} [LinearOrderedField F] {σ : Type}
    (f : StreamlineTrackingFilter F) (M : MathEnv F) (h : TrackingDataHandler F σ)
    (front : Bool) (hstep : 0 ≤ f.m_StepSize) (steps : ℕ) :
    ∀ (pos dir : Vec3 F) (fib : FiberType F) (tractLength : F) (last_dirs : List (Vec3 F))
      (s : σ),
      (followLoop f M h front steps pos dir fib tractLength last_dirs s).1 ≤
        max tractLength f.m_MaxTractLength + f.m_StepSize := by
  induction steps with
  | zero =>
    intro pos dir fib tractLength last_dirs s
    unfold followLoop
    have := le_max_left tractLength f.m_MaxTractLength
    linarith
  | succ n ih =>
    intro pos dir fib tractLength last_dirs s
    have hl := le_max_left tractLength f.m_MaxTractLength
    have hr := le_max_right tractLength f.m_MaxTractLength
    unfold followLoop
    simp only
    split_ifs <;> (try dsimp only) <;>
      first
      | linarith
      | (refine le_trans (sub_le_self (tractLength + f.m_StepSize)
            (mul_nonneg hstep (Nat.cast_nonneg _))) ?_
         linarith)
      | (refine le_trans (ih _ _ _ _ _ _) ?_
         have hm : max (tractLength + f.m_StepSize) f.m_MaxTractLength ≤ f.m_MaxTractLength :=
           max_le (by linarith) le_rfl
         linarith)

/-- One pass of `FollowStreamline` returns at most one step size more than the larger of
the length passed in and the maximum tract length. -/
theorem FollowStreamline_length_le {F : Type} [LinearOrderedField F] {σ : Type}
    (f : StreamlineTrackingFilter F) (M : MathEnv F) (h : TrackingDataHandler F σ)
    (hstep : 0 ≤ f.m_StepSize) (s : σ) (pos dir : Vec3 F) (fib : FiberType F)
    (tractLength : F) (front : Bool) :
    (f.FollowStreamline M h s pos dir fib tractLength front).1 ≤
      max tractLength f.m_MaxTractLength + f.m_StepSize := by
  unfold StreamlineTrackingFilter.FollowStreamline
  exact followLoop_length_le f M h front hstep _ _ _ _ _ _ _

/-- C5 as amended: every fiber traced by `GenerateData` (in particular every accepted one)
has a tract length of at most the maximum tract length plus two step sizes, for a
non-negative step size and maximum: each of the two passes tests the length only after
its step has been added. -/
theorem traceSeed_length_le {F : Type} [LinearOrderedField F] {σ : Type}
    (f : StreamlineTrackingFilter F) (M : MathEnv F) (h : TrackingDataHandler F σ) (s : σ)
    (worldPos : Vec3 F) (fib : FiberType F) (tractLength : F)
    (hstep : 0 ≤ f.m_StepSize) (hmax : 0 ≤ f.m_MaxTractLength)
    (htrace : (f.traceSeed M h s worldPos).1 = some (fib, tractLength)) :
    tractLength ≤ f.m_MaxTractLength + 2 * f.m_StepSize := by
  unfold StreamlineTrackingFilter.traceSeed at htrace
  simp only at htrace
  generalize (if f.m_MaskInterpolator worldPos = true then
      h.ProposeDirection s worldPos (List.replicate f.m_NumPreviousDirections (Vec3.fill 0))
        ⟨0, 0, 0⟩ else (Vec3.fill 0, s)) = r at htrace
  by_cases hdir : r.1.magnitude M > 1 / 10000
  · rw [if_pos hdir] at htrace
    simp only [Option.some.injEq, Prod.mk.injEq] at htrace
    rw [← htrace.2]
    refine le_trans (FollowStreamline_length_le f M h hstep _ _ _ _ _ _) ?_
    refine le_trans (add_le_add_right
      (max_le ?_ ?_ : _ ≤ f.m_MaxTractLength + f.m_StepSize) _) ?_
    · refine le_trans (FollowStreamline_length_le f M h hstep _ _ _ _ _ _) ?_
      rw [max_eq_right hmax]
    · linarith
    · linarith
  · rw [if_neg hdir] at htrace
    exact absurd htrace (by simp)

/-- Witness for the amended C5: the seed at the origin in `demoFilter`, traced to length
`5 = 3 + 2 * 1`. -/
theorem traceSeed_length_le_witness :
    (0 : ℚ) ≤ demoFilter.m_StepSize ∧ 0 ≤ demoFilter.m_MaxTractLength ∧
    (demoFilter.traceSeed ratMath (demoHandler ℚ) 0 ⟨0, 0, 0⟩).1 =
      some ([⟨0, 0, -1⟩, ⟨0, 0, 0⟩, ⟨0, 0, 1⟩, ⟨0, 0, 2⟩, ⟨0, 0, 3⟩, ⟨0, 0, 4⟩], 5) ∧
    (5 : ℚ) ≤ demoFilter.m_MaxTractLength + 2 * demoFilter.m_StepSize :=
  ⟨by decide!, by decide!, by decide!,
   traceSeed_length_le demoFilter ratMath (demoHandler ℚ) 0 ⟨0, 0, 0⟩
    [⟨0, 0, -1⟩, ⟨0, 0, 0⟩, ⟨0, 0, 1⟩, ⟨0, 0, 2⟩, ⟨0, 0, 3⟩, ⟨0, 0, 4⟩] 5
    (by decide!) (by decide!) (by decide!)⟩

/-- Counterexample to C5 as stated: with step size `1`, maximum tract length `3` and minimum
`1`, the seed at the origin is traced to a fiber of tract length `5`, which `GenerateData`
accepts, and `5` exceeds the maximum plus one step size. -/
theorem tract_length_one_step_counterexample :
    demoFilter.m_StepSize = 1 ∧ demoFilter.m_MaxTractLength = 3 ∧
    (demoFilter.traceSeed ratMath (demoHandler ℚ) 0 ⟨0, 0, 0⟩).1 =
      some ([⟨0, 0, -1⟩, ⟨0, 0, 0⟩, ⟨0, 0, 1⟩, ⟨0, 0, 2⟩, ⟨0, 0, 3⟩, ⟨0, 0, 4⟩], 5) ∧
    (demoFilter.GenerateData ratMath (demoHandler ℚ) [⟨0, 0, 0⟩] 0).1.m_Tractogram =
      [[⟨0, 0, -1⟩, ⟨0, 0, 0⟩, ⟨0, 0, 1⟩, ⟨0, 0, 2⟩, ⟨0, 0, 3⟩, ⟨0, 0, 4⟩]] ∧
    ¬ ((5 : ℚ) ≤ demoFilter.m_MaxTractLength + demoFilter.m_StepSize) := by
  decide!

/-! ### Acceptance in GenerateData (C4, C6) -/

/-- A fiber that fails the length test, the point-count test or `IsValidFiber` leaves the
shared state as it is. -/
theorem acceptFiber_rejected {F : Type} [LinearOrderedField F] {σ : Type}
    (f : StreamlineTrackingFilter F) (h : TrackingDataHandler F σ) (sh : SharedState F)
    (fib : FiberType F) (tractLength : F)
    (hrej : ¬ (f.m_MinTractLength ≤ tractLength ∧ 2 ≤ fib.length ∧
      f.IsValidFiber fib = some true)) :
    f.acceptFiber h sh fib tractLength = sh := by
  unfold StreamlineTrackingFilter.acceptFiber
  by_cases hchk : tractLength ≥ f.m_MinTractLength ∧ fib.length ≥ 2
  · rw [if_pos hchk]
    unfold StreamlineTrackingFilter.criticalSection
    rw [if_neg]
    intro hv
    exact hrej ⟨hchk.1, hchk.2, hv⟩
  · rw [if_neg hchk]


theorem criticalSection_log {F : Type} [LinearOrderedField F] {σ : Type}
    (f : StreamlineTrackingFilter F) (h : TrackingDataHandler F σ) (sh : SharedState F)
    (fib : FiberType F) (acc : List (FiberType F))
    (hT : sh.m_Tractogram = if f.m_UseOutputProbabilityMap then [] else acc)
    (hP : sh.m_OutputProbabilityMap =
      if f.m_UseOutputProbabilityMap then acc.foldl (FiberToProbmap h) (fun _ => 0)
      else fun _ => 0)
    (hC : sh.m_CurrentTracts = acc.length % 4294967296) :
    ∃ acc1 : List (FiberType F),
      (acc1 = acc ∨ (acc1 = acc ++ [fib] ∧ f.IsValidFiber fib = some true)) ∧
      (f.criticalSection h sh fib).m_Tractogram =
        (if f.m_UseOutputProbabilityMap then [] else acc1) ∧
      (f.criticalSection h sh fib).m_OutputProbabilityMap =
        (if f.m_UseOutputProbabilityMap then acc1.foldl (FiberToProbmap h) (fun _ => 0)
         else fun _ => 0) ∧
      (f.criticalSection h sh fib).m_CurrentTracts = acc1.length % 4294967296 := by
  have hlen : (acc.length % 4294967296 + 1) % 4294967296 =
      (acc ++ [fib]).length % 4294967296 := by
    rw [List.length_append, List.length_singleton]
    omega
  unfold StreamlineTrackingFilter.criticalSection
  by_cases hv : f.IsValidFiber fib = some true
  · rw [if_pos hv]
    cases hpm : f.m_UseOutputProbabilityMap <;> rw [hpm] at hT hP <;>
      simp only [Bool.false_eq_true, if_false, if_true] at hT hP <;>
      cases hs : sh.m_StopTracking
    · refine ⟨acc ++ [fib], Or.inr ⟨rfl, hv⟩, ?_⟩
      simp only [Bool.not_false, if_true, Bool.false_eq_true, if_false]
      split_ifs <;> simp only [hT, hP, hC, hlen, and_self]
    · refine ⟨acc, Or.inl rfl, ?_⟩
      simp only [Bool.not_true, Bool.false_eq_true, if_false]
      split_ifs <;> simp only [hT, hP, hC, and_self]
    · refine ⟨acc ++ [fib], Or.inr ⟨rfl, hv⟩, ?_⟩
      simp only [Bool.not_false, Bool.not_true, if_true, Bool.false_eq_true, if_false]
      split_ifs <;> simp only [hT, hP, hC, hlen, List.foldl_append, List.foldl_cons,
        List.foldl_nil, and_self]
    · refine ⟨acc, Or.inl rfl, ?_⟩
      simp only [Bool.not_true, Bool.false_eq_true, if_false]
      split_ifs <;> simp only [hT, hP, hC, and_self]
  · rw [if_neg hv]
    exact ⟨acc, Or.inl rfl, hT, hP, hC⟩

/-- The loop of `GenerateData` keeps the shared state in step with a log of accepted
fibers, each of which has at least two points, is valid and was traced from one of the
seeds to a length of at least the minimum. -/
theorem trackingLoop_log {F : Type} [LinearOrderedField F] {σ : Type}
    (f : StreamlineTrackingFilter F) (M : MathEnv F) (h : TrackingDataHandler F σ)
    (P : FiberType F → Prop) (seeds : List (Vec3 F))
    (hP : ∀ (worldPos : Vec3 F) (s0 : σ) (fib : FiberType F) (tractLength : F),
      worldPos ∈ seeds → (f.traceSeed M h s0 worldPos).1 = some (fib, tractLength) →
      f.m_MinTractLength ≤ tractLength → 2 ≤ fib.length → f.IsValidFiber fib = some true →
      P fib) :
    ∀ (sh : SharedState F) (s : σ) (acc : List (FiberType F)),
      (∀ fib ∈ acc, P fib) →
      sh.m_Tractogram = (if f.m_UseOutputProbabilityMap then [] else acc) →
      sh.m_OutputProbabilityMap =
        (if f.m_UseOutputProbabilityMap then acc.foldl (FiberToProbmap h) (fun _ => 0)
         else fun _ => 0) →
      sh.m_CurrentTracts = acc.length % 4294967296 →
      ∃ acc1 : List (FiberType F), (∀ fib ∈ acc1, P fib) ∧
        (f.trackingLoop M h seeds sh s).1.m_Tractogram =
          (if f.m_UseOutputProbabilityMap then [] else acc1) ∧
        (f.trackingLoop M h seeds sh s).1.m_OutputProbabilityMap =
          (if f.m_UseOutputProbabilityMap then acc1.foldl (FiberToProbmap h) (fun _ => 0)
           else fun _ => 0) ∧
        (f.trackingLoop M h seeds sh s).1.m_CurrentTracts = acc1.length % 4294967296 := by
  induction seeds with
  | nil =>
    intro sh s acc hacc hT hM hC
    exact ⟨acc, hacc, hT, hM, hC⟩
  | cons worldPos rest ih =>
    intro sh s acc hacc hT hM hC
    unfold StreamlineTrackingFilter.trackingLoop
    by_cases hstop : sh.m_StopTracking = true
    · rw [if_pos hstop]
      exact ⟨acc, hacc, hT, hM, hC⟩
    · rw [if_neg hstop]
      have ih2 := ih (fun p s0 fib L hp => hP p s0 fib L (List.mem_cons_of_mem worldPos hp))
      simp only
      unfold StreamlineTrackingFilter.processSeed
      cases htr : f.traceSeed M h s worldPos with
      | mk res s1 =>
        cases res with
        | none => exact ih2 sh s1 acc hacc hT hM hC
        | some t =>
          obtain ⟨fib, tractLength⟩ := t
          simp only
          unfold StreamlineTrackingFilter.acceptFiber
          by_cases hchk : tractLength ≥ f.m_MinTractLength ∧ fib.length ≥ 2
          · rw [if_pos hchk]
            obtain ⟨acc1, hcase, hT1, hM1, hC1⟩ := criticalSection_log f h sh fib acc hT hM hC
            refine ih2 _ s1 acc1 ?_ hT1 hM1 hC1
            rcases hcase with rfl | ⟨rfl, hvalid⟩
            · exact hacc
            · intro g hg
              rcases List.mem_append.mp hg with hg | hg
              · exact hacc g hg
              · rw [List.mem_singleton.mp hg]
                exact hP worldPos s fib tractLength (List.mem_cons_self _ _)
                  (by rw [htr]) hchk.1 hchk.2 hvalid
          · rw [if_neg hchk]
            exact ih2 sh s1 acc hacc hT hM hC

/-- C4: a traced fiber that has fewer than two points, a tract length below
`m_MinTractLength` or fails `IsValidFiber` leaves tractogram, probability map and counter
untouched, in whatever shared state its acceptance test runs; and the fibers that
`GenerateData` accepts form a list `accepted` (the tractogram itself, or in probability-map
mode the fibers rasterised into the map, in this order, with `m_CurrentTracts` their
number), each of which has at least two points, satisfies `IsValidFiber` and was traced
from one of the seeds with a tract length of at least `m_MinTractLength`. -/
theorem GenerateData_accepted {F : Type} [LinearOrderedField F] {σ : Type}
    (f : StreamlineTrackingFilter F) (M : MathEnv F) (h : TrackingDataHandler F σ)
    (seeds : List (Vec3 F)) (s : σ) :
    (∀ (sh : SharedState F) (fib : FiberType F) (tractLength : F),
      ¬ (f.m_MinTractLength ≤ tractLength ∧ 2 ≤ fib.length ∧
        f.IsValidFiber fib = some true) →
      f.acceptFiber h sh fib tractLength = sh) ∧
    ∃ accepted : List (FiberType F),
      (f.GenerateData M h seeds s).1.m_Tractogram =
        (if f.m_UseOutputProbabilityMap then [] else accepted) ∧
      (f.GenerateData M h seeds s).1.m_OutputProbabilityMap =
        (if f.m_UseOutputProbabilityMap then accepted.foldl (FiberToProbmap h) (fun _ => 0)
         else fun _ => 0) ∧
      (f.GenerateData M h seeds s).1.m_CurrentTracts = accepted.length % 4294967296 ∧
      ∀ fib ∈ accepted, 2 ≤ fib.length ∧ f.IsValidFiber fib = some true ∧
        ∃ (worldPos : Vec3 F) (s0 : σ) (tractLength : F), worldPos ∈ seeds ∧
          (f.traceSeed M h s0 worldPos).1 = some (fib, tractLength) ∧
          f.m_MinTractLength ≤ tractLength := by
  obtain ⟨acc1, hacc, hT, hM, hC⟩ := trackingLoop_log f M h
    (fun fib => 2 ≤ fib.length ∧ f.IsValidFiber fib = some true ∧
        ∃ (worldPos : Vec3 F) (s0 : σ) (tractLength : F), worldPos ∈ seeds ∧
          (f.traceSeed M h s0 worldPos).1 = some (fib, tractLength) ∧
          f.m_MinTractLength ≤ tractLength) seeds
    (fun worldPos s0 fib L hp htr hmin hlen hvalid =>
      ⟨hlen, hvalid, worldPos, s0, L, hp, htr, hmin⟩)
    initialSharedState s [] (fun _ hg => absurd hg (List.not_mem_nil _))
    (by simp [initialSharedState]) (by simp [initialSharedState]) rfl
  exact ⟨fun sh fib L hrej => acceptFiber_rejected f h sh fib L hrej, acc1, hT, hM, hC, hacc⟩

/-- The counter and the stop flag after one acceptance test, with a maximum of `K` tracts:
if `n` fibers have passed the tests so far, the counter is `min K n` and the flag is raised
exactly when `K ≤ n`. -/
theorem acceptFiber_count {F : Type} [LinearOrderedField F] {σ : Type}
    (f : StreamlineTrackingFilter F) (h : TrackingDataHandler F σ) (K : ℕ) (hK : 0 < K)
    (hK32 : K < 4294967296) (hmax : f.m_MaxNumTracts = (K : ℤ)) (sh : SharedState F)
    (fib : FiberType F) (tractLength : F) (n : ℕ)
    (hC : sh.m_CurrentTracts = min K n) (hS : sh.m_StopTracking = decide (K ≤ n))
    (hT : f.m_UseOutputProbabilityMap = false → sh.m_Tractogram.length = min K n)
    (hpass : f.m_MinTractLength ≤ tractLength ∧ 2 ≤ fib.length ∧
      f.IsValidFiber fib = some true) :
    (f.acceptFiber h sh fib tractLength).m_CurrentTracts = min K (n + 1) ∧
    (f.acceptFiber h sh fib tractLength).m_StopTracking = decide (K ≤ n + 1) ∧
    (f.m_UseOutputProbabilityMap = false →
      (f.acceptFiber h sh fib tractLength).m_Tractogram.length = min K (n + 1)) := by
  unfold StreamlineTrackingFilter.acceptFiber
  rw [if_pos ⟨hpass.1, hpass.2.1⟩]
  unfold StreamlineTrackingFilter.criticalSection
  rw [if_pos hpass.2.2, hmax]
  have hKmod : ((K : ℤ) % 4294967296) = (K : ℤ) := by omega
  rw [hKmod]
  by_cases hn : K ≤ n
  · have hstop : sh.m_StopTracking = true := by rw [hS]; simpa using hn
    have hC2 : sh.m_CurrentTracts = K := by rw [hC]; exact min_eq_left hn
    have hmin : min K (n + 1) = K := min_eq_left (by omega)
    simp only [hstop, Bool.not_true, Bool.false_eq_true, if_false]
    rw [if_pos ⟨by omega, by rw [hC2]⟩, hmin]
    refine ⟨hC2, by simp only [decide_eq_true_eq, true_eq_decide_iff]; omega, ?_⟩
    intro hpm
    show sh.m_Tractogram.length = K
    rw [hT hpm]
    exact min_eq_left hn
  · have hn2 : n ≤ K := by omega
    have hstop : sh.m_StopTracking = false := by rw [hS]; simpa using hn
    have hC2 : sh.m_CurrentTracts = n := by rw [hC]; exact min_eq_right hn2
    have hmod : (n + 1) % 4294967296 = n + 1 := by omega
    have hmin : min K (n + 1) = n + 1 := min_eq_right (by omega)
    simp only [hstop, hC2, hmod, hmin, Bool.not_false, if_true]
    cases hpm : f.m_UseOutputProbabilityMap
    · have hlen : sh.m_Tractogram.length = n := by rw [hT hpm]; exact min_eq_right hn2
      simp only [Bool.not_false, if_true, true_implies]
      by_cases hge : K ≤ n + 1
      · rw [if_pos ⟨by omega, by push_cast; omega⟩]
        refine ⟨rfl, by simp only [true_eq_decide_iff]; exact hge, ?_⟩
        show (sh.m_Tractogram ++ [fib]).length = n + 1
        rw [List.length_append, List.length_singleton, hlen]
      · rw [if_neg (by rintro ⟨-, hc⟩; push_cast at hc; omega)]
        refine ⟨rfl, ?_, ?_⟩
        · show false = _
          simp only [false_eq_decide_iff]
          exact hge
        · show (sh.m_Tractogram ++ [fib]).length = n + 1
          rw [List.length_append, List.length_singleton, hlen]
    · simp only [Bool.not_true, Bool.false_eq_true, if_false]
      by_cases hge : K ≤ n + 1
      · rw [if_pos ⟨by omega, by push_cast; omega⟩]
        exact ⟨rfl, by simp only [true_eq_decide_iff]; exact hge,
          fun hc => absurd hc (by simp)⟩
      · rw [if_neg (by rintro ⟨-, hc⟩; push_cast at hc; omega)]
        refine ⟨rfl, ?_, fun hc => absurd hc (by simp)⟩
        show false = _
        simp only [false_eq_decide_iff]
        exact hge

/-- The counter, the stop flag and the size of the tractogram after any sequence of
acceptance tests, with a maximum of `K` tracts. -/
theorem acceptFiber_fold_count {F : Type} [LinearOrderedField F] {σ : Type}
    (f : StreamlineTrackingFilter F) (h : TrackingDataHandler F σ) (K : ℕ) (hK : 0 < K)
    (hK32 : K < 4294967296) (hmax : f.m_MaxNumTracts = (K : ℤ))
    (traced : List (FiberType F × F)) :
    ∀ (sh : SharedState F) (n : ℕ), sh.m_CurrentTracts = min K n →
      sh.m_StopTracking = decide (K ≤ n) →
      (f.m_UseOutputProbabilityMap = false → sh.m_Tractogram.length = min K n) →
      (traced.foldl (fun sh t => f.acceptFiber h sh t.1 t.2) sh).m_CurrentTracts =
          min K (n + (traced.filter fun t => decide (f.m_MinTractLength ≤ t.2 ∧
            2 ≤ t.1.length ∧ f.IsValidFiber t.1 = some true)).length) ∧
      (traced.foldl (fun sh t => f.acceptFiber h sh t.1 t.2) sh).m_StopTracking =
          decide (K ≤ n + (traced.filter fun t => decide (f.m_MinTractLength ≤ t.2 ∧
            2 ≤ t.1.length ∧ f.IsValidFiber t.1 = some true)).length) ∧
      (f.m_UseOutputProbabilityMap = false →
        (traced.foldl (fun sh t => f.acceptFiber h sh t.1 t.2) sh).m_Tractogram.length =
          min K (n + (traced.filter fun t => decide (f.m_MinTractLength ≤ t.2 ∧
            2 ≤ t.1.length ∧ f.IsValidFiber t.1 = some true)).length)) := by
  induction traced with
  | nil =>
    intro sh n hC hS hT
    simpa using ⟨hC, hS, hT⟩
  | cons t rest ih =>
    intro sh n hC hS hT
    rw [List.foldl_cons]
    by_cases hpass : f.m_MinTractLength ≤ t.2 ∧ 2 ≤ t.1.length ∧
        f.IsValidFiber t.1 = some true
    · obtain ⟨hC1, hS1, hT1⟩ := acceptFiber_count f h K hK hK32 hmax sh t.1 t.2 n hC hS hT hpass
      have hrec := ih _ (n + 1) hC1 hS1 hT1
      rw [List.filter_cons_of_pos (by simpa using hpass), List.length_cons]
      have harith : ∀ m : ℕ, n + (m + 1) = n + 1 + m := fun m => by omega
      rw [harith]
      exact hrec
    · rw [acceptFiber_rejected f h sh t.1 t.2 hpass,
        List.filter_cons_of_neg (by simpa using hpass)]
      exact ih sh n hC hS hT

/-- The shared state after the loop of one worker is the result of the acceptance tests of
the fibers it traced, in the order of the seeds. -/
theorem trackingLoop_eq_fold {F : Type} [LinearOrderedField F] {σ : Type}
    (f : StreamlineTrackingFilter F) (M : MathEnv F) (h : TrackingDataHandler F σ)
    (seeds : List (Vec3 F)) :
    ∀ (sh : SharedState F) (s : σ), ∃ traced : List (FiberType F × F),
      (f.trackingLoop M h seeds sh s).1 =
        traced.foldl (fun sh t => f.acceptFiber h sh t.1 t.2) sh := by
  induction seeds with
  | nil =>
    intro sh s
    exact ⟨[], rfl⟩
  | cons worldPos rest ih =>
    intro sh s
    unfold StreamlineTrackingFilter.trackingLoop
    by_cases hstop : sh.m_StopTracking = true
    · rw [if_pos hstop]
      exact ⟨[], rfl⟩
    · rw [if_neg hstop]
      simp only
      unfold StreamlineTrackingFilter.processSeed
      cases htr : f.traceSeed M h s worldPos with
      | mk res s1 =>
        cases res with
        | none => exact ih sh s1
        | some t =>
          obtain ⟨traced, htraced⟩ := ih (f.acceptFiber h sh t.1 t.2) s1
          exact ⟨t :: traced, by rw [List.foldl_cons]; exact htraced⟩

/-- C6: with a maximum of `K > 0` accepted tracts and the critical blocks executed one
after the other in any order (`traced` lists the traced fibers in the order in which their
acceptance tests run), the counter never exceeds `K`, and as soon as `K` of the traced
fibers (in particular more than `K`) pass the length, point-count and validity tests the
counter is exactly `K`, the stop flag is raised and the tractogram holds `K` fibers; the
counter of the one-worker run of `GenerateData` does not exceed `K` either. -/
theorem accepted_tracts_cutoff {F : Type} [LinearOrderedField F] {σ : Type}
    (f : StreamlineTrackingFilter F) (M : MathEnv F) (h : TrackingDataHandler F σ) (K : ℕ)
    (hK : 0 < K) (hK32 : K < 4294967296) (hmax : f.m_MaxNumTracts = (K : ℤ))
    (traced : List (FiberType F × F)) (seeds : List (Vec3 F)) (s : σ) :
    (traced.foldl (fun sh t => f.acceptFiber h sh t.1 t.2) initialSharedState).m_CurrentTracts
      ≤ K ∧
    (K ≤ (traced.filter fun t => decide (f.m_MinTractLength ≤ t.2 ∧ 2 ≤ t.1.length ∧
        f.IsValidFiber t.1 = some true)).length →
      (traced.foldl (fun sh t => f.acceptFiber h sh t.1 t.2)
        initialSharedState).m_CurrentTracts = K ∧
      (traced.foldl (fun sh t => f.acceptFiber h sh t.1 t.2)
        initialSharedState).m_StopTracking = true ∧
      (f.m_UseOutputProbabilityMap = false →
        (traced.foldl (fun sh t => f.acceptFiber h sh t.1 t.2)
          initialSharedState).m_Tractogram.length = K)) ∧
    (f.GenerateData M h seeds s).1.m_CurrentTracts ≤ K := by
  have hinit := fun tr => acceptFiber_fold_count f h K hK hK32 hmax tr initialSharedState 0
    (by simp [initialSharedState]) (by simp [initialSharedState]; omega)
    (by simp [initialSharedState])
  simp only [zero_add] at hinit
  refine ⟨?_, ?_, ?_⟩
  · rw [(hinit traced).1]
    exact min_le_left _ _
  · intro hge
    obtain ⟨hC, hS, hT⟩ := hinit traced
    refine ⟨by rw [hC]; exact min_eq_left hge, by rw [hS]; simpa using hge, ?_⟩
    intro hpm
    rw [hT hpm]
    exact min_eq_left hge
  · obtain ⟨tr, htr⟩ := trackingLoop_eq_fold f M h seeds initialSharedState s
    unfold StreamlineTrackingFilter.GenerateData
    rw [htr, (hinit tr).1]
    exact min_le_left _ _

/-- Witness for C6: a maximum of one tract and two acceptance tests of a three-point fiber
of tract length `2`. -/
theorem accepted_tracts_cutoff_witness :
    0 < 1 ∧ cutoffFilter.m_MaxNumTracts = ((1 : ℕ) : ℤ) ∧
    (([([⟨0, 0, -1⟩, ⟨0, 0, 0⟩, ⟨0, 0, 1⟩], 2), ([⟨0, 0, -1⟩, ⟨0, 0, 0⟩, ⟨0, 0, 1⟩], 2)] :
        List (FiberType ℚ × ℚ)).foldl
      (fun sh t => cutoffFilter.acceptFiber (demoHandler ℚ) sh t.1 t.2)
      initialSharedState).m_CurrentTracts = 1 ∧
    (([([⟨0, 0, -1⟩, ⟨0, 0, 0⟩, ⟨0, 0, 1⟩], 2), ([⟨0, 0, -1⟩, ⟨0, 0, 0⟩, ⟨0, 0, 1⟩], 2)] :
        List (FiberType ℚ × ℚ)).foldl
      (fun sh t => cutoffFilter.acceptFiber (demoHandler ℚ) sh t.1 t.2)
      initialSharedState).m_StopTracking = true :=
  ⟨by decide, by decide!,
   ((accepted_tracts_cutoff cutoffFilter ratMath (demoHandler ℚ) 1 (by decide) (by decide)
      (by decide!) [([⟨0, 0, -1⟩, ⟨0, 0, 0⟩, ⟨0, 0, 1⟩], 2), ([⟨0, 0, -1⟩, ⟨0, 0, 0⟩, ⟨0, 0, 1⟩], 2)]
      [] 0).2.1 (by decide!)).1,
   ((accepted_tracts_cutoff cutoffFilter ratMath (demoHandler ℚ) 1 (by decide) (by decide)
      (by decide!) [([⟨0, 0, -1⟩, ⟨0, 0, 0⟩, ⟨0, 0, 1⟩], 2), ([⟨0, 0, -1⟩, ⟨0, 0, 0⟩, ⟨0, 0, 1⟩], 2)]
      [] 0).2.1 (by decide!)).2.1⟩

/-! ### The avoid-stop branch (C11) -/

/-- C11 as amended: for a probe offset `d` whose primary sample is degenerate, with
avoid-stop enabled and a previous direction of magnitude above `0.5`, the stop-vote tally
is raised by one exactly when the probe is a stop voter, whether or not the secondary
probe at the reflected or inverted offset `d2` succeeds; if the secondary probe finds a
valid direction the running sum gains `d2 * m_DeflectionMod` plus that direction, and
otherwise the running sum stays as it is. -/
theorem probeSample_avoid_stop {F : Type} [LinearOrderedField F] {σ : Type}
    (f : StreamlineTrackingFilter F) (M : MathEnv F) (h : TrackingDataHandler F σ)
    (pos : Vec3 F) (olddirs : List (Vec3 F)) (oldIndex : Index3) (olddir : Vec3 F)
    (is_stop_voter : Bool) (d d2 : Vec3 F) (st : ProbeState F σ)
    (havoid : f.m_AvoidStop = true) (hold : olddir.magnitude M > 1 / 2)
    (hprimary : ¬ ((sampleNeighborhood f h olddirs oldIndex st.handler
      (pos.add d)).1.magnitude M > M.eps))
    (hd2 : d2 = if dot_product d olddir ≥ 0 then
      d.neg.add (olddir.scale (2 * dot_product d olddir)) else d.neg) :
    (probeSample f M h pos olddirs oldIndex olddir is_stop_voter d st).stop_votes =
        st.stop_votes + (if is_stop_voter then 1 else 0) ∧
    (probeSample f M h pos olddirs oldIndex olddir is_stop_voter d st).direction =
        if (sampleNeighborhood f h olddirs oldIndex
            (sampleNeighborhood f h olddirs oldIndex st.handler (pos.add d)).2
            (pos.add d2)).1.magnitude M > M.eps then
          (st.direction.add (d2.scale f.m_DeflectionMod)).add
            (sampleNeighborhood f h olddirs oldIndex
              (sampleNeighborhood f h olddirs oldIndex st.handler (pos.add d)).2
              (pos.add d2)).1
        else st.direction := by
  subst hd2
  unfold probeSample
  simp only
  rw [if_neg hprimary]
  simp only [havoid, hold, decide_True, Bool.and_self, if_true]
  cases is_stop_voter <;> split_ifs <;> simp

/-- Witness for the amended C11: tracking mask `z < 1/5`, previous direction
`(3/5, 0, 4/5)`, stop voter `(0,0,1)` scaled to `(0,0,1/4)`: the primary sample lies
outside the mask, the reflected offset `(6/25, 0, 7/100)` inside. -/
theorem probeSample_avoid_stop_witness :
    maskedFilter.m_AvoidStop = true ∧
    (⟨3 / 5, 0, 4 / 5⟩ : Vec3 ℚ).magnitude ratMath > 1 / 2 ∧
    (probeSample maskedFilter ratMath (demoHandler ℚ) ⟨0, 0, 0⟩ [⟨3 / 5, 0, 4 / 5⟩] ⟨0, 0, 0⟩
      ⟨3 / 5, 0, 4 / 5⟩ true ⟨0, 0, 1 / 4⟩
      { direction := ⟨0, 0, 1⟩, stop_votes := 0, possible_stop_votes := 1,
        handler := 1 }).stop_votes = 0 + (if true = true then 1 else 0) :=
  ⟨rfl, by decide!,
   (probeSample_avoid_stop maskedFilter ratMath (demoHandler ℚ) ⟨0, 0, 0⟩ [⟨3 / 5, 0, 4 / 5⟩]
      ⟨0, 0, 0⟩ ⟨3 / 5, 0, 4 / 5⟩ true ⟨0, 0, 1 / 4⟩ ⟨6 / 25, 0, 7 / 100⟩
      { direction := ⟨0, 0, 1⟩, stop_votes := 0, possible_stop_votes := 1, handler := 1 }
      rfl (by decide!) (by decide!) (by decide!)).1⟩

/-- Counterexample to C11 as stated: in the setting of the witness the secondary probe of
the only stop voter finds the valid direction `(0,0,1)` and the running sum gains the
deflection term, and yet the stop-vote tally is raised to `1` of `1` possible votes, so
that `GetNewDirection` returns the zero vector. -/
theorem stop_vote_counted_counterexample :
    maskedFilter.m_AvoidStop = true ∧
    ¬ ((sampleNeighborhood maskedFilter (demoHandler ℚ) [⟨3 / 5, 0, 4 / 5⟩] ⟨0, 0, 0⟩ 1
        ⟨0, 0, 1 / 4⟩).1.magnitude ratMath > ratMath.eps) ∧
    (sampleNeighborhood maskedFilter (demoHandler ℚ) [⟨3 / 5, 0, 4 / 5⟩] ⟨0, 0, 0⟩ 1
        ⟨6 / 25, 0, 7 / 100⟩).1 = ⟨0, 0, 1⟩ ∧
    (probeSample maskedFilter ratMath (demoHandler ℚ) ⟨0, 0, 0⟩ [⟨3 / 5, 0, 4 / 5⟩] ⟨0, 0, 0⟩
      ⟨3 / 5, 0, 4 / 5⟩ true ⟨0, 0, 1 / 4⟩
      { direction := ⟨0, 0, 1⟩, stop_votes := 0, possible_stop_votes := 1,
        handler := 1 }).direction = ⟨6 / 25, 0, 207 / 100⟩ ∧
    (probeSample maskedFilter ratMath (demoHandler ℚ) ⟨0, 0, 0⟩ [⟨3 / 5, 0, 4 / 5⟩] ⟨0, 0, 0⟩
      ⟨3 / 5, 0, 4 / 5⟩ true ⟨0, 0, 1 / 4⟩
      { direction := ⟨0, 0, 1⟩, stop_votes := 0, possible_stop_votes := 1,
        handler := 1 }).stop_votes = 1 ∧
    maskedFilter.GetNewDirection ratMath (demoHandler ℚ) 0 ⟨0, 0, 0⟩ [⟨3 / 5, 0, 4 / 5⟩]
      ⟨0, 0, 0⟩ = (Vec3.fill 0, 2) := by
  refine ⟨rfl, by decide!, by decide!, by decide!, by decide!, ?_⟩
  unfold StreamlineTrackingFilter.GetNewDirection
  rw [if_pos (by decide!)]
  refine Prod.ext ?_ (by decide!)
  show finalDirection ratMath _ = _
  unfold finalDirection
  rw [if_neg]
  rintro ⟨-, hvotes⟩
  revert hvotes
  decide!

/-! ### FiberToProbmap (C12) -/

/-- Every index of the path occurs among the entered voxels, except possibly the voxel
that precedes the path. -/
theorem mem_voxelEntries_of_mem (v : Index3) (path : List Index3) :
    ∀ last : Index3, v ∈ path → v ∈ voxelEntries last path ∨ v = last := by
  induction path with
  | nil => intro last hv; exact absurd hv (List.not_mem_nil v)
  | cons idx rest ih =>
    intro last hv
    unfold voxelEntries
    by_cases hne : idx ≠ last
    · rw [if_pos hne]
      rcases List.mem_cons.mp hv with rfl | hrest
      · exact Or.inl (List.mem_cons_self _ _)
      · rcases ih idx hrest with hin | rfl
        · exact Or.inl (List.mem_cons_of_mem _ hin)
        · exact Or.inl (List.mem_cons_self _ _)
    · rw [if_neg hne]
      have heq : idx = last := not_not.mp hne
      rcases List.mem_cons.mp hv with rfl | hrest
      · exact Or.inr heq
      · exact ih last hrest

/-- Every entered voxel is an index of the path. -/
theorem mem_of_mem_voxelEntries (v : Index3) (path : List Index3) :
    ∀ last : Index3, v ∈ voxelEntries last path → v ∈ path := by
  induction path with
  | nil => intro last hv; simp [voxelEntries] at hv
  | cons idx rest ih =>
    intro last hv
    unfold voxelEntries at hv
    by_cases hne : idx ≠ last
    · rw [if_pos hne] at hv
      rcases List.mem_cons.mp hv with rfl | hrest
      · exact List.mem_cons_self _ _
      · exact List.mem_cons_of_mem _ (ih idx hrest)
    · rw [if_neg hne] at hv
      exact List.mem_cons_of_mem _ (ih last hv)

/-- The loop of `FiberToProbmap` adds to voxel `v`, if `v` is inside the region, the number
of times the walk along the fiber enters `v`, and nothing otherwise. -/
theorem probmap_foldl {F : Type} [LinearOrderedField F] {σ : Type}
    (h : TrackingDataHandler F σ) (v : Index3) (fib : FiberType F) :
    ∀ (probmap : Index3 → F) (last : Index3),
      (fib.foldl (probmapStep h) (probmap, last)).1 v =
        probmap v + if h.RegionIsInside v then
          (((voxelEntries last (fib.map h.TransformPhysicalPointToIndex)).count v : ℕ) : F)
        else 0 := by
  induction fib with
  | nil =>
    intro probmap last
    simp [voxelEntries]
  | cons p rest ih =>
    intro probmap last
    rw [List.foldl_cons, List.map_cons]
    by_cases hne : h.TransformPhysicalPointToIndex p ≠ last
    · have hs : probmapStep h (probmap, last) p =
          (if h.RegionIsInside (h.TransformPhysicalPointToIndex p) then
            fun w => if w = h.TransformPhysicalPointToIndex p then
              probmap (h.TransformPhysicalPointToIndex p) + 1 else probmap w
           else probmap, h.TransformPhysicalPointToIndex p) := by
        unfold probmapStep
        simp only
        rw [if_pos hne]
      have he : voxelEntries last (h.TransformPhysicalPointToIndex p ::
          rest.map h.TransformPhysicalPointToIndex) =
          h.TransformPhysicalPointToIndex p :: voxelEntries (h.TransformPhysicalPointToIndex p)
            (rest.map h.TransformPhysicalPointToIndex) := by
        rw [voxelEntries, if_pos hne]
      rw [hs, ih, he]
      by_cases hin : h.RegionIsInside v = true
      · by_cases hv : v = h.TransformPhysicalPointToIndex p
        · subst hv
          simp only [hin, if_true, List.count_cons_self, Nat.cast_add, Nat.cast_one]
          ring
        · have hv2 : ¬ (h.TransformPhysicalPointToIndex p = v) := fun e => hv e.symm
          simp only [hin, if_true, List.count_cons_of_ne hv2]
          split_ifs <;> simp [hv]
      · simp only [hin, Bool.false_eq_true, if_false, add_zero]
        by_cases hreg : h.RegionIsInside (h.TransformPhysicalPointToIndex p) = true
        · rw [if_pos hreg]
          show (if v = h.TransformPhysicalPointToIndex p then _ else probmap v) = probmap v
          rw [if_neg]
          intro e
          rw [e] at hin
          exact hin hreg
        · rw [if_neg hreg]
    · have hs : probmapStep h (probmap, last) p = (probmap, last) := by
        unfold probmapStep
        simp only
        rw [if_neg hne]
      have he : voxelEntries last (h.TransformPhysicalPointToIndex p ::
          rest.map h.TransformPhysicalPointToIndex) =
          voxelEntries last (rest.map h.TransformPhysicalPointToIndex) := by
        rw [voxelEntries, if_neg hne]
      rw [hs, ih, he]

/-- C12 as amended: for a fiber whose first point does not lie in voxel `(0,0,0)` and which
enters no voxel twice (it never comes back to a voxel it has left), `FiberToProbmap` adds
exactly one to every voxel of the region that contains at least one point of the fiber
(consecutive points in one voxel collapse) and leaves every other voxel as it was. -/
theorem FiberToProbmap_once {F : Type} [LinearOrderedField F] {σ : Type}
    (h : TrackingDataHandler F σ) (probmap : Index3 → F) (fib : FiberType F) (v : Index3)
    (hfirst : (fib.map h.TransformPhysicalPointToIndex).head? ≠ some ⟨0, 0, 0⟩)
    (honce : (voxelEntries ⟨0, 0, 0⟩ (fib.map h.TransformPhysicalPointToIndex)).Nodup) :
    FiberToProbmap h probmap fib v =
      probmap v + if h.RegionIsInside v = true ∧
        v ∈ fib.map h.TransformPhysicalPointToIndex then 1 else 0 := by
  unfold FiberToProbmap
  rw [probmap_foldl]
  have hmem : v ∈ voxelEntries ⟨0, 0, 0⟩ (fib.map h.TransformPhysicalPointToIndex) ↔
      v ∈ fib.map h.TransformPhysicalPointToIndex := by
    constructor
    · exact mem_of_mem_voxelEntries v _ _
    · intro hv
      cases hpath : fib.map h.TransformPhysicalPointToIndex with
      | nil => rw [hpath] at hv; exact absurd hv (List.not_mem_nil v)
      | cons idx rest =>
        rw [hpath] at hv hfirst
        have hne : idx ≠ ⟨0, 0, 0⟩ := fun e => hfirst (by rw [e]; rfl)
        unfold voxelEntries
        rw [if_pos hne]
        rcases List.mem_cons.mp hv with rfl | hrest
        · exact List.mem_cons_self _ _
        · rcases mem_voxelEntries_of_mem v rest idx hrest with hin | rfl
          · exact List.mem_cons_of_mem _ hin
          · exact List.mem_cons_self _ _
  by_cases hin : h.RegionIsInside v = true
  · by_cases hv : v ∈ fib.map h.TransformPhysicalPointToIndex
    · rw [if_pos hin, if_pos ⟨hin, hv⟩, List.count_eq_one_of_mem honce (hmem.mpr hv)]
      simp
    · rw [if_pos hin, if_neg (fun hc => hv hc.2),
        List.count_eq_zero_of_not_mem (fun hc => hv (hmem.mp hc))]
      simp
  · rw [if_neg hin, if_neg (fun hc => hin hc.1)]

/-- Witness for the amended C12: a straight fiber through the voxels `(1,0,0)`, `(2,0,0)`
and `(3,0,0)` with two points in the middle voxel. -/
theorem FiberToProbmap_once_witness :
    (([⟨3 / 2, 0, 0⟩, ⟨2, 0, 0⟩, ⟨5 / 2, 0, 0⟩, ⟨7 / 2, 0, 0⟩] : FiberType ℚ).map
      gridHandler.TransformPhysicalPointToIndex).head? ≠ some ⟨0, 0, 0⟩ ∧
    (voxelEntries ⟨0, 0, 0⟩
      (([⟨3 / 2, 0, 0⟩, ⟨2, 0, 0⟩, ⟨5 / 2, 0, 0⟩, ⟨7 / 2, 0, 0⟩] : FiberType ℚ).map
        gridHandler.TransformPhysicalPointToIndex)).Nodup ∧
    FiberToProbmap gridHandler (fun _ => 0)
      [⟨3 / 2, 0, 0⟩, ⟨2, 0, 0⟩, ⟨5 / 2, 0, 0⟩, ⟨7 / 2, 0, 0⟩] ⟨2, 0, 0⟩ =
      0 + if gridHandler.RegionIsInside ⟨2, 0, 0⟩ = true ∧
        (⟨2, 0, 0⟩ : Index3) ∈
          ([⟨3 / 2, 0, 0⟩, ⟨2, 0, 0⟩, ⟨5 / 2, 0, 0⟩, ⟨7 / 2, 0, 0⟩] : FiberType ℚ).map
            gridHandler.TransformPhysicalPointToIndex then 1 else 0 :=
  ⟨by decide!, by decide!,
   FiberToProbmap_once gridHandler (fun _ => 0)
    [⟨3 / 2, 0, 0⟩, ⟨2, 0, 0⟩, ⟨5 / 2, 0, 0⟩, ⟨7 / 2, 0, 0⟩] ⟨2, 0, 0⟩ (by decide!) (by decide!)⟩

/-- Counterexample to C12 as stated: a fiber with points in the voxels `(1,0,0)`, `(2,0,0)`
and again `(1,0,0)` passes the acceptance test in probability-map mode and raises the count
of voxel `(1,0,0)` from `0` to `2`. -/
theorem probmap_reentry_counterexample :
    probmapFilter.m_UseOutputProbabilityMap = true ∧
    ([⟨3 / 2, 0, 0⟩, ⟨5 / 2, 0, 0⟩, ⟨3 / 2, 0, 0⟩] : FiberType ℚ).map
      gridHandler.TransformPhysicalPointToIndex = [⟨1, 0, 0⟩, ⟨2, 0, 0⟩, ⟨1, 0, 0⟩] ∧
    (initialSharedState : SharedState ℚ).m_OutputProbabilityMap ⟨1, 0, 0⟩ = 0 ∧
    (probmapFilter.acceptFiber gridHandler initialSharedState
      [⟨3 / 2, 0, 0⟩, ⟨5 / 2, 0, 0⟩, ⟨3 / 2, 0, 0⟩] 2).m_CurrentTracts = 1 ∧
    (probmapFilter.acceptFiber gridHandler initialSharedState
      [⟨3 / 2, 0, 0⟩, ⟨5 / 2, 0, 0⟩, ⟨3 / 2, 0, 0⟩] 2).m_OutputProbabilityMap ⟨1, 0, 0⟩ = 2 := by
  decide!

/-! ### Abort (C13) -/

/-- While the abort flag is set the step loop returns at once: length, fiber and state of
the collaborators are as passed in. -/
theorem followLoop_aborted {F : Type} [LinearOrderedField F] {σ : Type}
    (f : StreamlineTrackingFilter F) (M : MathEnv F) (h : TrackingDataHandler F σ)
    (front : Bool) (steps : ℕ) (pos dir : Vec3 F) (fib : FiberType F) (tractLength : F)
    (last_dirs : List (Vec3 F)) (s : σ) (habort : h.m_AbortTracking s = true) :
    followLoop f M h front steps pos dir fib tractLength last_dirs s =
      (tractLength, fib, s) := by
  cases steps with
  | zero => rfl
  | succ n =>
    unfold followLoop
    simp only [habort, if_true]

/-- C13 as amended: when the abort flag is set and stays set, every seed whose tracing
starts from then on leaves the shared state as it is (its fiber is the seed point alone and
fails the point-count test), so no fiber is added, the counter does not change and the
fibers accepted before are retained. -/
theorem trackingLoop_aborted {F : Type} [LinearOrderedField F] {σ : Type}
    (f : StreamlineTrackingFilter F) (M : MathEnv F) (h : TrackingDataHandler F σ)
    (habort : ∀ s : σ, h.m_AbortTracking s = true) (seeds : List (Vec3 F))
    (sh : SharedState F) (s : σ) :
    (f.trackingLoop M h seeds sh s).1 = sh ∧
    ∀ worldPos ∈ seeds, ∀ s0 : σ, (f.traceSeed M h s0 worldPos).1 = none ∨
      (f.traceSeed M h s0 worldPos).1 = some ([worldPos], 0) := by
  have htrace : ∀ (worldPos : Vec3 F) (s0 : σ), (f.traceSeed M h s0 worldPos).1 = none ∨
      (f.traceSeed M h s0 worldPos).1 = some ([worldPos], 0) := by
    intro worldPos s0
    unfold StreamlineTrackingFilter.traceSeed StreamlineTrackingFilter.FollowStreamline
    simp only [followLoop_aborted f M h _ _ _ _ _ _ _ _ (habort _)]
    split_ifs <;> first | (right; rfl) | (left; rfl)
  refine ⟨?_, fun worldPos _ s0 => htrace worldPos s0⟩
  induction seeds generalizing s with
  | nil => rfl
  | cons worldPos rest ih =>
    unfold StreamlineTrackingFilter.trackingLoop
    split_ifs
    · rfl
    · simp only
      have hproc : (f.processSeed M h sh s worldPos).1 = sh := by
        unfold StreamlineTrackingFilter.processSeed
        cases htr : f.traceSeed M h s worldPos with
        | mk res s1 =>
          rcases htrace worldPos s with hn | hsome
          · rw [htr] at hn
            simp only at hn
            subst hn
            rfl
          · rw [htr] at hsome
            simp only at hsome
            subst hsome
            simp only
            unfold StreamlineTrackingFilter.acceptFiber
            rw [if_neg]
            rintro ⟨-, hlen⟩
            simp at hlen
      rw [hproc]
      exact ih _

/-- Witness for the amended C13: the abort flag is set throughout, two seeds, a shared
state that already holds one accepted fiber. -/
theorem trackingLoop_aborted_witness :
    (∀ s : ℕ, (abortedHandler ℚ).m_AbortTracking s = true) ∧
    (demoFilter.trackingLoop ratMath (abortedHandler ℚ) [⟨0, 0, 0⟩, ⟨1, 0, 0⟩]
      { m_Tractogram := [[⟨0, 0, 5⟩, ⟨0, 0, 6⟩]], m_OutputProbabilityMap := fun _ => 0,
        m_CurrentTracts := 1, m_StopTracking := false } 0).1 =
      { m_Tractogram := [[⟨0, 0, 5⟩, ⟨0, 0, 6⟩]], m_OutputProbabilityMap := fun _ => 0,
        m_CurrentTracts := 1, m_StopTracking := false } :=
  ⟨fun _ => rfl,
   (trackingLoop_aborted demoFilter ratMath (abortedHandler ℚ) (fun _ => rfl)
      [⟨0, 0, 0⟩, ⟨1, 0, 0⟩]
      { m_Tractogram := [[⟨0, 0, 5⟩, ⟨0, 0, 6⟩]], m_OutputProbabilityMap := fun _ => 0,
        m_CurrentTracts := 1, m_StopTracking := false } 0).1⟩

/-- Counterexample to C13 as stated: the abort flag is set from the third query on; the
trace of the seed at the origin is cut short after one step and ends in state `3`, where
the flag is set, and the acceptance test that follows adds the two-point fiber to the
tractogram and raises the counter. -/
theorem abort_in_flight_counterexample :
    (abortingHandler ℚ).m_AbortTracking 2 = false ∧
    (abortingHandler ℚ).m_AbortTracking 3 = true ∧
    demoFilter.traceSeed ratMath (abortingHandler ℚ) 0 ⟨0, 0, 0⟩ =
      (some ([⟨0, 0, 0⟩, ⟨0, 0, 1⟩], 1), 3) ∧
    (demoFilter.acceptFiber (abortingHandler ℚ) initialSharedState
      [⟨0, 0, 0⟩, ⟨0, 0, 1⟩] 1).m_Tractogram = [[⟨0, 0, 0⟩, ⟨0, 0, 1⟩]] ∧
    (demoFilter.GenerateData ratMath (abortingHandler ℚ) [⟨0, 0, 0⟩] 0).1.m_Tractogram =
      [[⟨0, 0, 0⟩, ⟨0, 0, 1⟩]] ∧
    (demoFilter.GenerateData ratMath (abortingHandler ℚ) [⟨0, 0, 0⟩] 0).1.m_CurrentTracts = 1 := by
  decide!

/-! ### Fewer than two probe directions (C14) -/

/-- C14 as amended: a configuration with fewer than two neighbourhood samples is not
rejected: `BeforeTracking` takes `m_NumberOfSamples` over as it is, `CreateDirections`
answers with the empty shell, and `GenerateData` traces every seed whose start direction
(the proposal at the seed inside the tracking mask, zero outside) has a magnitude above
`0.0001`, exactly as for larger numbers of samples. -/
theorem traceSeed_few_samples {F Img : Type} [LinearOrderedField F] {σ : Type}
    (M : MathEnv F) (E : ImageEnv F Img) (imageSpacing : Vec3 F) (c : FilterSettings F Img)
    (f : StreamlineTrackingFilter F) (h : TrackingDataHandler F σ) (s : σ)
    (worldPos : Vec3 F) (hN : f.m_NumberOfSamples < 2) :
    (BeforeTracking M E imageSpacing c).m_NumberOfSamples = c.m_NumberOfSamples ∧
    CreateDirections M f.m_NumberOfSamples = [] ∧
    ((f.traceSeed M h s worldPos).1.isSome = true ↔
      (if f.m_MaskInterpolator worldPos then
        h.ProposeDirection s worldPos
          (List.replicate f.m_NumPreviousDirections (Vec3.fill 0)) ⟨0, 0, 0⟩
       else (Vec3.fill 0, s)).1.magnitude M > 1 / 10000) := by
  refine ⟨rfl, ?_, ?_⟩
  · unfold CreateDirections
    rw [if_pos hN]
  · unfold StreamlineTrackingFilter.traceSeed
    simp only
    generalize (if f.m_MaskInterpolator worldPos = true then
      h.ProposeDirection s worldPos (List.replicate f.m_NumPreviousDirections (Vec3.fill 0))
        ⟨0, 0, 0⟩ else (Vec3.fill 0, s)) = r
    by_cases hd : r.1.magnitude M > 1 / 10000
    · rw [if_pos hd]
      exact ⟨fun _ => hd, fun _ => rfl⟩
    · rw [if_neg hd]
      exact ⟨fun hc => absurd hc (by simp), fun hc => absurd hc hd⟩

/-- Witness for the amended C14: no neighbourhood samples, seed at the origin. -/
theorem traceSeed_few_samples_witness :
    zeroSampleFilter.m_NumberOfSamples < 2 ∧
    CreateDirections ratMath zeroSampleFilter.m_NumberOfSamples = [] ∧
    (zeroSampleFilter.traceSeed ratMath (demoHandler ℚ) 0 ⟨0, 0, 0⟩).1.isSome = true :=
  ⟨by decide!,
   (traceSeed_few_samples ratMath (demoImages ℚ) ⟨1, 1, 1⟩ (demoSettings ℚ) zeroSampleFilter
      (demoHandler ℚ) 0 ⟨0, 0, 0⟩ (by decide!)).2.1,
   (traceSeed_few_samples ratMath (demoImages ℚ) ⟨1, 1, 1⟩ (demoSettings ℚ) zeroSampleFilter
      (demoHandler ℚ) 0 ⟨0, 0, 0⟩ (by decide!)).2.2.mpr (by decide!)⟩

/-- Counterexample to C14 as stated: with `m_NumberOfSamples = 0` (the default of the
command-line application) `GenerateData` traces the seed at the origin and accepts its
fiber of six points. -/
theorem few_samples_traced_counterexample :
    zeroSampleFilter.m_NumberOfSamples = 0 ∧
    (zeroSampleFilter.traceSeed ratMath (demoHandler ℚ) 0 ⟨0, 0, 0⟩).1 =
      some ([⟨0, 0, -1⟩, ⟨0, 0, 0⟩, ⟨0, 0, 1⟩, ⟨0, 0, 2⟩, ⟨0, 0, 3⟩, ⟨0, 0, 4⟩], 5) ∧
    (zeroSampleFilter.GenerateData ratMath (demoHandler ℚ) [⟨0, 0, 0⟩] 0).1.m_Tractogram =
      [[⟨0, 0, -1⟩, ⟨0, 0, 0⟩, ⟨0, 0, 1⟩, ⟨0, 0, 2⟩, ⟨0, 0, 3⟩, ⟨0, 0, 4⟩]] ∧
    (zeroSampleFilter.GenerateData ratMath (demoHandler ℚ) [⟨0, 0, 0⟩] 0).1.m_CurrentTracts = 1 := by
  decide!

/-! ### Curvature trimming and the shape of the fiber (C15, C18, C19) -/

/-- Popping `n` points at the front drops the first `n` points; popping them at the back
keeps the first `length - n` points. -/
theorem popPoints_eq {F : Type} (n : ℕ) :
    ∀ fib : FiberType F, popPoints true n fib = fib.drop n ∧
      popPoints false n fib = fib.take (fib.length - n) := by
  induction n with
  | zero =>
    intro fib
    simp [popPoints]
  | succ m ih =>
    intro fib
    unfold popPoints
    constructor
    · simp only [if_true]
      rw [(ih fib.tail).1, List.drop_tail]
    · simp only [Bool.false_eq_true, if_false]
      rw [(ih fib.dropLast).2, List.dropLast_eq_take, List.take_take, List.length_take]
      congr 1
      omega

/-- C15 as amended: with the a-posteriori curvature check enabled, when after a step
`CheckCurvature` reports `curv > 0` points, `FollowStreamline` removes the `curv` points at
the growing end of the path (the new point together with the points before it that start a
segment of the 5 mm window), stops the pass and returns the length before the step plus one
step size minus `curv` step sizes, which for a non-negative step size does not exceed the
length before the step. -/
theorem followLoop_curvature_trim {F : Type} [LinearOrderedField F] {σ : Type}
    (f : StreamlineTrackingFilter F) (M : MathEnv F) (h : TrackingDataHandler F σ)
    (front : Bool) (steps : ℕ) (pos dir : Vec3 F) (fib : FiberType F) (tractLength : F)
    (last_dirs : List (Vec3 F)) (s : σ) (curv : ℕ)
    (hcheck : f.m_AposterioriCurvCheck = true) (habort : h.m_AbortTracking s = false)
    (hstep : 0 ≤ f.m_StepSize)
    (hcurv : curv = CheckCurvature M (if front then f.CalculateNewPosition pos dir :: fib
      else fib ++ [f.CalculateNewPosition pos dir]) front)
    (hpos : 0 < curv) :
    followLoop f M h front (steps + 1) pos dir fib tractLength last_dirs s =
      (tractLength + f.m_StepSize - f.m_StepSize * (curv : F),
       if front then (f.CalculateNewPosition pos dir :: fib).drop curv
       else (fib ++ [f.CalculateNewPosition pos dir]).take (fib.length + 1 - curv),
       s) ∧
    (followLoop f M h front (steps + 1) pos dir fib tractLength last_dirs s).1 ≤
      tractLength := by
  have hloop : followLoop f M h front (steps + 1) pos dir fib tractLength last_dirs s =
      (tractLength + f.m_StepSize - f.m_StepSize * (curv : F),
       popPoints front curv (if front then f.CalculateNewPosition pos dir :: fib
         else fib ++ [f.CalculateNewPosition pos dir]), s) := by
    unfold followLoop
    simp only [habort, Bool.false_eq_true, if_false, hcheck, if_true]
    rw [← hcurv, if_pos hpos]
  constructor
  · rw [hloop]
    cases front
    · simp only [Bool.false_eq_true, if_false, (popPoints_eq curv _).2, List.length_append,
        List.length_singleton]
    · simp only [if_true, (popPoints_eq curv _).1]
  · rw [hloop]
    show tractLength + f.m_StepSize - f.m_StepSize * (curv : F) ≤ tractLength
    have h1 : (1 : F) ≤ (curv : F) := by exact_mod_cast hpos
    nlinarith

/-- Witness for the amended C15: the second step of the pass down the z axis from the
origin under `reversingHandler`, where `CheckCurvature` reports `5` points. -/
theorem followLoop_curvature_trim_witness :
    curvFilter.m_AposterioriCurvCheck = true ∧ (0 : ℚ) ≤ curvFilter.m_StepSize ∧
    5 = CheckCurvature ratMath
      (curvFilter.CalculateNewPosition ⟨0, 0, -1⟩ ⟨0, 0, 1⟩ ::
        [⟨0, 0, -1⟩, ⟨0, 0, 0⟩, ⟨0, 0, 1⟩, ⟨0, 0, 2⟩, ⟨0, 0, 3⟩, ⟨0, 0, 4⟩]) true ∧
    (followLoop curvFilter ratMath (reversingHandler ℚ) true (0 + 1) ⟨0, 0, -1⟩ ⟨0, 0, 1⟩
      [⟨0, 0, -1⟩, ⟨0, 0, 0⟩, ⟨0, 0, 1⟩, ⟨0, 0, 2⟩, ⟨0, 0, 3⟩, ⟨0, 0, 4⟩] 5
      [⟨0, 0, -1⟩] 7).1 ≤ 5 :=
  ⟨rfl, by decide!, by decide!,
   (followLoop_curvature_trim curvFilter ratMath (reversingHandler ℚ) true 0 ⟨0, 0, -1⟩
      ⟨0, 0, 1⟩ [⟨0, 0, -1⟩, ⟨0, 0, 0⟩, ⟨0, 0, 1⟩, ⟨0, 0, 2⟩, ⟨0, 0, 3⟩, ⟨0, 0, 4⟩] 5
      [⟨0, 0, -1⟩] 7 5 rfl rfl (by decide!) (by decide!) (by decide)).2⟩

/-- Counterexample to C15 as stated: the pass down the z axis from the origin, in front of
the seed and eight points of the other pass.  After its first step the path has ten points
and length `9`; the second step turns around and adds one point; `FollowStreamline` then
removes five points, among them the seed and the two points `(0,0,1)`, `(0,0,2)` of the
other pass, and not only the point that the reversing step has added. -/
theorem curvature_trim_window_counterexample :
    curvFilter.m_AposterioriCurvCheck = true ∧
    followLoop curvFilter ratMath (reversingHandler ℚ) true 1 ⟨0, 0, 0⟩ ⟨0, 0, -1⟩
      [⟨0, 0, 0⟩, ⟨0, 0, 1⟩, ⟨0, 0, 2⟩, ⟨0, 0, 3⟩, ⟨0, 0, 4⟩, ⟨0, 0, 5⟩, ⟨0, 0, 6⟩, ⟨0, 0, 7⟩,
        ⟨0, 0, 8⟩] 8 [] 9 =
      (9, [⟨0, 0, -1⟩, ⟨0, 0, 0⟩, ⟨0, 0, 1⟩, ⟨0, 0, 2⟩, ⟨0, 0, 3⟩, ⟨0, 0, 4⟩, ⟨0, 0, 5⟩,
        ⟨0, 0, 6⟩, ⟨0, 0, 7⟩, ⟨0, 0, 8⟩], 10) ∧
    curvFilter.FollowStreamline ratMath (reversingHandler ℚ) 9 ⟨0, 0, 0⟩ ⟨0, 0, -1⟩
      [⟨0, 0, 0⟩, ⟨0, 0, 1⟩, ⟨0, 0, 2⟩, ⟨0, 0, 3⟩, ⟨0, 0, 4⟩, ⟨0, 0, 5⟩, ⟨0, 0, 6⟩, ⟨0, 0, 7⟩,
        ⟨0, 0, 8⟩] 8 true =
      (5, [⟨0, 0, 3⟩, ⟨0, 0, 4⟩, ⟨0, 0, 5⟩, ⟨0, 0, 6⟩, ⟨0, 0, 7⟩, ⟨0, 0, 8⟩], 10) := by
  decide!

/-- Without the curvature check and with a non-negative step size the step loop never
returns less than the length passed in. -/
theorem followLoop_length_ge {F : Type} [LinearOrderedField F] {σ : Type}
    (f : StreamlineTrackingFilter F) (M : MathEnv F) (h : TrackingDataHandler F σ)
    (front : Bool) (hcheck : f.m_AposterioriCurvCheck = false) (hstep : 0 ≤ f.m_StepSize)
    (steps : ℕ) :
    ∀ (pos dir : Vec3 F) (fib : FiberType F) (tractLength : F) (last_dirs : List (Vec3 F))
      (s : σ),
      tractLength ≤ (followLoop f M h front steps pos dir fib tractLength last_dirs s).1 := by
  induction steps with
  | zero =>
    intro pos dir fib tractLength last_dirs s
    exact le_refl _
  | succ n ih =>
    intro pos dir fib tractLength last_dirs s
    unfold followLoop
    simp only [hcheck, Bool.false_eq_true, if_false, gt_iff_lt, lt_self_iff_false]
    split_ifs <;> (try dsimp only) <;>
      first
      | linarith
      | (refine le_trans ?_ (ih _ _ _ _ _ _)
         linarith)

/-- C19 as amended: with the a-posteriori curvature check disabled and a non-negative step
size, the tract length that a pass of `FollowStreamline` returns is never smaller than the
length passed into it. -/
theorem FollowStreamline_length_ge {F : Type} [LinearOrderedField F] {σ : Type}
    (f : StreamlineTrackingFilter F) (M : MathEnv F) (h : TrackingDataHandler F σ) (s : σ)
    (pos dir : Vec3 F) (fib : FiberType F) (tractLength : F) (front : Bool)
    (hcheck : f.m_AposterioriCurvCheck = false) (hstep : 0 ≤ f.m_StepSize) :
    tractLength ≤ (f.FollowStreamline M h s pos dir fib tractLength front).1 := by
  unfold StreamlineTrackingFilter.FollowStreamline
  exact followLoop_length_ge f M h front hcheck hstep _ _ _ _ _ _ _

/-- Witness for the amended C19: the pass down the z axis from the origin in `demoFilter`,
entered with length `4` and left with length `5`. -/
theorem FollowStreamline_length_ge_witness :
    demoFilter.m_AposterioriCurvCheck = false ∧ (0 : ℚ) ≤ demoFilter.m_StepSize ∧
    (demoFilter.FollowStreamline ratMath (demoHandler ℚ) 9 ⟨0, 0, 0⟩ ⟨0, 0, -1⟩
      [⟨0, 0, 0⟩, ⟨0, 0, 1⟩, ⟨0, 0, 2⟩, ⟨0, 0, 3⟩, ⟨0, 0, 4⟩] 4 true).1 = 5 ∧
    (4 : ℚ) ≤ (demoFilter.FollowStreamline ratMath (demoHandler ℚ) 9 ⟨0, 0, 0⟩ ⟨0, 0, -1⟩
      [⟨0, 0, 0⟩, ⟨0, 0, 1⟩, ⟨0, 0, 2⟩, ⟨0, 0, 3⟩, ⟨0, 0, 4⟩] 4 true).1 :=
  ⟨rfl, by decide!, by decide!,
   FollowStreamline_length_ge demoFilter ratMath (demoHandler ℚ) 9 ⟨0, 0, 0⟩ ⟨0, 0, -1⟩
    [⟨0, 0, 0⟩, ⟨0, 0, 1⟩, ⟨0, 0, 2⟩, ⟨0, 0, 3⟩, ⟨0, 0, 4⟩] 4 true rfl (by decide!)⟩

/-- Counterexample to C19 as stated: with the curvature check enabled the pass down the z
axis from the origin is entered with tract length `8` and, after two steps and the removal
of five points, returns the tract length `5`. -/
theorem tract_length_decreases_counterexample :
    (0 : ℚ) ≤ curvFilter.m_StepSize ∧
    (curvFilter.FollowStreamline ratMath (reversingHandler ℚ) 9 ⟨0, 0, 0⟩ ⟨0, 0, -1⟩
      [⟨0, 0, 0⟩, ⟨0, 0, 1⟩, ⟨0, 0, 2⟩, ⟨0, 0, 3⟩, ⟨0, 0, 4⟩, ⟨0, 0, 5⟩, ⟨0, 0, 6⟩, ⟨0, 0, 7⟩,
        ⟨0, 0, 8⟩] 8 true).1 = 5 ∧
    ¬ ((8 : ℚ) ≤ (curvFilter.FollowStreamline ratMath (reversingHandler ℚ) 9 ⟨0, 0, 0⟩
      ⟨0, 0, -1⟩
      [⟨0, 0, 0⟩, ⟨0, 0, 1⟩, ⟨0, 0, 2⟩, ⟨0, 0, 3⟩, ⟨0, 0, 4⟩, ⟨0, 0, 5⟩, ⟨0, 0, 6⟩, ⟨0, 0, 7⟩,
        ⟨0, 0, 8⟩] 8 true).1) := by
  decide!

/-- Without the curvature check a pass does not read the fiber: it returns the same length
and state as the pass that starts from the empty fiber and appends at the back, and its
fiber is the fiber passed in with the points of that pass appended at the back, or with
these points in reverse order put in front. -/
theorem followLoop_fiber {F : Type} [LinearOrderedField F] {σ : Type}
    (f : StreamlineTrackingFilter F) (M : MathEnv F) (h : TrackingDataHandler F σ)
    (hcheck : f.m_AposterioriCurvCheck = false) (steps : ℕ) :
    ∀ (front : Bool) (pos dir : Vec3 F) (fib : FiberType F) (tractLength : F)
      (last_dirs : List (Vec3 F)) (s : σ),
      followLoop f M h front steps pos dir fib tractLength last_dirs s =
        ((followLoop f M h false steps pos dir [] tractLength last_dirs s).1,
         if front then
           (followLoop f M h false steps pos dir [] tractLength last_dirs s).2.1.reverse ++ fib
         else fib ++ (followLoop f M h false steps pos dir [] tractLength last_dirs s).2.1,
         (followLoop f M h false steps pos dir [] tractLength last_dirs s).2.2) := by
  induction steps with
  | zero =>
    intro front pos dir fib tractLength last_dirs s
    cases front <;> simp [followLoop]
  | succ n ih =>
    intro front pos dir fib tractLength last_dirs s
    have hL : ∀ (fr : Bool) (fb : FiberType F),
        followLoop f M h fr (n + 1) pos dir fb tractLength last_dirs s =
          if h.m_AbortTracking s then (tractLength, fb, s)
          else if tractLength + f.m_StepSize > f.m_MaxTractLength then
            (tractLength + f.m_StepSize,
             if fr then f.CalculateNewPosition pos dir :: fb
             else fb ++ [f.CalculateNewPosition pos dir], s)
          else if (f.GetNewDirection M h s (f.CalculateNewPosition pos dir)
              (if (last_dirs ++ [dir.normalize M]).length > f.m_NumPreviousDirections then
                (last_dirs ++ [dir.normalize M]).tail else last_dirs ++ [dir.normalize M])
              (h.WorldToIndex pos)).1.magnitude M < 1 / 10000 then
            (tractLength + f.m_StepSize,
             if fr then f.CalculateNewPosition pos dir :: fb
             else fb ++ [f.CalculateNewPosition pos dir],
             (f.GetNewDirection M h s (f.CalculateNewPosition pos dir)
              (if (last_dirs ++ [dir.normalize M]).length > f.m_NumPreviousDirections then
                (last_dirs ++ [dir.normalize M]).tail else last_dirs ++ [dir.normalize M])
              (h.WorldToIndex pos)).2)
          else followLoop f M h fr n (f.CalculateNewPosition pos dir)
            (f.GetNewDirection M h s (f.CalculateNewPosition pos dir)
              (if (last_dirs ++ [dir.normalize M]).length > f.m_NumPreviousDirections then
                (last_dirs ++ [dir.normalize M]).tail else last_dirs ++ [dir.normalize M])
              (h.WorldToIndex pos)).1
            (if fr then f.CalculateNewPosition pos dir :: fb
             else fb ++ [f.CalculateNewPosition pos dir])
            (tractLength + f.m_StepSize)
            (if (last_dirs ++ [dir.normalize M]).length > f.m_NumPreviousDirections then
                (last_dirs ++ [dir.normalize M]).tail else last_dirs ++ [dir.normalize M])
            (f.GetNewDirection M h s (f.CalculateNewPosition pos dir)
              (if (last_dirs ++ [dir.normalize M]).length > f.m_NumPreviousDirections then
                (last_dirs ++ [dir.normalize M]).tail else last_dirs ++ [dir.normalize M])
              (h.WorldToIndex pos)).2 := by
      intro fr fb
      conv_lhs => unfold followLoop
      simp only [hcheck, Bool.false_eq_true, if_false, gt_iff_lt, lt_self_iff_false]
    rw [hL front fib, hL false []]
    by_cases hab : h.m_AbortTracking s = true
    · simp only [hab, if_true]
      cases front <;> simp
    · simp only [hab, if_false]
      by_cases hmax : tractLength + f.m_StepSize > f.m_MaxTractLength
      · simp only [hmax, if_true]
        cases front <;> simp
      · simp only [hmax, if_false]
        by_cases hmag : (f.GetNewDirection M h s (f.CalculateNewPosition pos dir)
              (if (last_dirs ++ [dir.normalize M]).length > f.m_NumPreviousDirections then
                (last_dirs ++ [dir.normalize M]).tail else last_dirs ++ [dir.normalize M])
              (h.WorldToIndex pos)).1.magnitude M < 1 / 10000
        · simp only [hmag, if_true]
          cases front <;> simp
        · simp only [hmag, if_false]
          cases front
          · simp only [Bool.false_eq_true, if_false, List.nil_append]
            rw [ih false _ _ (fib ++ [f.CalculateNewPosition pos dir]),
              ih false _ _ [f.CalculateNewPosition pos dir]]
            simp
          · simp only [if_true, Bool.false_eq_true, if_false, List.nil_append]
            rw [ih true _ _ (f.CalculateNewPosition pos dir :: fib),
              ih false _ _ [f.CalculateNewPosition pos dir]]
            simp

/-- C18 as amended: with the a-posteriori curvature check disabled, for every seed with a
start direction `d0` of magnitude above `0.0001` the fiber that `GenerateData` builds is
the points of the pass along `-d0` in reverse order of creation, then the seed point, then
the points of the pass along `d0` in order of creation; the seed point is inserted once and
is a point of the fiber.  (The points of a pass in order of creation are the fiber that the
pass builds from the empty fiber when it appends at the back.) -/
theorem traceSeed_fiber_shape {F : Type} [LinearOrderedField F] {σ : Type}
    (f : StreamlineTrackingFilter F) (M : MathEnv F) (h : TrackingDataHandler F σ) (s : σ)
    (worldPos : Vec3 F) (fib : FiberType F) (tractLength : F)
    (hcheck : f.m_AposterioriCurvCheck = false)
    (htrace : (f.traceSeed M h s worldPos).1 = some (fib, tractLength)) :
    ∀ (r : Vec3 F × σ) (fwd bwd : F × FiberType F × σ),
      r = (if f.m_MaskInterpolator worldPos then
        h.ProposeDirection s worldPos
          (List.replicate f.m_NumPreviousDirections (Vec3.fill 0)) ⟨0, 0, 0⟩
        else (Vec3.fill 0, s)) →
      fwd = f.FollowStreamline M h r.2 worldPos r.1 [] 0 false →
      bwd = f.FollowStreamline M h fwd.2.2 worldPos r.1.neg [] fwd.1 false →
      fib = bwd.2.1.reverse ++ worldPos :: fwd.2.1 ∧ worldPos ∈ fib ∧
      fib.length = bwd.2.1.length + 1 + fwd.2.1.length ∧ tractLength = bwd.1 := by
  intro r fwd bwd hr hfwd hbwd
  unfold StreamlineTrackingFilter.traceSeed at htrace
  simp only at htrace
  rw [← hr] at htrace
  by_cases hd : r.1.magnitude M > 1 / 10000
  · rw [if_pos hd] at htrace
    simp only [Option.some.injEq, Prod.mk.injEq] at htrace
    obtain ⟨hfib, hlen⟩ := htrace
    rw [← hfwd] at hfib hlen
    unfold StreamlineTrackingFilter.FollowStreamline at hfib hlen hbwd
    rw [followLoop_fiber f M h hcheck] at hfib hlen
    rw [← hbwd] at hfib hlen
    simp only [if_true] at hfib hlen
    have hshape : fib = bwd.2.1.reverse ++ worldPos :: fwd.2.1 := hfib.symm
    refine ⟨hshape, ?_, ?_, hlen.symm⟩
    · rw [hshape]
      simp
    · rw [hshape]
      simp
      omega
  · rw [if_neg hd] at htrace
    exact absurd htrace (by simp)

/-- Witness for the amended C18: the seed at the origin in `demoFilter`. -/
theorem traceSeed_fiber_shape_witness :
    demoFilter.m_AposterioriCurvCheck = false ∧
    (demoFilter.traceSeed ratMath (demoHandler ℚ) 0 ⟨0, 0, 0⟩).1 =
      some ([⟨0, 0, -1⟩, ⟨0, 0, 0⟩, ⟨0, 0, 1⟩, ⟨0, 0, 2⟩, ⟨0, 0, 3⟩, ⟨0, 0, 4⟩], 5) ∧
    (demoFilter.FollowStreamline ratMath (demoHandler ℚ) 1 ⟨0, 0, 0⟩ ⟨0, 0, 1⟩ [] 0 false) =
      (4, [⟨0, 0, 1⟩, ⟨0, 0, 2⟩, ⟨0, 0, 3⟩, ⟨0, 0, 4⟩], 7) ∧
    (demoFilter.FollowStreamline ratMath (demoHandler ℚ) 7 ⟨0, 0, 0⟩
      (⟨0, 0, 1⟩ : Vec3 ℚ).neg [] 4 false) = (5, [⟨0, 0, -1⟩], 7) ∧
    ([⟨0, 0, -1⟩, ⟨0, 0, 0⟩, ⟨0, 0, 1⟩, ⟨0, 0, 2⟩, ⟨0, 0, 3⟩, ⟨0, 0, 4⟩] : FiberType ℚ) =
      ([⟨0, 0, -1⟩] : FiberType ℚ).reverse ++
        ⟨0, 0, 0⟩ :: [⟨0, 0, 1⟩, ⟨0, 0, 2⟩, ⟨0, 0, 3⟩, ⟨0, 0, 4⟩] :=
  ⟨rfl, by decide!, by decide!, by decide!,
   (traceSeed_fiber_shape demoFilter ratMath (demoHandler ℚ) 0 ⟨0, 0, 0⟩
      [⟨0, 0, -1⟩, ⟨0, 0, 0⟩, ⟨0, 0, 1⟩, ⟨0, 0, 2⟩, ⟨0, 0, 3⟩, ⟨0, 0, 4⟩] 5 rfl (by decide!)
      (⟨0, 0, 1⟩, 1) (4, [⟨0, 0, 1⟩, ⟨0, 0, 2⟩, ⟨0, 0, 3⟩, ⟨0, 0, 4⟩], 7)
      (5, [⟨0, 0, -1⟩], 7) (by decide!) (by decide!) (by decide!)).1⟩

/-- Counterexample to C18 as stated: with the curvature check enabled the seed at the
origin has the start direction `(0,0,1)`, the pass along it creates the points `z = 1..8`,
and the pass along `(0,0,-1)` is turned around at `z = -1` and trimmed by five points; the
finished fiber, which `GenerateData` accepts, does not contain the seed point. -/
theorem seed_trimmed_counterexample :
    ((reversingHandler ℚ).ProposeDirection 0 ⟨0, 0, 0⟩
      (List.replicate curvFilter.m_NumPreviousDirections (Vec3.fill 0)) ⟨0, 0, 0⟩).1 =
      ⟨0, 0, 1⟩ ∧
    (curvFilter.traceSeed ratMath (reversingHandler ℚ) 0 ⟨0, 0, 0⟩).1 =
      some ([⟨0, 0, 3⟩, ⟨0, 0, 4⟩, ⟨0, 0, 5⟩, ⟨0, 0, 6⟩, ⟨0, 0, 7⟩, ⟨0, 0, 8⟩], 5) ∧
    (curvFilter.GenerateData ratMath (reversingHandler ℚ) [⟨0, 0, 0⟩] 0).1.m_Tractogram =
      [[⟨0, 0, 3⟩, ⟨0, 0, 4⟩, ⟨0, 0, 5⟩, ⟨0, 0, 6⟩, ⟨0, 0, 7⟩, ⟨0, 0, 8⟩]] ∧
    (⟨0, 0, 0⟩ : Vec3 ℚ) ∉
      ([⟨0, 0, 3⟩, ⟨0, 0, 4⟩, ⟨0, 0, 5⟩, ⟨0, 0, 6⟩, ⟨0, 0, 7⟩, ⟨0, 0, 8⟩] : FiberType ℚ) := by
  decide!

/-! ### Seed points from the seed image (C17) -/

/-- The inner loop of `GetSeedPointsFromSeedImage` appends one point per iteration. -/
theorem jitteredSeeds_length {F : Type} [LinearOrderedField F] {σ : Type}
    (h : TrackingDataHandler F σ) (toWorld : Vec3 F → Vec3 F) (index : Index3) (n : ℕ) :
    ∀ s : σ, (jitteredSeeds h toWorld index n s).1.length = n := by
  induction n with
  | zero => intro s; rfl
  | succ m ih =>
    intro s
    unfold jitteredSeeds
    simp only [List.length_cons, ih]

/-- C17 as amended: a voxel of the seed image with value `> 0` whose centre lies inside the
tracking mask contributes its centre followed by `m_SeedsPerVoxel - 1` jittered points,
that is `max (m_SeedsPerVoxel, 1)` seed points; a voxel with value `> 0` whose centre lies
outside the tracking mask and a voxel with value `≤ 0` contribute none; and the seed list
is the concatenation of these contributions in the order of the voxels. -/
theorem GetSeedPointsFromSeedImage_blocks {F : Type} [LinearOrderedField F] {σ : Type}
    (f : StreamlineTrackingFilter F) (h : TrackingDataHandler F σ) (m_SeedsPerVoxel : ℤ)
    (toWorld : Vec3 F → Vec3 F) (voxels : List (Index3 × F)) :
    ∀ s : σ, ∃ blocks : List (List (Vec3 F)),
      (GetSeedPointsFromSeedImage f h m_SeedsPerVoxel toWorld voxels s).1 = blocks.flatten ∧
      List.Forall₂ (fun (voxel : Index3 × F) (block : List (Vec3 F)) =>
        ((block.length : ℤ) =
          if voxel.2 > 0 ∧ f.m_MaskInterpolator
              (toWorld ⟨(voxel.1.i : F), (voxel.1.j : F), (voxel.1.k : F)⟩) = true then
            max m_SeedsPerVoxel 1
          else 0) ∧
        (block ≠ [] →
          block.head? = some (toWorld ⟨(voxel.1.i : F), (voxel.1.j : F), (voxel.1.k : F)⟩)))
        voxels blocks := by
  induction voxels with
  | nil =>
    intro s
    exact ⟨[], rfl, List.Forall₂.nil⟩
  | cons voxel rest ih =>
    intro s
    obtain ⟨blocks, hjoin, hall⟩ := ih (seedsOfVoxel f h m_SeedsPerVoxel toWorld s voxel).2
    refine ⟨(seedsOfVoxel f h m_SeedsPerVoxel toWorld s voxel).1 :: blocks, ?_,
      List.Forall₂.cons ?_ hall⟩
    · unfold GetSeedPointsFromSeedImage
      simp only [List.flatten_cons, hjoin]
    · unfold seedsOfVoxel
      by_cases hval : voxel.2 > 0
      · by_cases hmask : f.m_MaskInterpolator
            (toWorld ⟨(voxel.1.i : F), (voxel.1.j : F), (voxel.1.k : F)⟩) = true
        · simp only [hval, hmask, if_true, and_self, List.length_cons, jitteredSeeds_length,
            List.head?_cons, implies_true, and_true]
          push_cast
          omega
        · simp only [hval, hmask, if_true, if_false, and_false, List.length_nil,
            Bool.false_eq_true, ne_eq, not_true_eq_false, false_implies, and_true]
          rfl
      · simp only [hval, if_false, false_and, List.length_nil, ne_eq, not_true_eq_false,
          false_implies, and_true]
        rfl

/-- Counterexample to C17 as stated: with the tracking mask `z < 1/5` and three seeds per
voxel, the seed-image voxel `(0,0,1)` with value `1` contributes no seed point, while the
voxel `(0,0,0)` with value `1` contributes three. -/
theorem seed_voxel_outside_mask_counterexample :
    maskedFilter.m_MaskInterpolator ⟨0, 0, 1⟩ = false ∧
    (GetSeedPointsFromSeedImage maskedFilter (demoHandler ℚ) 3 (fun p => p)
      [(⟨0, 0, 1⟩, 1)] 0).1 = [] ∧
    (GetSeedPointsFromSeedImage maskedFilter (demoHandler ℚ) 3 (fun p => p)
      [(⟨0, 0, 1⟩, 1), (⟨0, 0, 0⟩, 1)] 0).1 =
      [⟨0, 0, 0⟩, ⟨-(1 / 2), -(1 / 2), -(1 / 2)⟩, ⟨-(1 / 2), -(1 / 2), -(1 / 2)⟩] := by
  decide!

/-! ### Angular threshold (C20) -/

/-- C20 as amended: when the angular threshold in degrees is negative and the smallest
spacing is positive, `BeforeTracking` sets the angular threshold to the cosine of 90 degrees
times the step size in voxels (the configured one, or `0.5` when that is below `eps`) as
long as the step size in voxels is at most `1`, and to the cosine of 90 degrees for every
larger step size. -/
theorem BeforeTracking_angular_threshold {F Img : Type} [LinearOrderedField F]
    (M : MathEnv F) (E : ImageEnv F Img) (imageSpacing : Vec3 F) (c : FilterSettings F Img)
    (hdeg : c.m_AngularThresholdDeg < 0) (hsp : 0 < minSpacing imageSpacing) :
    (BeforeTracking M E imageSpacing c).m_StepSize / minSpacing imageSpacing =
      (if c.m_StepSizeVox < M.eps then 1 / 2 else c.m_StepSizeVox) ∧
    (BeforeTracking M E imageSpacing c).m_AngularThreshold =
      if (if c.m_StepSizeVox < M.eps then 1 / 2 else c.m_StepSizeVox) ≤ 1 then
        M.cos (1 / 2 * M.M_PI * (if c.m_StepSizeVox < M.eps then 1 / 2 else c.m_StepSizeVox))
      else M.cos (1 / 2 * M.M_PI) := by
  have hne : minSpacing imageSpacing ≠ 0 := ne_of_gt hsp
  have hvox : (if c.m_StepSizeVox < M.eps then 1 / 2 * minSpacing imageSpacing
      else c.m_StepSizeVox * minSpacing imageSpacing) / minSpacing imageSpacing =
      (if c.m_StepSizeVox < M.eps then 1 / 2 else c.m_StepSizeVox) := by
    split_ifs
    · field_simp
      ring
    · field_simp
  refine ⟨hvox, ?_⟩
  unfold BeforeTracking
  simp only [hdeg, if_true]
  rw [hvox, mul_div_assoc, hvox]

/-- Witness for the amended C20: `demoSettings` on unit voxels, step size one voxel. -/
theorem BeforeTracking_angular_threshold_witness :
    (demoSettings ℚ).m_AngularThresholdDeg < 0 ∧ (0 : ℚ) < minSpacing ⟨1, 1, 1⟩ ∧
    (BeforeTracking ratMath (demoImages ℚ) ⟨1, 1, 1⟩ (demoSettings ℚ)).m_AngularThreshold =
      if (if (demoSettings ℚ).m_StepSizeVox < ratMath.eps then 1 / 2
          else (demoSettings ℚ).m_StepSizeVox) ≤ 1 then
        ratMath.cos (1 / 2 * ratMath.M_PI *
          (if (demoSettings ℚ).m_StepSizeVox < ratMath.eps then 1 / 2
           else (demoSettings ℚ).m_StepSizeVox))
      else ratMath.cos (1 / 2 * ratMath.M_PI) :=
  ⟨by decide!, by decide!,
   (BeforeTracking_angular_threshold ratMath (demoImages ℚ) ⟨1, 1, 1⟩ (demoSettings ℚ)
      (by decide!) (by decide!)).2⟩

/-- Counterexample to C20 as stated: in real arithmetic, on unit voxels with a step size of
two voxels and no angular threshold configured, `BeforeTracking` sets the angular threshold
to `cos (π/2) = 0`, whereas the cosine of 90 degrees times the step size in voxels is
`cos π = -1`. -/
theorem angular_threshold_capped_counterexample :
    (BeforeTracking ⟨Real.sqrt, Real.arccos, Real.cos, Real.sin, Real.pi, 1 / 1000000⟩
      (demoImages ℝ) ⟨1, 1, 1⟩ { demoSettings ℝ with m_StepSizeVox := 2 }).m_StepSize /
      minSpacing (⟨1, 1, 1⟩ : Vec3 ℝ) = 2 ∧
    (BeforeTracking ⟨Real.sqrt, Real.arccos, Real.cos, Real.sin, Real.pi, 1 / 1000000⟩
      (demoImages ℝ) ⟨1, 1, 1⟩ { demoSettings ℝ with m_StepSizeVox := 2 }).m_AngularThreshold
      = 0 ∧
    Real.cos (1 / 2 * Real.pi * 2) = -1 := by
  have hmin : minSpacing (⟨1, 1, 1⟩ : Vec3 ℝ) = 1 := by
    unfold minSpacing
    simp
  refine ⟨?_, ?_, ?_⟩
  · rw [hmin]
    unfold BeforeTracking
    simp only [hmin, demoSettings]
    norm_num
  · unfold BeforeTracking
    simp only [hmin, demoSettings]
    norm_num
    have : (1 / 2 * Real.pi : ℝ) = Real.pi / 2 := by ring
    rw [this, Real.cos_pi_div_two]
  · have : (1 / 2 * Real.pi * 2 : ℝ) = Real.pi := by ring
    rw [this, Real.cos_pi]

/-! ### CheckCurvature (C16) -/

/-- Two distinct points have a difference of non-zero squared magnitude. -/
theorem squared_magnitude_sub_ne_zero {F : Type} [LinearOrderedField F] (p q : Vec3 F)
    (hne : p ≠ q) : (q.sub p).squared_magnitude ≠ 0 := by
  intro h0
  unfold Vec3.squared_magnitude dot_product Vec3.sub at h0
  simp only at h0
  have hx := mul_self_nonneg (q.x - p.x)
  have hy := mul_self_nonneg (q.y - p.y)
  have hz := mul_self_nonneg (q.z - p.z)
  have h1 : (q.x - p.x) * (q.x - p.x) = 0 := by linarith
  have h2 : (q.y - p.y) * (q.y - p.y) = 0 := by linarith
  have h3 : (q.z - p.z) * (q.z - p.z) = 0 := by linarith
  apply hne
  cases p
  cases q
  simp only [Vec3.mk.injEq]
  simp only at h1 h2 h3
  exact ⟨(sub_eq_zero.mp (mul_self_eq_zero.mp h1)).symm,
    (sub_eq_zero.mp (mul_self_eq_zero.mp h2)).symm,
    (sub_eq_zero.mp (mul_self_eq_zero.mp h3)).symm⟩

/-- With an exact square root a normalised non-zero vector has squared magnitude one. -/
theorem squared_magnitude_normalize {F : Type} [LinearOrderedField F] (M : MathEnv F)
    (hsqrt : ∀ x : F, 0 ≤ x → 0 ≤ M.sqrt x ∧ M.sqrt x * M.sqrt x = x) (v : Vec3 F)
    (hne : v.squared_magnitude ≠ 0) : (v.normalize M).squared_magnitude = 1 := by
  have hmag := magnitude_normalize M hsqrt v hne
  unfold Vec3.magnitude at hmag
  have h2 := (hsqrt (v.normalize M).squared_magnitude (squared_magnitude_nonneg _)).2
  rw [hmag] at h2
  linarith

/-- With an exact square root, normalising a vector of squared magnitude one changes
nothing. -/
theorem normalize_of_unit {F : Type} [LinearOrderedField F] (M : MathEnv F)
    (hsqrt : ∀ x : F, 0 ≤ x → 0 ≤ M.sqrt x ∧ M.sqrt x * M.sqrt x = x) (v : Vec3 F)
    (hunit : v.squared_magnitude = 1) : v.normalize M = v := by
  unfold Vec3.normalize
  rw [hunit, if_pos one_ne_zero, sqrt_one_of_exact M hsqrt]
  unfold Vec3.scale
  cases v
  simp

/-- The inner product of two vectors of squared magnitude one lies between `-1` and `1`. -/
theorem dot_product_unit_bounds {F : Type} [LinearOrderedField F] (u v : Vec3 F)
    (hu : u.squared_magnitude = 1) (hv : v.squared_magnitude = 1) :
    -1 ≤ dot_product u v ∧ dot_product u v ≤ 1 := by
  unfold Vec3.squared_magnitude dot_product at hu hv
  unfold dot_product
  have h1 := mul_self_nonneg (u.x - v.x)
  have h2 := mul_self_nonneg (u.y - v.y)
  have h3 := mul_self_nonneg (u.z - v.z)
  have h4 := mul_self_nonneg (u.x + v.x)
  have h5 := mul_self_nonneg (u.y + v.y)
  have h6 := mul_self_nonneg (u.z + v.z)
  constructor <;> nlinarith

/-- With an exact square root, the vectors that the window walk stores for a path without
repeated consecutive points have squared magnitude one. -/
theorem curvatureVectors_unit {F : Type} [LinearOrderedField F] (M : MathEnv F)
    (hsqrt : ∀ x : F, 0 ≤ x → 0 ≤ M.sqrt x ∧ M.sqrt x * M.sqrt x = x) :
    ∀ (pts : FiberType F) (dist : F), pts.Chain' (· ≠ ·) →
      ∀ v ∈ curvatureVectors M pts dist, v.squared_magnitude = 1 := by
  intro pts
  induction pts with
  | nil => intro dist _ v hv; simp [curvatureVectors] at hv
  | cons p1 rest ih =>
    intro dist hchain v hv
    cases rest with
    | nil => simp [curvatureVectors] at hv
    | cons p2 rest2 =>
      unfold curvatureVectors at hv
      have hne : p1 ≠ p2 := (List.chain'_cons.mp hchain).1
      have hrest : (p2 :: rest2).Chain' (· ≠ ·) := (List.chain'_cons.mp hchain).2
      split_ifs at hv
      · rcases List.mem_cons.mp hv with rfl | hmem
        · exact squared_magnitude_normalize M hsqrt _ (squared_magnitude_sub_ne_zero p1 p2 hne)
        · exact ih _ hrest v hmem
      · simp at hv

/-- The window walk from distance `0` stores at least one vector when the path has two
points. -/
theorem curvatureVectors_ne_nil {F : Type} [LinearOrderedField F] (M : MathEnv F)
    (pts : FiberType F) (hlen : 2 ≤ pts.length) : curvatureVectors M pts 0 ≠ [] := by
  match pts, hlen with
  | p1 :: p2 :: rest, _ =>
    unfold curvatureVectors
    rw [if_pos (by norm_num)]
    exact List.cons_ne_nil _ _

/-- C16 as amended: in exact arithmetic (exact square root), for every fiber with at least
three points and without repeated consecutive points, `CheckCurvature` reports a non-zero
number of points to discard if and only if the mean, over the segments inside the 5 mm
window from the growing end, of the angle between the unit segment and the unit tangent of
the first segment is at least 30 degrees. -/
theorem CheckCurvature_iff_mean_deviation {F : Type} [LinearOrderedField F] (M : MathEnv F)
    (hsqrt : ∀ x : F, 0 ≤ x → 0 ≤ M.sqrt x ∧ M.sqrt x * M.sqrt x = x)
    (fib : FiberType F) (front : Bool) (hlen : 3 ≤ fib.length)
    (hdistinct : fib.Chain' (· ≠ ·)) :
    CheckCurvature M fib front ≠ 0 ↔ 30 ≤ specMeanDeviation M fib front := by
  have hchain : (if front then fib else fib.reverse).Chain' (· ≠ ·) := by
    cases front
    · simp only [Bool.false_eq_true, if_false]
      rw [List.chain'_reverse]
      exact hdistinct.imp (fun _ _ hab => fun e => hab e.symm)
    · simpa using hdistinct
  have hlen2 : 2 ≤ (if front then fib else fib.reverse).length := by
    cases front <;> simp <;> omega
  have hunit := curvatureVectors_unit M hsqrt _ 0 hchain
  have hnil := curvatureVectors_ne_nil M _ hlen2
  unfold CheckCurvature specMeanDeviation
  rw [if_neg (by omega)]
  simp only
  generalize curvatureVectors M (if front = true then fib else fib.reverse) 0 = vectors
    at hunit hnil
  cases vectors with
  | nil => exact absurd rfl hnil
  | cons v0 vs =>
    have hv0 : v0.squared_magnitude = 1 := hunit v0 (List.mem_cons_self _ _)
    have hmean : ((Vec3.fill 0).add ((v0 :: vs).headD (Vec3.fill 0))).normalize M = v0 := by
      have hadd : (Vec3.fill (0 : F)).add v0 = v0 := by
        unfold Vec3.add Vec3.fill
        cases v0
        simp
      rw [List.headD_cons, hadd]
      exact normalize_of_unit M hsqrt v0 hv0
    rw [hmean, List.headD_cons]
    have hmap : (v0 :: vs).map (fun v =>
        M.acos (if (if dot_product v0 v > 1 then 1 else dot_product v0 v) < -1 then -1
          else if dot_product v0 v > 1 then 1 else dot_product v0 v) * 180 / M.M_PI) =
        (v0 :: vs).map (fun v => M.acos (dot_product v0 v) * 180 / M.M_PI) := by
      apply List.map_congr_left
      intro v hv
      obtain ⟨hlo, hhi⟩ := dot_product_unit_bounds v0 v hv0 (hunit v hv)
      rw [if_neg (not_lt.mpr hhi), if_neg (not_lt.mpr hlo)]
    rw [hmap]
    have hpos : (v0 :: vs).length > 0 := by simp
    rw [if_pos hpos]
    split_ifs with hdev
    · constructor
      · intro hc; exact absurd rfl hc
      · intro hc; exact absurd hdev (not_lt.mpr hc)
    · constructor
      · intro _; exact not_lt.mp hdev
      · intro _; simp

/-- Witness for the amended C16: real arithmetic, a fiber of four points with a right-angle
turn. -/
theorem CheckCurvature_iff_mean_deviation_witness :
    (∀ x : ℝ, 0 ≤ x → 0 ≤ Real.sqrt x ∧ Real.sqrt x * Real.sqrt x = x) ∧
    3 ≤ ([⟨0, 0, 0⟩, ⟨0, 0, 1⟩, ⟨1, 0, 1⟩, ⟨1, 0, 2⟩] : FiberType ℝ).length ∧
    ([⟨0, 0, 0⟩, ⟨0, 0, 1⟩, ⟨1, 0, 1⟩, ⟨1, 0, 2⟩] : FiberType ℝ).Chain' (· ≠ ·) ∧
    (CheckCurvature ⟨Real.sqrt, Real.arccos, Real.cos, Real.sin, Real.pi, 1 / 1000000⟩
        [⟨0, 0, 0⟩, ⟨0, 0, 1⟩, ⟨1, 0, 1⟩, ⟨1, 0, 2⟩] true ≠ 0 ↔
      30 ≤ specMeanDeviation ⟨Real.sqrt, Real.arccos, Real.cos, Real.sin, Real.pi, 1 / 1000000⟩
        [⟨0, 0, 0⟩, ⟨0, 0, 1⟩, ⟨1, 0, 1⟩, ⟨1, 0, 2⟩] true) :=
  ⟨fun x hx => ⟨Real.sqrt_nonneg x, Real.mul_self_sqrt hx⟩, by simp, by simp,
   CheckCurvature_iff_mean_deviation _
    (fun x hx => ⟨Real.sqrt_nonneg x, Real.mul_self_sqrt hx⟩)
    [⟨0, 0, 0⟩, ⟨0, 0, 1⟩, ⟨1, 0, 1⟩, ⟨1, 0, 2⟩] true (by simp) (by simp)⟩

/-- Counterexample to C16 as stated: in real arithmetic the fiber `(0,0,0)`, `(0,0,1)`,
`(1,0,1)`, `(1,0,2)` has three unit segments inside the window, at angles `0`, `90` and `0`
degrees to the first one; their mean is exactly `30` degrees, which does not exceed `30`,
and `CheckCurvature` reports `3` points to discard. -/
theorem mean_deviation_thirty_counterexample :
    specMeanDeviation ⟨Real.sqrt, Real.arccos, Real.cos, Real.sin, Real.pi, 1 / 1000000⟩
      [⟨0, 0, 0⟩, ⟨0, 0, 1⟩, ⟨1, 0, 1⟩, ⟨1, 0, 2⟩] true = 30 ∧
    CheckCurvature ⟨Real.sqrt, Real.arccos, Real.cos, Real.sin, Real.pi, 1 / 1000000⟩
      [⟨0, 0, 0⟩, ⟨0, 0, 1⟩, ⟨1, 0, 1⟩, ⟨1, 0, 2⟩] true = 3 := by
  have hvec : curvatureVectors
      (⟨Real.sqrt, Real.arccos, Real.cos, Real.sin, Real.pi, 1 / 1000000⟩ : MathEnv ℝ)
      [⟨0, 0, 0⟩, ⟨0, 0, 1⟩, ⟨1, 0, 1⟩, ⟨1, 0, 2⟩] 0 =
      [⟨0, 0, 1⟩, ⟨1, 0, 0⟩, ⟨0, 0, 1⟩] := by
    simp [curvatureVectors, Vec3.sub, Vec3.normalize, Vec3.magnitude, Vec3.squared_magnitude,
      dot_product, Vec3.scale]
    norm_num
  have hpi : Real.pi ≠ 0 := Real.pi_ne_zero
  constructor
  · unfold specMeanDeviation
    simp only [if_true, hvec]
    simp [dot_product]
    field_simp
    ring
  · unfold CheckCurvature
    simp only [if_true, hvec]
    simp [dot_product, Vec3.normalize, Vec3.squared_magnitude, Vec3.add, Vec3.fill, Vec3.scale]
    norm_num
    have h30 : Real.pi / 2 * 180 / Real.pi / 3 = 30 := by
      field_simp
      ring
    rw [h30]

/-! ### Step size (C26) -/

/-- C26: for every spacing triple, ties included, the value `minSpacing` of `BeforeTracking`
is the minimum of the three spacings, and the step size in millimetres is the configured
step size in voxels times that minimum, or half that minimum when the configured step size is
below `eps`. -/
theorem BeforeTracking_step_size {F Img : Type} [LinearOrderedField F] (M : MathEnv F)
    (E : ImageEnv F Img) (imageSpacing : Vec3 F) (c : FilterSettings F Img) :
    minSpacing imageSpacing = min imageSpacing.x (min imageSpacing.y imageSpacing.z) ∧
    (BeforeTracking M E imageSpacing c).m_StepSize =
      if c.m_StepSizeVox < M.eps then
        1 / 2 * min imageSpacing.x (min imageSpacing.y imageSpacing.z)
      else c.m_StepSizeVox * min imageSpacing.x (min imageSpacing.y imageSpacing.z) := by
  have hmin : minSpacing imageSpacing =
      min imageSpacing.x (min imageSpacing.y imageSpacing.z) := by
    unfold minSpacing
    split_ifs with h1 h2
    · rw [min_eq_left (le_min h1.1.le h1.2.le)]
    · have hyx : imageSpacing.y ≤ imageSpacing.x := by
        by_contra hc
        exact h1 ⟨lt_of_not_le hc, lt_trans (lt_of_not_le hc) h2⟩
      rw [min_eq_left h2.le, min_eq_right hyx]
    · have hzy : imageSpacing.z ≤ imageSpacing.y := le_of_not_lt h2
      have hzx : imageSpacing.z ≤ imageSpacing.x := by
        by_contra hc
        exact h1 ⟨lt_of_lt_of_le (lt_of_not_le hc) hzy, lt_of_not_le hc⟩
      rw [min_eq_right hzy, min_eq_right hzx]
  refine ⟨hmin, ?_⟩
  show (if c.m_StepSizeVox < M.eps then 1 / 2 * minSpacing imageSpacing
    else c.m_StepSizeVox * minSpacing imageSpacing) = _
  rw [hmin]

/-! ### FiberToProbmap, position by position (C30) -/

/-- The entries of `voxelEntries` that equal `v` are the positions of the index sequence
whose index is `v` and differs from its predecessor. -/
theorem count_voxelEntries (v : Index3) (path : List Index3) :
    ∀ last : Index3, (voxelEntries last path).count v =
      ((last :: path).zip path).countP fun pc => decide (pc.2 = v ∧ pc.2 ≠ pc.1) := by
  induction path with
  | nil =>
    intro last
    simp [voxelEntries]
  | cons idx path ih =>
    intro last
    unfold voxelEntries
    rw [List.zip_cons_cons, List.countP_cons]
    by_cases hne : idx ≠ last
    · rw [if_pos hne, List.count_cons, ih idx]
      by_cases hv : idx = v
      · have hvl : v ≠ last := fun hc => hne (hv.trans hc)
        simp [hv, hvl]
      · simp [hv]
    · rw [if_neg hne, ih last]
      have he : idx = last := not_not.mp hne
      simp [he]

/-- C30: for every fiber and every voxel `v`, `FiberToProbmap` adds to `v` the number of
positions `k` of the fiber whose point maps to `v` and whose predecessor (the point `k - 1`,
or index `(0,0,0)` before the first point) maps to another index, provided `v` lies inside
the volume region; a voxel outside the region, and a voxel without such a position, keeps
its value. -/
theorem FiberToProbmap_count {F : Type} [LinearOrderedField F] {σ : Type}
    (h : TrackingDataHandler F σ) (probmap : Index3 → F) (fib : FiberType F) (v : Index3) :
    FiberToProbmap h probmap fib v =
      probmap v + if h.RegionIsInside v then
        ((specVoxelCount v (fib.map h.TransformPhysicalPointToIndex) : ℕ) : F)
      else 0 := by
  unfold FiberToProbmap specVoxelCount
  rw [probmap_foldl h v fib probmap ⟨0, 0, 0⟩, count_voxelEntries]

/-! ### The secondary probe of the avoid-stop branch (C28) -/

/-- In the avoid-stop branch of `probeSample` (degenerate primary sample, avoid-stop enabled,
previous direction longer than `0.5`) the secondary sample is taken at
`pos + secondaryOffset d olddir`, and that offset is the one weighted by the deflection
modifier. -/
theorem probeSample_secondaryOffset {F : Type} [LinearOrderedField F] {σ : Type}
    (f : StreamlineTrackingFilter F) (M : MathEnv F) (h : TrackingDataHandler F σ)
    (pos : Vec3 F) (olddirs : List (Vec3 F)) (oldIndex : Index3) (olddir : Vec3 F)
    (is_stop_voter : Bool) (d : Vec3 F) (st : ProbeState F σ)
    (hdeg : ¬ (sampleNeighborhood f h olddirs oldIndex st.handler (pos.add d)).1.magnitude M
      > M.eps)
    (havoid : (f.m_AvoidStop && decide (olddir.magnitude M > 1 / 2)) = true) :
    probeSample f M h pos olddirs oldIndex olddir is_stop_voter d st =
      if (sampleNeighborhood f h olddirs oldIndex
          (sampleNeighborhood f h olddirs oldIndex st.handler (pos.add d)).2
          (pos.add (secondaryOffset d olddir))).1.magnitude M > M.eps then
        { st with
          direction := (st.direction.add ((secondaryOffset d olddir).scale f.m_DeflectionMod)).add
            (sampleNeighborhood f h olddirs oldIndex
              (sampleNeighborhood f h olddirs oldIndex st.handler (pos.add d)).2
              (pos.add (secondaryOffset d olddir))).1
          stop_votes := if is_stop_voter then st.stop_votes + 1 else st.stop_votes
          handler := (sampleNeighborhood f h olddirs oldIndex
              (sampleNeighborhood f h olddirs oldIndex st.handler (pos.add d)).2
              (pos.add (secondaryOffset d olddir))).2 }
      else
        { st with
          stop_votes := if is_stop_voter then st.stop_votes + 1 else st.stop_votes
          handler := (sampleNeighborhood f h olddirs oldIndex
              (sampleNeighborhood f h olddirs oldIndex st.handler (pos.add d)).2
              (pos.add (secondaryOffset d olddir))).2 } := by
  unfold probeSample secondaryOffset
  simp only
  rw [if_neg hdeg, if_pos havoid]

/-- C28: for a unit previous direction `o` and every probe offset `d`, the secondary offset
of the avoid-stop branch has the squared length and the length of `d` and a non-negative dot
product with `o`; in the reflecting case (`d.o >= 0`) its dot product with `o` is that of `d`
and the secondary offset of the secondary offset is `d` again. -/
theorem secondaryOffset_reflection {F : Type} [LinearOrderedField F] (M : MathEnv F)
    (d o : Vec3 F) (ho : o.squared_magnitude = 1) :
    (secondaryOffset d o).squared_magnitude = d.squared_magnitude ∧
    (secondaryOffset d o).magnitude M = d.magnitude M ∧
    0 ≤ dot_product (secondaryOffset d o) o ∧
    (0 ≤ dot_product d o →
      dot_product (secondaryOffset d o) o = dot_product d o ∧
      secondaryOffset (secondaryOffset d o) o = d) := by
  have ho1 : o.x * o.x + o.y * o.y + o.z * o.z = 1 := ho
  have hsq : (secondaryOffset d o).squared_magnitude = d.squared_magnitude := by
    unfold secondaryOffset
    split_ifs
    · simp only [Vec3.squared_magnitude, dot_product, Vec3.add, Vec3.neg, Vec3.scale]
      linear_combination
        (4 * (d.x * o.x + d.y * o.y + d.z * o.z) * (d.x * o.x + d.y * o.y + d.z * o.z)) * ho1
    · simp only [Vec3.squared_magnitude, dot_product, Vec3.neg]
      ring
  have hrefl : 0 ≤ dot_product d o →
      dot_product (d.neg.add (o.scale (2 * dot_product d o))) o = dot_product d o := by
    intro _
    simp only [dot_product, Vec3.add, Vec3.neg, Vec3.scale]
    linear_combination (2 * (d.x * o.x + d.y * o.y + d.z * o.z)) * ho1
  refine ⟨hsq, ?_, ?_, ?_⟩
  · unfold Vec3.magnitude
    rw [hsq]
  · by_cases hdot : dot_product d o ≥ 0
    · unfold secondaryOffset
      rw [if_pos hdot, hrefl hdot]
      exact hdot
    · unfold secondaryOffset
      rw [if_neg hdot]
      have hlt : dot_product d o < 0 := lt_of_not_le hdot
      have hneg : dot_product d.neg o = - dot_product d o := by
        simp only [dot_product, Vec3.neg]
        ring
      rw [hneg]
      linarith
  · intro hdot
    have hpos : ∀ e : Vec3 F, 0 ≤ dot_product e o →
        secondaryOffset e o = e.neg.add (o.scale (2 * dot_product e o)) := by
      intro e he
      unfold secondaryOffset
      rw [if_pos he]
    have h1 : secondaryOffset d o = d.neg.add (o.scale (2 * dot_product d o)) := hpos d hdot
    have h2 : dot_product (secondaryOffset d o) o = dot_product d o := by
      rw [h1]
      exact hrefl hdot
    refine ⟨h2, ?_⟩
    have h3 : secondaryOffset (secondaryOffset d o) o =
        (secondaryOffset d o).neg.add (o.scale (2 * dot_product (secondaryOffset d o) o)) :=
      hpos _ (by rw [h2]; exact hdot)
    rw [h3, h2, h1]
    cases d
    simp only [Vec3.add, Vec3.neg, Vec3.scale, Vec3.mk.injEq]
    refine ⟨by ring, by ring, by ring⟩

/-- Witness for C28: the offset `(3/5, 0, 4/5)` and the previous direction `(0,0,1)`. -/
theorem secondaryOffset_reflection_witness :
    (⟨0, 0, 1⟩ : Vec3 ℚ).squared_magnitude = 1 ∧
    secondaryOffset (⟨3 / 5, 0, 4 / 5⟩ : Vec3 ℚ) ⟨0, 0, 1⟩ = ⟨-(3 / 5), 0, 4 / 5⟩ ∧
    (secondaryOffset (⟨3 / 5, 0, 4 / 5⟩ : Vec3 ℚ) ⟨0, 0, 1⟩).squared_magnitude =
      (⟨3 / 5, 0, 4 / 5⟩ : Vec3 ℚ).squared_magnitude :=
  ⟨by decide!, by decide!,
   (secondaryOffset_reflection ratMath ⟨3 / 5, 0, 4 / 5⟩ ⟨0, 0, 1⟩ (by decide!)).1⟩

/-! ### The probe shell (C23) -/

/-- C23: in real arithmetic (the numeric environment is the real `sqrt`, `acos`, `cos`, `sin`
and `pi`), for every `N ≥ 2` the shell `CreateDirections N` has exactly `N` vectors, each of
squared length and length `1`, the first is `(0,0,1)` and the last is `(0,0,-1)`, and for
every interior index `0 < i < N - 1` the height `z_i = -1 + 2i/(N-1)` satisfies
`1 - z_i^2 > 0`, so that the divisor `sqrt(N * (1 - z_i^2))` of the longitude recurrence is
not zero. -/
theorem CreateDirections_shell (M : MathEnv ℝ) (N : ℤ)
    (hsqrt : M.sqrt = Real.sqrt) (hacos : M.acos = Real.arccos) (hcos : M.cos = Real.cos)
    (hsin : M.sin = Real.sin) (hpi : M.M_PI = Real.pi) (hN : 2 ≤ N) :
    ((CreateDirections M N).length : ℤ) = N ∧
    (∀ v ∈ CreateDirections M N, v.squared_magnitude = 1 ∧ v.magnitude M = 1) ∧
    (CreateDirections M N).head? = some ⟨0, 0, 1⟩ ∧
    (CreateDirections M N).getLast? = some ⟨0, 0, -1⟩ ∧
    ∀ i : ℕ, 0 < i → (i : ℤ) < N - 1 →
      0 < 1 - shellHeight (F := ℝ) N i * shellHeight N i ∧
      M.sqrt ((N : ℝ) * (1 - shellHeight N i * shellHeight N i)) ≠ 0 := by
  obtain ⟨n, hn⟩ : ∃ n : ℕ, N = (n : ℤ) + 2 := ⟨(N - 2).toNat, by omega⟩
  have htoNat : N.toNat = n + 2 := by omega
  have hdef : CreateDirections M N = (List.range (n + 2)).map fun i =>
      (⟨M.cos (shellTheta M N i) * M.cos (shellPhi M N i),
        M.cos (shellTheta M N i) * M.sin (shellPhi M N i),
        M.sin (shellTheta M N i)⟩ : Vec3 ℝ) := by
    unfold CreateDirections
    rw [if_neg (by omega), htoNat]
  have hN1 : (N : ℝ) - 1 = (n : ℝ) + 1 := by
    rw [hn]
    push_cast
    ring
  have hn1 : (0 : ℝ) < (n : ℝ) + 1 := by positivity
  refine ⟨?_, ?_, ?_, ?_, ?_⟩
  · rw [hdef, List.length_map, List.length_range, hn]
    push_cast
    ring
  · intro v hv
    rw [hdef, List.mem_map] at hv
    obtain ⟨i, -, rfl⟩ := hv
    have hsq : (⟨M.cos (shellTheta M N i) * M.cos (shellPhi M N i),
        M.cos (shellTheta M N i) * M.sin (shellPhi M N i),
        M.sin (shellTheta M N i)⟩ : Vec3 ℝ).squared_magnitude = 1 := by
      simp only [Vec3.squared_magnitude, dot_product, hcos, hsin]
      have h1 := Real.cos_sq_add_sin_sq (shellTheta M N i)
      have h2 := Real.cos_sq_add_sin_sq (shellPhi M N i)
      nlinarith [h1, h2]
    refine ⟨hsq, ?_⟩
    unfold Vec3.magnitude
    rw [hsq, hsqrt, Real.sqrt_one]
  · rw [hdef, List.range_succ_eq_map, List.map_cons, List.head?_cons]
    have hth : shellTheta M N 0 = Real.pi / 2 := by
      unfold shellTheta shellHeight
      rw [hacos, hpi]
      simp only [Nat.cast_zero, mul_zero, zero_div, add_zero, Real.arccos_neg_one]
      ring
    rw [hth, hcos, hsin, Real.cos_pi_div_two, Real.sin_pi_div_two]
    simp
  · rw [hdef, List.range_succ, List.map_append, List.map_singleton,
      List.getLast?_append, List.getLast?_singleton]
    have hth : shellTheta M N (n + 1) = -(Real.pi / 2) := by
      unfold shellTheta shellHeight
      rw [hacos, hpi, hN1]
      have h1 : (-1 : ℝ) + 2 * ((n + 1 : ℕ) : ℝ) / ((n : ℝ) + 1) = 1 := by
        push_cast
        field_simp
        ring
      rw [h1, Real.arccos_one]
      ring
    rw [hth, hcos, hsin, Real.cos_neg, Real.sin_neg, Real.cos_pi_div_two, Real.sin_pi_div_two]
    simp
  · intro i hi0 hi
    have hi1 : (i : ℝ) < (n : ℝ) + 1 := by
      have : (i : ℤ) < (n : ℤ) + 1 := by omega
      exact_mod_cast this
    have hi2 : (0 : ℝ) < (i : ℝ) := by exact_mod_cast hi0
    have hh : shellHeight (F := ℝ) N i = -1 + 2 * (i : ℝ) / ((n : ℝ) + 1) := by
      unfold shellHeight
      rw [hN1]
    have hq1 : 0 < 2 * (i : ℝ) / ((n : ℝ) + 1) := by positivity
    have hq2 : 2 * (i : ℝ) / ((n : ℝ) + 1) < 2 := by
      rw [div_lt_iff₀ hn1]
      linarith
    have hpos : 0 < 1 - shellHeight (F := ℝ) N i * shellHeight N i := by
      rw [hh]
      nlinarith
    refine ⟨hpos, ?_⟩
    rw [hsqrt]
    have hNpos : (0 : ℝ) < (N : ℝ) := by
      have : (0 : ℤ) < N := by omega
      exact_mod_cast this
    exact ne_of_gt (Real.sqrt_pos.mpr (mul_pos hNpos hpos))

/-- Witness for C23: the shell of three vectors over the real numbers. -/
theorem CreateDirections_shell_witness :
    (2 : ℤ) ≤ 3 ∧
    ((CreateDirections
      (⟨Real.sqrt, Real.arccos, Real.cos, Real.sin, Real.pi, 1 / 1000000⟩ : MathEnv ℝ)
      3).length : ℤ) = 3 ∧
    (CreateDirections
      (⟨Real.sqrt, Real.arccos, Real.cos, Real.sin, Real.pi, 1 / 1000000⟩ : MathEnv ℝ)
      3).head? = some ⟨0, 0, 1⟩ :=
  ⟨by decide,
   (CreateDirections_shell ⟨Real.sqrt, Real.arccos, Real.cos, Real.sin, Real.pi, 1 / 1000000⟩
      3 rfl rfl rfl rfl rfl (by decide)).1,
   (CreateDirections_shell ⟨Real.sqrt, Real.arccos, Real.cos, Real.sin, Real.pi, 1 / 1000000⟩
      3 rfl rfl rfl rfl rfl (by decide)).2.2.1⟩

/-! ### The range of CheckCurvature (C29) -/

/-- The window walk stores at most one vector less than the path has points. -/
theorem curvatureVectors_length_le {F : Type} [LinearOrderedField F] (M : MathEnv F) :
    ∀ (pts : FiberType F) (dist : F), (curvatureVectors M pts dist).length ≤ pts.length - 1 := by
  intro pts
  induction pts with
  | nil => intro dist; simp [curvatureVectors]
  | cons p1 rest ih =>
    intro dist
    cases rest with
    | nil => simp [curvatureVectors]
    | cons p2 rest2 =>
      unfold curvatureVectors
      split_ifs
      · have := ih (dist + ((p2.sub p1).magnitude M))
        simp only [List.length_cons] at this ⊢
        omega
      · simp

/-- The count that `CheckCurvature` reports is at most one less than the number of points of
the fiber. -/
theorem CheckCurvature_le {F : Type} [LinearOrderedField F] (M : MathEnv F)
    (fib : FiberType F) (front : Bool) : CheckCurvature M fib front ≤ fib.length - 1 := by
  have hite : ∀ (c : Prop) [Decidable c] (n : ℕ), (if c then 0 else n) ≤ n := by
    intro c _ n
    split_ifs <;> simp
  have h : (curvatureVectors M (if front then fib else fib.reverse) 0).length ≤
      fib.length - 1 := by
    have h0 := curvatureVectors_length_le M (if front then fib else fib.reverse) 0
    cases front
    · simpa using h0
    · simpa using h0
  unfold CheckCurvature
  by_cases hlt : fib.length < 3
  · rw [if_pos hlt]
    exact Nat.zero_le _
  · rw [if_neg hlt]
    simp only
    exact le_trans (hite _ _) h

/-- C29: in exact arithmetic (exact square root, `acos 1 = 0`), `CheckCurvature` returns `0`
for every fiber with fewer than three points, and for every fiber it returns `0` or a count
`c` with `2 ≤ c ≤ number of points - 1`; the trimming loop of `FollowStreamline` therefore
removes exactly `c` points (no pop meets an empty fiber) and, when it runs, leaves at least
one point. -/
theorem CheckCurvature_range {F : Type} [LinearOrderedField F] (M : MathEnv F)
    (hsqrt : ∀ x : F, 0 ≤ x → 0 ≤ M.sqrt x ∧ M.sqrt x * M.sqrt x = x)
    (hacos : M.acos 1 = 0) (fib : FiberType F) (front : Bool) :
    (fib.length < 3 → CheckCurvature M fib front = 0) ∧
    (CheckCurvature M fib front = 0 ∨
      (2 ≤ CheckCurvature M fib front ∧ CheckCurvature M fib front ≤ fib.length - 1)) ∧
    (popPoints front (CheckCurvature M fib front) fib).length + CheckCurvature M fib front =
      fib.length ∧
    (0 < CheckCurvature M fib front →
      1 ≤ (popPoints front (CheckCurvature M fib front) fib).length) := by
  have hle := CheckCurvature_le M fib front
  have hshort : fib.length < 3 → CheckCurvature M fib front = 0 := by
    intro hlt
    unfold CheckCurvature
    rw [if_pos hlt]
  have hsqrt0 : M.sqrt 0 = 0 := by
    have h0 := (hsqrt 0 le_rfl).2
    exact mul_self_eq_zero.mp h0
  have htwo : CheckCurvature M fib front = 0 ∨ 2 ≤ CheckCurvature M fib front := by
    by_cases hlt : fib.length < 3
    · exact Or.inl (hshort hlt)
    · have hlen : 3 ≤ (if front then fib else fib.reverse).length := by
        cases front <;> simp <;> omega
      unfold CheckCurvature
      rw [if_neg hlt]
      simp only
      generalize (if front = true then fib else fib.reverse) = pts at hlen
      have e1 : ∀ (a b : Vec3 F) (l : List (Vec3 F)) (d : F),
          curvatureVectors M (a :: b :: l) d =
            if d < 5 then
              (b.sub a).normalize M :: curvatureVectors M (b :: l) (d + (b.sub a).magnitude M)
            else [] := by
        intro a b l d
        rw [curvatureVectors]
      have hite : ∀ (c : Prop) [Decidable c] (n : ℕ), 2 ≤ n →
          (if c then 0 else n) = 0 ∨ 2 ≤ (if c then 0 else n) := by
        intro c _ n hn
        split_ifs
        · exact Or.inl rfl
        · exact Or.inr hn
      match pts, hlen with
      | p1 :: p2 :: p3 :: rest, _ =>
        by_cases hwin : (0 : F) + (p2.sub p1).magnitude M < 5
        · have hv : curvatureVectors M (p1 :: p2 :: p3 :: rest) 0 =
              (p2.sub p1).normalize M :: (p3.sub p2).normalize M ::
                curvatureVectors M (p3 :: rest)
                  (0 + (p2.sub p1).magnitude M + (p3.sub p2).magnitude M) := by
            rw [e1, if_pos (by norm_num), e1, if_pos hwin]
          rw [hv]
          exact hite _ _ (by simp)
        · left
          have hvec : curvatureVectors M (p1 :: p2 :: p3 :: rest) 0 =
              [(p2.sub p1).normalize M] := by
            rw [e1, if_pos (by norm_num), e1, if_neg hwin]
          have hne : (p2.sub p1).squared_magnitude ≠ 0 := by
            intro h0
            apply hwin
            unfold Vec3.magnitude
            rw [h0, hsqrt0]
            norm_num
          have hunit := squared_magnitude_normalize M hsqrt _ hne
          have hadd : (Vec3.fill (0 : F)).add ((p2.sub p1).normalize M) =
              (p2.sub p1).normalize M := by
            unfold Vec3.add Vec3.fill
            simp
          rw [hvec]
          simp only [List.headD_cons, List.map_cons, List.map_nil, List.foldl_cons,
            List.foldl_nil, List.length_singleton]
          rw [hadd, normalize_of_unit M hsqrt _ hunit]
          have hdot : dot_product ((p2.sub p1).normalize M) ((p2.sub p1).normalize M) = 1 :=
            hunit
          rw [hdot, if_neg (lt_irrefl (1 : F)), if_neg (show ¬ ((1 : F) < -1) by norm_num), hacos]
          simp
  have hpop : (popPoints front (CheckCurvature M fib front) fib).length +
      CheckCurvature M fib front = fib.length := by
    cases front
    · rw [(popPoints_eq _ fib).2, List.length_take]
      omega
    · rw [(popPoints_eq _ fib).1, List.length_drop]
      omega
  refine ⟨hshort, ?_, hpop, ?_⟩
  · rcases htwo with h0 | h2
    · exact Or.inl h0
    · exact Or.inr ⟨h2, hle⟩
  · intro hpos
    omega

/-- Witness for C29: real arithmetic and a fiber of four points with a right-angle turn,
for which `CheckCurvature` reports three points. -/
theorem CheckCurvature_range_witness :
    (∀ x : ℝ, 0 ≤ x → 0 ≤ Real.sqrt x ∧ Real.sqrt x * Real.sqrt x = x) ∧
    Real.arccos 1 = 0 ∧
    (CheckCurvature
        (⟨Real.sqrt, Real.arccos, Real.cos, Real.sin, Real.pi, 1 / 1000000⟩ : MathEnv ℝ)
        [⟨0, 0, 0⟩, ⟨0, 0, 1⟩, ⟨1, 0, 1⟩, ⟨1, 0, 2⟩] true = 0 ∨
      (2 ≤ CheckCurvature
        (⟨Real.sqrt, Real.arccos, Real.cos, Real.sin, Real.pi, 1 / 1000000⟩ : MathEnv ℝ)
        [⟨0, 0, 0⟩, ⟨0, 0, 1⟩, ⟨1, 0, 1⟩, ⟨1, 0, 2⟩] true ∧
       CheckCurvature
        (⟨Real.sqrt, Real.arccos, Real.cos, Real.sin, Real.pi, 1 / 1000000⟩ : MathEnv ℝ)
        [⟨0, 0, 0⟩, ⟨0, 0, 1⟩, ⟨1, 0, 1⟩, ⟨1, 0, 2⟩] true ≤
        ([⟨0, 0, 0⟩, ⟨0, 0, 1⟩, ⟨1, 0, 1⟩, ⟨1, 0, 2⟩] : FiberType ℝ).length - 1)) :=
  ⟨fun x hx => ⟨Real.sqrt_nonneg x, Real.mul_self_sqrt hx⟩, Real.arccos_one,
   (CheckCurvature_range
      (⟨Real.sqrt, Real.arccos, Real.cos, Real.sin, Real.pi, 1 / 1000000⟩ : MathEnv ℝ)
      (fun x hx => ⟨Real.sqrt_nonneg x, Real.mul_self_sqrt hx⟩) Real.arccos_one
      [⟨0, 0, 0⟩, ⟨0, 0, 1⟩, ⟨1, 0, 1⟩, ⟨1, 0, 2⟩] true).2.1⟩

/-! ### One iteration of the step loop -/

/-- One iteration of the step loop of `FollowStreamline`, written with the named fragments:
abort, curvature trimming, the length test, the end on a degenerate new direction, or the
next iteration. -/
theorem followLoop_succ {F : Type} [LinearOrderedField F] {σ : Type}
    (f : StreamlineTrackingFilter F) (M : MathEnv F) (h : TrackingDataHandler F σ)
    (front : Bool) (n : ℕ) (pos dir : Vec3 F) (fib : FiberType F) (tractLength : F)
    (last_dirs : List (Vec3 F)) (s : σ) :
    followLoop f M h front (n + 1) pos dir fib tractLength last_dirs s =
      if h.m_AbortTracking s then (tractLength, fib, s)
      else if (if f.m_AposterioriCurvCheck then
          CheckCurvature M (pushPoint front (f.CalculateNewPosition pos dir) fib) front
          else 0) > 0 then
        (tractLength + f.m_StepSize - f.m_StepSize *
            ((if f.m_AposterioriCurvCheck then
              CheckCurvature M (pushPoint front (f.CalculateNewPosition pos dir) fib) front
              else 0 : ℕ) : F),
          popPoints front (if f.m_AposterioriCurvCheck then
              CheckCurvature M (pushPoint front (f.CalculateNewPosition pos dir) fib) front
              else 0) (pushPoint front (f.CalculateNewPosition pos dir) fib), s)
      else if tractLength + f.m_StepSize > f.m_MaxTractLength then
        (tractLength + f.m_StepSize, pushPoint front (f.CalculateNewPosition pos dir) fib, s)
      else if (f.GetNewDirection M h s (f.CalculateNewPosition pos dir)
          (pushDirection f M last_dirs dir) (h.WorldToIndex pos)).1.magnitude M < 1 / 10000 then
        (tractLength + f.m_StepSize, pushPoint front (f.CalculateNewPosition pos dir) fib,
          (f.GetNewDirection M h s (f.CalculateNewPosition pos dir)
            (pushDirection f M last_dirs dir) (h.WorldToIndex pos)).2)
      else
        followLoop f M h front n (f.CalculateNewPosition pos dir)
          (f.GetNewDirection M h s (f.CalculateNewPosition pos dir)
            (pushDirection f M last_dirs dir) (h.WorldToIndex pos)).1
          (pushPoint front (f.CalculateNewPosition pos dir) fib)
          (tractLength + f.m_StepSize) (pushDirection f M last_dirs dir)
          (f.GetNewDirection M h s (f.CalculateNewPosition pos dir)
            (pushDirection f M last_dirs dir) (h.WorldToIndex pos)).2 := by
  conv_lhs => unfold followLoop
  rfl

/-- The number of points that `popPoints` leaves. -/
theorem popPoints_length {F : Type} (front : Bool) (n : ℕ) (fib : FiberType F) :
    (popPoints front n fib).length = fib.length - n := by
  cases front
  · rw [(popPoints_eq n fib).2, List.length_take]
    omega
  · rw [(popPoints_eq n fib).1, List.length_drop]

/-- The number of points after `pushPoint`. -/
theorem pushPoint_length {F : Type} (front : Bool) (pos : Vec3 F) (fib : FiberType F) :
    (pushPoint front pos fib).length = fib.length + 1 := by
  cases front <;> simp [pushPoint]

/-! ### Tract length and number of points (C27) -/

/-- A pass of the step loop keeps the difference between the tract length and the step size
times the number of points. -/
theorem followLoop_length_points {F : Type} [LinearOrderedField F] {σ : Type}
    (f : StreamlineTrackingFilter F) (M : MathEnv F) (h : TrackingDataHandler F σ)
    (front : Bool) (steps : ℕ) :
    ∀ (pos dir : Vec3 F) (fib : FiberType F) (tractLength : F) (last_dirs : List (Vec3 F))
      (s : σ),
      (followLoop f M h front steps pos dir fib tractLength last_dirs s).1 -
          f.m_StepSize *
            ((followLoop f M h front steps pos dir fib tractLength last_dirs s).2.1.length : F) =
        tractLength - f.m_StepSize * (fib.length : F) := by
  induction steps with
  | zero =>
    intro pos dir fib tractLength last_dirs s
    rfl
  | succ n ih =>
    intro pos dir fib tractLength last_dirs s
    rw [followLoop_succ]
    by_cases hab : h.m_AbortTracking s = true
    · rw [if_pos hab]
    · rw [if_neg hab]
      have hpush := pushPoint_length front (f.CalculateNewPosition pos dir) fib
      by_cases hcurv : (if f.m_AposterioriCurvCheck then
          CheckCurvature M (pushPoint front (f.CalculateNewPosition pos dir) fib) front
          else 0) > 0
      · rw [if_pos hcurv]
        have hc : (if f.m_AposterioriCurvCheck then
            CheckCurvature M (pushPoint front (f.CalculateNewPosition pos dir) fib) front
            else 0) ≤ fib.length := by
          split_ifs
          · have := CheckCurvature_le M
              (pushPoint front (f.CalculateNewPosition pos dir) fib) front
            rw [hpush] at this
            simpa using this
          · exact Nat.zero_le _
        generalize (if f.m_AposterioriCurvCheck then
            CheckCurvature M (pushPoint front (f.CalculateNewPosition pos dir) fib) front
            else 0) = c at hc hcurv
        show tractLength + f.m_StepSize - f.m_StepSize * (c : F) -
          f.m_StepSize * ((popPoints front c
            (pushPoint front (f.CalculateNewPosition pos dir) fib)).length : F) = _
        rw [popPoints_length, hpush]
        have hcast : ((fib.length + 1 - c : ℕ) : F) = (fib.length : F) + 1 - (c : F) := by
          rw [Nat.cast_sub (by omega)]
          push_cast
          ring
        rw [hcast]
        ring
      · rw [if_neg hcurv]
        by_cases hmax : tractLength + f.m_StepSize > f.m_MaxTractLength
        · rw [if_pos hmax]
          show tractLength + f.m_StepSize - f.m_StepSize *
            ((pushPoint front (f.CalculateNewPosition pos dir) fib).length : F) = _
          rw [hpush]
          push_cast
          ring
        · rw [if_neg hmax]
          by_cases hmag : (f.GetNewDirection M h s (f.CalculateNewPosition pos dir)
              (pushDirection f M last_dirs dir) (h.WorldToIndex pos)).1.magnitude M < 1 / 10000
          · rw [if_pos hmag]
            show tractLength + f.m_StepSize - f.m_StepSize *
              ((pushPoint front (f.CalculateNewPosition pos dir) fib).length : F) = _
            rw [hpush]
            push_cast
            ring
          · rw [if_neg hmag, ih, hpush]
            push_cast
            ring

/-- C27: for every seed that is traced (start direction of magnitude above `0.0001`), after
the pass along the start direction, the insertion of the seed and the pass along the opposite
direction, the tract length equals the step size times the number of fiber points minus one,
in exact arithmetic; curvature trimming and an abort are included. -/
theorem traceSeed_length_points {F : Type} [LinearOrderedField F] {σ : Type}
    (f : StreamlineTrackingFilter F) (M : MathEnv F) (h : TrackingDataHandler F σ) (s : σ)
    (worldPos : Vec3 F) (fib : FiberType F) (tractLength : F)
    (htrace : (f.traceSeed M h s worldPos).1 = some (fib, tractLength)) :
    tractLength = f.m_StepSize * ((fib.length : F) - 1) := by
  unfold StreamlineTrackingFilter.traceSeed at htrace
  simp only at htrace
  generalize (if f.m_MaskInterpolator worldPos = true then
      h.ProposeDirection s worldPos (List.replicate f.m_NumPreviousDirections (Vec3.fill 0))
        ⟨0, 0, 0⟩ else (Vec3.fill 0, s)) = r at htrace
  by_cases hdir : r.1.magnitude M > 1 / 10000
  · rw [if_pos hdir] at htrace
    simp only [Option.some.injEq, Prod.mk.injEq] at htrace
    unfold StreamlineTrackingFilter.FollowStreamline at htrace
    have hf := followLoop_length_points f M h false (Int.tdiv f.m_MaxLength 2).toNat worldPos r.1
      [] 0 (List.replicate ((f.m_NumPreviousDirections + 4294967295) % 4294967296)
        (Vec3.fill 0)) r.2
    generalize followLoop f M h false (Int.tdiv f.m_MaxLength 2).toNat worldPos r.1
      [] 0 (List.replicate ((f.m_NumPreviousDirections + 4294967295) % 4294967296)
        (Vec3.fill 0)) r.2 = fwd at hf htrace
    have hb := followLoop_length_points f M h true (Int.tdiv f.m_MaxLength 2).toNat worldPos
      r.1.neg (worldPos :: fwd.2.1) fwd.1
      (List.replicate ((f.m_NumPreviousDirections + 4294967295) % 4294967296)
        (Vec3.fill 0)) fwd.2.2
    rw [htrace.1, htrace.2] at hb
    simp only [List.length_cons, List.length_nil] at hb hf
    push_cast at hb hf
    linear_combination hb + hf
  · rw [if_neg hdir] at htrace
    exact absurd htrace (by simp)

/-- Witness for C27: the seed at the origin under `reversingHandler` with the curvature check
enabled, whose second pass is trimmed by five points: six points and tract length `5`. -/
theorem traceSeed_length_points_witness :
    (curvFilter.traceSeed ratMath (reversingHandler ℚ) 0 ⟨0, 0, 0⟩).1 =
      some ([⟨0, 0, 3⟩, ⟨0, 0, 4⟩, ⟨0, 0, 5⟩, ⟨0, 0, 6⟩, ⟨0, 0, 7⟩, ⟨0, 0, 8⟩], 5) ∧
    (5 : ℚ) = curvFilter.m_StepSize *
      ((([⟨0, 0, 3⟩, ⟨0, 0, 4⟩, ⟨0, 0, 5⟩, ⟨0, 0, 6⟩, ⟨0, 0, 7⟩, ⟨0, 0, 8⟩] :
        FiberType ℚ).length : ℚ) - 1) :=
  ⟨by decide!,
   traceSeed_length_points curvFilter ratMath (reversingHandler ℚ) 0 ⟨0, 0, 0⟩
    [⟨0, 0, 3⟩, ⟨0, 0, 4⟩, ⟨0, 0, 5⟩, ⟨0, 0, 6⟩, ⟨0, 0, 7⟩, ⟨0, 0, 8⟩] 5 (by decide!)⟩

/-! ### The record of the calls of GetNewDirection -/

/-- One iteration of the recording step loop, written with the named fragments. -/
theorem followLoopLog_succ {F : Type} [LinearOrderedField F] {σ : Type}
    (f : StreamlineTrackingFilter F) (M : MathEnv F) (h : TrackingDataHandler F σ)
    (front : Bool) (n : ℕ) (pos dir : Vec3 F) (fib : FiberType F) (tractLength : F)
    (last_dirs : List (Vec3 F)) (s : σ) :
    followLoopLog f M h front (n + 1) pos dir fib tractLength last_dirs s =
      if h.m_AbortTracking s then ((tractLength, fib, s), [])
      else if (if f.m_AposterioriCurvCheck then
          CheckCurvature M (pushPoint front (f.CalculateNewPosition pos dir) fib) front
          else 0) > 0 then
        ((tractLength + f.m_StepSize - f.m_StepSize *
            ((if f.m_AposterioriCurvCheck then
              CheckCurvature M (pushPoint front (f.CalculateNewPosition pos dir) fib) front
              else 0 : ℕ) : F),
          popPoints front (if f.m_AposterioriCurvCheck then
              CheckCurvature M (pushPoint front (f.CalculateNewPosition pos dir) fib) front
              else 0) (pushPoint front (f.CalculateNewPosition pos dir) fib), s), [])
      else if tractLength + f.m_StepSize > f.m_MaxTractLength then
        ((tractLength + f.m_StepSize, pushPoint front (f.CalculateNewPosition pos dir) fib, s),
          [])
      else if (f.GetNewDirection M h s (f.CalculateNewPosition pos dir)
          (pushDirection f M last_dirs dir) (h.WorldToIndex pos)).1.magnitude M < 1 / 10000 then
        ((tractLength + f.m_StepSize, pushPoint front (f.CalculateNewPosition pos dir) fib,
          (f.GetNewDirection M h s (f.CalculateNewPosition pos dir)
            (pushDirection f M last_dirs dir) (h.WorldToIndex pos)).2),
          [(dir, pushDirection f M last_dirs dir)])
      else
        ((followLoopLog f M h front n (f.CalculateNewPosition pos dir)
          (f.GetNewDirection M h s (f.CalculateNewPosition pos dir)
            (pushDirection f M last_dirs dir) (h.WorldToIndex pos)).1
          (pushPoint front (f.CalculateNewPosition pos dir) fib)
          (tractLength + f.m_StepSize) (pushDirection f M last_dirs dir)
          (f.GetNewDirection M h s (f.CalculateNewPosition pos dir)
            (pushDirection f M last_dirs dir) (h.WorldToIndex pos)).2).1,
         (dir, pushDirection f M last_dirs dir) ::
          (followLoopLog f M h front n (f.CalculateNewPosition pos dir)
          (f.GetNewDirection M h s (f.CalculateNewPosition pos dir)
            (pushDirection f M last_dirs dir) (h.WorldToIndex pos)).1
          (pushPoint front (f.CalculateNewPosition pos dir) fib)
          (tractLength + f.m_StepSize) (pushDirection f M last_dirs dir)
          (f.GetNewDirection M h s (f.CalculateNewPosition pos dir)
            (pushDirection f M last_dirs dir) (h.WorldToIndex pos)).2).2) := by
  conv_lhs => unfold followLoopLog
  rfl

/-- The recording step loop returns the result of the step loop. -/
theorem followLoopLog_fst {F : Type} [LinearOrderedField F] {σ : Type}
    (f : StreamlineTrackingFilter F) (M : MathEnv F) (h : TrackingDataHandler F σ)
    (front : Bool) (steps : ℕ) :
    ∀ (pos dir : Vec3 F) (fib : FiberType F) (tractLength : F) (last_dirs : List (Vec3 F))
      (s : σ),
      (followLoopLog f M h front steps pos dir fib tractLength last_dirs s).1 =
        followLoop f M h front steps pos dir fib tractLength last_dirs s := by
  induction steps with
  | zero =>
    intro pos dir fib tractLength last_dirs s
    rfl
  | succ n ih =>
    intro pos dir fib tractLength last_dirs s
    rw [followLoopLog_succ, followLoop_succ]
    generalize (if f.m_AposterioriCurvCheck then
      CheckCurvature M (pushPoint front (f.CalculateNewPosition pos dir) fib) front else 0) = c
    split_ifs
    · rfl
    · rfl
    · rfl
    · rfl
    · exact ih _ _ _ _ _ _

/-! ### The number of steps of a pass (C25) -/

/-- The loop bound `m_MaxLength/2` of `FollowStreamline` (integer division truncating towards
zero), as a number of iterations, is the floor of `m_MaxLength / 2`, or zero when that is
negative. -/
theorem maxSteps_eq_floor (m : ℤ) : (Int.tdiv m 2).toNat = (m / 2).toNat := by
  rcases le_or_lt 0 m with h | h
  · rw [Int.tdiv_eq_ediv h (by norm_num)]
  · have h1 : Int.tdiv m 2 ≤ 0 := by
      have h3 : Int.tdiv (-m) 2 = -(Int.tdiv m 2) := Int.neg_tdiv m 2
      have h4 := Int.tdiv_nonneg (a := -m) (b := 2) (by omega) (by norm_num)
      omega
    have h2 : m / 2 < 0 := by omega
    rw [Int.toNat_eq_zero.mpr h1, Int.toNat_eq_zero.mpr (le_of_lt h2)]

/-- A pass of the step loop with `steps` iterations adds at most `steps` points. -/
theorem followLoop_points_le {F : Type} [LinearOrderedField F] {σ : Type}
    (f : StreamlineTrackingFilter F) (M : MathEnv F) (h : TrackingDataHandler F σ)
    (front : Bool) (steps : ℕ) :
    ∀ (pos dir : Vec3 F) (fib : FiberType F) (tractLength : F) (last_dirs : List (Vec3 F))
      (s : σ),
      (followLoop f M h front steps pos dir fib tractLength last_dirs s).2.1.length ≤
        fib.length + steps := by
  induction steps with
  | zero =>
    intro pos dir fib tractLength last_dirs s
    exact le_refl _
  | succ n ih =>
    intro pos dir fib tractLength last_dirs s
    rw [followLoop_succ]
    have hpush := pushPoint_length front (f.CalculateNewPosition pos dir) fib
    generalize (if f.m_AposterioriCurvCheck then
      CheckCurvature M (pushPoint front (f.CalculateNewPosition pos dir) fib) front else 0) = c
    split_ifs
    · show fib.length ≤ _
      omega
    · show (popPoints front _ _).length ≤ _
      rw [popPoints_length, hpush]
      omega
    · show (pushPoint front _ fib).length ≤ _
      omega
    · show (pushPoint front _ fib).length ≤ _
      omega
    · refine le_trans (ih _ _ _ _ _ _) ?_
      omega

/-- A pass of the step loop with `steps` iterations calls `GetNewDirection` at most `steps`
times. -/
theorem followLoopLog_calls_le {F : Type} [LinearOrderedField F] {σ : Type}
    (f : StreamlineTrackingFilter F) (M : MathEnv F) (h : TrackingDataHandler F σ)
    (front : Bool) (steps : ℕ) :
    ∀ (pos dir : Vec3 F) (fib : FiberType F) (tractLength : F) (last_dirs : List (Vec3 F))
      (s : σ),
      (followLoopLog f M h front steps pos dir fib tractLength last_dirs s).2.length ≤
        steps := by
  induction steps with
  | zero =>
    intro pos dir fib tractLength last_dirs s
    exact le_refl _
  | succ n ih =>
    intro pos dir fib tractLength last_dirs s
    rw [followLoopLog_succ]
    generalize (if f.m_AposterioriCurvCheck then
      CheckCurvature M (pushPoint front (f.CalculateNewPosition pos dir) fib) front else 0) = c
    split_ifs
    · exact Nat.zero_le _
    · exact Nat.zero_le _
    · exact Nat.zero_le _
    · show 1 ≤ n + 1
      omega
    · show (followLoopLog f M h front n _ _ _ _ _ _).2.length + 1 ≤ n + 1
      have := ih (f.CalculateNewPosition pos dir)
        (f.GetNewDirection M h s (f.CalculateNewPosition pos dir)
          (pushDirection f M last_dirs dir) (h.WorldToIndex pos)).1
        (pushPoint front (f.CalculateNewPosition pos dir) fib)
        (tractLength + f.m_StepSize) (pushDirection f M last_dirs dir)
        (f.GetNewDirection M h s (f.CalculateNewPosition pos dir)
          (pushDirection f M last_dirs dir) (h.WorldToIndex pos)).2
      omega

/-- C25: the step loop of `FollowStreamline` is a total function of its `m_MaxLength/2`
iterations (demo mode and pause are not part of the embedding): every pass adds at most
`floor(m_MaxLength / 2)` points to the fiber and calls `GetNewDirection` at most
`floor(m_MaxLength / 2)` times (no step at all when `m_MaxLength` is negative), so every
traced fiber has at most `2 * floor(m_MaxLength / 2) + 1` points, the floor being
counted as zero when it is negative. -/
theorem traceSeed_points_le {F : Type} [LinearOrderedField F] {σ : Type}
    (f : StreamlineTrackingFilter F) (M : MathEnv F) (h : TrackingDataHandler F σ) (s : σ)
    (worldPos : Vec3 F) (fib : FiberType F) (tractLength : F)
    (htrace : (f.traceSeed M h s worldPos).1 = some (fib, tractLength)) :
    (∀ (s1 : σ) (pos dir : Vec3 F) (fib1 : FiberType F) (tl : F) (front : Bool),
      (f.FollowStreamline M h s1 pos dir fib1 tl front).2.1.length ≤
        fib1.length + (f.m_MaxLength / 2).toNat ∧
      (followLoopLog f M h front (Int.tdiv f.m_MaxLength 2).toNat pos dir fib1 tl
        (List.replicate ((f.m_NumPreviousDirections + 4294967295) % 4294967296)
          (Vec3.fill 0)) s1).1 = f.FollowStreamline M h s1 pos dir fib1 tl front ∧
      (followLoopLog f M h front (Int.tdiv f.m_MaxLength 2).toNat pos dir fib1 tl
        (List.replicate ((f.m_NumPreviousDirections + 4294967295) % 4294967296)
          (Vec3.fill 0)) s1).2.length ≤ (f.m_MaxLength / 2).toNat) ∧
    fib.length ≤ 2 * (f.m_MaxLength / 2).toNat + 1 ∧
    (fib.length : ℤ) ≤ 2 * max 0 (f.m_MaxLength / 2) + 1 := by
  have hpass : ∀ (s1 : σ) (pos dir : Vec3 F) (fib1 : FiberType F) (tl : F) (front : Bool),
      (f.FollowStreamline M h s1 pos dir fib1 tl front).2.1.length ≤
        fib1.length + (f.m_MaxLength / 2).toNat := by
    intro s1 pos dir fib1 tl front
    unfold StreamlineTrackingFilter.FollowStreamline
    rw [← maxSteps_eq_floor]
    exact followLoop_points_le f M h front _ _ _ _ _ _ _
  have hfib : fib.length ≤ 2 * (f.m_MaxLength / 2).toNat + 1 := by
    unfold StreamlineTrackingFilter.traceSeed at htrace
    simp only at htrace
    generalize (if f.m_MaskInterpolator worldPos = true then
        h.ProposeDirection s worldPos (List.replicate f.m_NumPreviousDirections (Vec3.fill 0))
          ⟨0, 0, 0⟩ else (Vec3.fill 0, s)) = r at htrace
    by_cases hdir : r.1.magnitude M > 1 / 10000
    · rw [if_pos hdir] at htrace
      simp only [Option.some.injEq, Prod.mk.injEq] at htrace
      have hf := hpass r.2 worldPos r.1 [] 0 false
      generalize f.FollowStreamline M h r.2 worldPos r.1 [] 0 false = fwd at hf htrace
      have hb := hpass fwd.2.2 worldPos r.1.neg (worldPos :: fwd.2.1) fwd.1 true
      rw [htrace.1] at hb
      simp only [List.length_cons, List.length_nil] at hb hf
      omega
    · rw [if_neg hdir] at htrace
      exact absurd htrace (by simp)
  refine ⟨?_, hfib, ?_⟩
  · intro s1 pos dir fib1 tl front
    refine ⟨hpass s1 pos dir fib1 tl front, ?_, ?_⟩
    · unfold StreamlineTrackingFilter.FollowStreamline
      exact followLoopLog_fst f M h front _ _ _ _ _ _ _
    · rw [← maxSteps_eq_floor]
      exact followLoopLog_calls_le f M h front _ _ _ _ _ _ _
  · have hmax : ((f.m_MaxLength / 2).toNat : ℤ) = max 0 (f.m_MaxLength / 2) := by
      rw [Int.toNat_eq_max, max_comm]
    have : (fib.length : ℤ) ≤ 2 * ((f.m_MaxLength / 2).toNat : ℤ) + 1 := by
      exact_mod_cast hfib
    rw [hmax] at this
    exact this

/-- Witness for C25: the seed at the origin in `demoFilter` (`m_MaxLength = 10`): the fiber
has six points, at most `2 * 5 + 1`. -/
theorem traceSeed_points_le_witness :
    (demoFilter.traceSeed ratMath (demoHandler ℚ) 0 ⟨0, 0, 0⟩).1 =
      some ([⟨0, 0, -1⟩, ⟨0, 0, 0⟩, ⟨0, 0, 1⟩, ⟨0, 0, 2⟩, ⟨0, 0, 3⟩, ⟨0, 0, 4⟩], 5) ∧
    demoFilter.m_MaxLength = 10 ∧
    ([⟨0, 0, -1⟩, ⟨0, 0, 0⟩, ⟨0, 0, 1⟩, ⟨0, 0, 2⟩, ⟨0, 0, 3⟩, ⟨0, 0, 4⟩] :
      FiberType ℚ).length ≤ 2 * (demoFilter.m_MaxLength / 2).toNat + 1 :=
  ⟨by decide!, rfl,
   (traceSeed_points_le demoFilter ratMath (demoHandler ℚ) 0 ⟨0, 0, 0⟩
    [⟨0, 0, -1⟩, ⟨0, 0, 0⟩, ⟨0, 0, 1⟩, ⟨0, 0, 2⟩, ⟨0, 0, 3⟩, ⟨0, 0, 4⟩] 5 (by decide!)).2.1⟩

/-! ### The direction history (C24) -/

/-- The history after a step: for a history of `n - 1` or `n` entries (`n ≥ 1` the configured
number of previous directions) the new history has `n` entries and ends with the normalised
direction of the step; from `n` entries the oldest is dropped. -/
theorem pushDirection_spec {F : Type} [LinearOrderedField F]
    (f : StreamlineTrackingFilter F) (M : MathEnv F) (last_dirs : List (Vec3 F)) (dir : Vec3 F)
    (hn1 : 1 ≤ f.m_NumPreviousDirections)
    (hlen : last_dirs.length = f.m_NumPreviousDirections ∨
      last_dirs.length + 1 = f.m_NumPreviousDirections) :
    (pushDirection f M last_dirs dir).length = f.m_NumPreviousDirections ∧
    (pushDirection f M last_dirs dir).getLast? = some (dir.normalize M) ∧
    (last_dirs.length = f.m_NumPreviousDirections →
      pushDirection f M last_dirs dir = last_dirs.tail ++ [dir.normalize M]) ∧
    (last_dirs.length + 1 = f.m_NumPreviousDirections →
      pushDirection f M last_dirs dir = last_dirs ++ [dir.normalize M]) := by
  unfold pushDirection
  rcases hlen with hfull | hshort
  · have hne : last_dirs ≠ [] := by
      intro h0
      rw [h0] at hfull
      simp at hfull
      omega
    have htail : (last_dirs ++ [dir.normalize M]).tail = last_dirs.tail ++ [dir.normalize M] :=
      List.tail_append_of_ne_nil hne
    rw [if_pos (by simp; omega), htail]
    refine ⟨?_, ?_, fun _ => rfl, fun hc => ?_⟩
    · simp
      omega
    · simp
    · omega
  · rw [if_neg (by simp; omega)]
    refine ⟨?_, ?_, fun hc => ?_, fun _ => rfl⟩
    · simp
      omega
    · simp
    · omega

/-- The calls of `GetNewDirection` of a pass that starts with a non-zero direction and a
history of `n - 1` or `n` entries: every call gets a history of `n` entries that ends with the
unit-normalised direction of the step just taken, the first call gets the history after the
first step, and from one call to the next the oldest entry is dropped and the new direction
appended. -/
theorem followLoopLog_history {F : Type} [LinearOrderedField F] {σ : Type}
    (f : StreamlineTrackingFilter F) (M : MathEnv F) (h : TrackingDataHandler F σ)
    (hsqrt : ∀ x : F, 0 ≤ x → 0 ≤ M.sqrt x ∧ M.sqrt x * M.sqrt x = x)
    (hn1 : 1 ≤ f.m_NumPreviousDirections) (front : Bool) (steps : ℕ) :
    ∀ (pos dir : Vec3 F) (fib : FiberType F) (tractLength : F) (last_dirs : List (Vec3 F))
      (s : σ), dir.squared_magnitude ≠ 0 →
      (last_dirs.length = f.m_NumPreviousDirections ∨
        last_dirs.length + 1 = f.m_NumPreviousDirections) →
      (∀ e ∈ (followLoopLog f M h front steps pos dir fib tractLength last_dirs s).2,
        e.2.length = f.m_NumPreviousDirections ∧ e.2.getLast? = some (e.1.normalize M) ∧
        (e.1.normalize M).magnitude M = 1) ∧
      ((followLoopLog f M h front steps pos dir fib tractLength last_dirs s).2 = [] ∨
        (followLoopLog f M h front steps pos dir fib tractLength last_dirs s).2.head? =
          some (dir, pushDirection f M last_dirs dir)) ∧
      (followLoopLog f M h front steps pos dir fib tractLength last_dirs s).2.Chain'
        (fun e e1 => e1.2 = e.2.tail ++ [e1.1.normalize M]) := by
  have hsqrt0 : M.sqrt 0 = 0 := mul_self_eq_zero.mp (hsqrt 0 le_rfl).2
  induction steps with
  | zero =>
    intro pos dir fib tractLength last_dirs s _ _
    refine ⟨?_, Or.inl rfl, ?_⟩
    · intro e he
      simp [followLoopLog] at he
    · simp [followLoopLog]
  | succ n ih =>
    intro pos dir fib tractLength last_dirs s hdir hlen
    have hpush := pushDirection_spec f M last_dirs dir hn1 hlen
    have hentry : (pushDirection f M last_dirs dir).length = f.m_NumPreviousDirections ∧
        (pushDirection f M last_dirs dir).getLast? = some (dir.normalize M) ∧
        (dir.normalize M).magnitude M = 1 :=
      ⟨hpush.1, hpush.2.1, magnitude_normalize M hsqrt dir hdir⟩
    rw [followLoopLog_succ]
    generalize (if f.m_AposterioriCurvCheck then
      CheckCurvature M (pushPoint front (f.CalculateNewPosition pos dir) fib) front else 0) = c
    by_cases hab : h.m_AbortTracking s = true
    · rw [if_pos hab]
      exact ⟨fun e he => by simp at he, Or.inl rfl, List.chain'_nil⟩
    · rw [if_neg hab]
      by_cases hc : c > 0
      · rw [if_pos hc]
        exact ⟨fun e he => by simp at he, Or.inl rfl, List.chain'_nil⟩
      · rw [if_neg hc]
        by_cases hmax : tractLength + f.m_StepSize > f.m_MaxTractLength
        · rw [if_pos hmax]
          exact ⟨fun e he => by simp at he, Or.inl rfl, List.chain'_nil⟩
        · rw [if_neg hmax]
          by_cases hmag : (f.GetNewDirection M h s (f.CalculateNewPosition pos dir)
              (pushDirection f M last_dirs dir) (h.WorldToIndex pos)).1.magnitude M < 1 / 10000
          · rw [if_pos hmag]
            refine ⟨?_, Or.inr rfl, List.chain'_singleton _⟩
            intro e he
            rw [List.mem_singleton] at he
            rw [he]
            exact hentry
          · rw [if_neg hmag]
            have hnext : (f.GetNewDirection M h s (f.CalculateNewPosition pos dir)
                (pushDirection f M last_dirs dir) (h.WorldToIndex pos)).1.squared_magnitude
                ≠ 0 := by
              intro h0
              apply hmag
              unfold Vec3.magnitude
              rw [h0, hsqrt0]
              norm_num
            obtain ⟨hall, hhead, hchain⟩ := ih (f.CalculateNewPosition pos dir)
              (f.GetNewDirection M h s (f.CalculateNewPosition pos dir)
                (pushDirection f M last_dirs dir) (h.WorldToIndex pos)).1
              (pushPoint front (f.CalculateNewPosition pos dir) fib)
              (tractLength + f.m_StepSize) (pushDirection f M last_dirs dir)
              (f.GetNewDirection M h s (f.CalculateNewPosition pos dir)
                (pushDirection f M last_dirs dir) (h.WorldToIndex pos)).2 hnext
              (Or.inl hpush.1)
            refine ⟨?_, Or.inr rfl, ?_⟩
            · intro e he
              rcases List.mem_cons.mp he with he0 | he1
              · rw [he0]
                exact hentry
              · exact hall e he1
            · show List.Chain' _ (_ :: _)
              rw [List.chain'_cons']
              refine ⟨?_, hchain⟩
              intro e1 he1
              rcases hhead with hnil | hsome
              · rw [hnil] at he1
                simp at he1
              · rw [hsome] at he1
                simp only [Option.mem_def, Option.some.injEq] at he1
                rw [← he1]
                exact (pushDirection_spec f M (pushDirection f M last_dirs dir) _ hn1
                  (Or.inl hpush.1)).2.2.1 hpush.1

/-- C24: for a configured number `n ≥ 1` of previous directions (an unsigned 32-bit value) and
a pass of `FollowStreamline` that starts with a non-zero direction, in exact arithmetic:
every call of `GetNewDirection` made by the pass gets a history of exactly `n` entries whose
last entry is the unit-normalised direction of the step just taken; the first call gets
`n - 1` zero vectors followed by the first direction, and from one call to the next the
oldest entry is dropped and the new direction is appended, so the entries are in
chronological order. -/
theorem FollowStreamline_history {F : Type} [LinearOrderedField F] {σ : Type}
    (f : StreamlineTrackingFilter F) (M : MathEnv F) (h : TrackingDataHandler F σ)
    (s : σ) (pos dir : Vec3 F) (fib : FiberType F) (tractLength : F) (front : Bool)
    (hsqrt : ∀ x : F, 0 ≤ x → 0 ≤ M.sqrt x ∧ M.sqrt x * M.sqrt x = x)
    (hn1 : 1 ≤ f.m_NumPreviousDirections) (hn2 : f.m_NumPreviousDirections < 4294967296)
    (hdir : dir.squared_magnitude ≠ 0) :
    ∀ calls : (F × FiberType F × σ) × List (Vec3 F × List (Vec3 F)),
      calls = followLoopLog f M h front (Int.tdiv f.m_MaxLength 2).toNat pos dir fib tractLength
        (List.replicate ((f.m_NumPreviousDirections + 4294967295) % 4294967296)
          (Vec3.fill 0)) s →
      calls.1 = f.FollowStreamline M h s pos dir fib tractLength front ∧
      (∀ e ∈ calls.2, e.2.length = f.m_NumPreviousDirections ∧
        e.2.getLast? = some (e.1.normalize M) ∧ (e.1.normalize M).magnitude M = 1) ∧
      (calls.2 = [] ∨ calls.2.head? = some (dir,
        List.replicate (f.m_NumPreviousDirections - 1) (Vec3.fill 0) ++ [dir.normalize M])) ∧
      calls.2.Chain' (fun e e1 => e1.2 = e.2.tail ++ [e1.1.normalize M]) := by
  intro calls hcalls
  have hwrap : (f.m_NumPreviousDirections + 4294967295) % 4294967296 =
      f.m_NumPreviousDirections - 1 := by omega
  rw [hwrap] at hcalls
  have hlen : (List.replicate (f.m_NumPreviousDirections - 1) (Vec3.fill (0 : F))).length + 1 =
      f.m_NumPreviousDirections := by
    rw [List.length_replicate]
    omega
  obtain ⟨hall, hhead, hchain⟩ := followLoopLog_history f M h hsqrt hn1 front
    (Int.tdiv f.m_MaxLength 2).toNat pos dir fib tractLength
    (List.replicate (f.m_NumPreviousDirections - 1) (Vec3.fill 0)) s hdir (Or.inr hlen)
  rw [← hcalls] at hall hhead hchain
  refine ⟨?_, hall, ?_, hchain⟩
  · rw [hcalls]
    unfold StreamlineTrackingFilter.FollowStreamline
    rw [hwrap]
    exact followLoopLog_fst f M h front _ _ _ _ _ _ _
  · rcases hhead with hnil | hsome
    · exact Or.inl hnil
    · right
      rw [hsome, (pushDirection_spec f M _ dir hn1 (Or.inr hlen)).2.2.2 hlen]

/-- Witness for C24: real arithmetic, the filter of `demoSettings` (one previous direction)
and the pass from the origin along `(0,0,1)`. -/
theorem FollowStreamline_history_witness :
    (∀ x : ℝ, 0 ≤ x → 0 ≤ Real.sqrt x ∧ Real.sqrt x * Real.sqrt x = x) ∧
    (⟨0, 0, 1⟩ : Vec3 ℝ).squared_magnitude ≠ 0 ∧
    (BeforeTracking
      (⟨Real.sqrt, Real.arccos, Real.cos, Real.sin, Real.pi, 1 / 1000000⟩ : MathEnv ℝ)
      (demoImages ℝ) ⟨1, 1, 1⟩ (demoSettings ℝ)).m_NumPreviousDirections = 1 ∧
    ∀ e ∈ (followLoopLog
        (BeforeTracking
          (⟨Real.sqrt, Real.arccos, Real.cos, Real.sin, Real.pi, 1 / 1000000⟩ : MathEnv ℝ)
          (demoImages ℝ) ⟨1, 1, 1⟩ (demoSettings ℝ))
        (⟨Real.sqrt, Real.arccos, Real.cos, Real.sin, Real.pi, 1 / 1000000⟩ : MathEnv ℝ)
        (demoHandler ℝ) false
        (Int.tdiv (BeforeTracking
          (⟨Real.sqrt, Real.arccos, Real.cos, Real.sin, Real.pi, 1 / 1000000⟩ : MathEnv ℝ)
          (demoImages ℝ) ⟨1, 1, 1⟩ (demoSettings ℝ)).m_MaxLength 2).toNat
        ⟨0, 0, 0⟩ ⟨0, 0, 1⟩ [] 0
        (List.replicate (((BeforeTracking
          (⟨Real.sqrt, Real.arccos, Real.cos, Real.sin, Real.pi, 1 / 1000000⟩ : MathEnv ℝ)
          (demoImages ℝ) ⟨1, 1, 1⟩ (demoSettings ℝ)).m_NumPreviousDirections + 4294967295) %
            4294967296) (Vec3.fill 0)) 0).2,
      e.2.length = 1 ∧
      e.2.getLast? = some (e.1.normalize
        (⟨Real.sqrt, Real.arccos, Real.cos, Real.sin, Real.pi, 1 / 1000000⟩ : MathEnv ℝ)) ∧
      (e.1.normalize
        (⟨Real.sqrt, Real.arccos, Real.cos, Real.sin, Real.pi, 1 / 1000000⟩ : MathEnv ℝ)).magnitude
        (⟨Real.sqrt, Real.arccos, Real.cos, Real.sin, Real.pi, 1 / 1000000⟩ : MathEnv ℝ) = 1 :=
  ⟨fun x hx => ⟨Real.sqrt_nonneg x, Real.mul_self_sqrt hx⟩,
   by simp [Vec3.squared_magnitude, dot_product], rfl,
   (FollowStreamline_history
      (BeforeTracking
        (⟨Real.sqrt, Real.arccos, Real.cos, Real.sin, Real.pi, 1 / 1000000⟩ : MathEnv ℝ)
        (demoImages ℝ) ⟨1, 1, 1⟩ (demoSettings ℝ))
      (⟨Real.sqrt, Real.arccos, Real.cos, Real.sin, Real.pi, 1 / 1000000⟩ : MathEnv ℝ)
      (demoHandler ℝ) 0 ⟨0, 0, 0⟩ ⟨0, 0, 1⟩ [] 0 false
      (fun x hx => ⟨Real.sqrt_nonneg x, Real.mul_self_sqrt hx⟩) (le_refl 1) (by decide)
      (by simp [Vec3.squared_magnitude, dot_product]) _ rfl).2.1⟩

/-! ### The stop mask (C21) -/

/-- At a position inside the stop mask `GetNewDirection` returns the zero vector and does not
query the handler. -/
theorem GetNewDirection_stop {F : Type} [LinearOrderedField F] {σ : Type}
    (f : StreamlineTrackingFilter F) (M : MathEnv F) (h : TrackingDataHandler F σ) (s : σ)
    (pos : Vec3 F) (olddirs : List (Vec3 F)) (oldIndex : Index3)
    (hstop : f.m_StopInterpolator pos = true) :
    f.GetNewDirection M h s pos olddirs oldIndex = (Vec3.fill 0, s) := by
  unfold StreamlineTrackingFilter.GetNewDirection
  rw [if_neg (by simp [hstop])]

/-- The zero vector has magnitude below `0.0001` when `sqrt 0 = 0`. -/
theorem magnitude_fill_zero {F : Type} [LinearOrderedField F] (M : MathEnv F)
    (hsqrt0 : M.sqrt 0 = 0) : (Vec3.fill (0 : F)).magnitude M < 1 / 10000 := by
  have h0 : (Vec3.fill (0 : F)).squared_magnitude = 0 := by
    simp [Vec3.squared_magnitude, dot_product, Vec3.fill]
  unfold Vec3.magnitude
  rw [h0, hsqrt0]
  norm_num

/-- The points of the tail of a list without its last point are points of the list without
its last point. -/
theorem mem_dropLast_of_mem_dropLast_tail {α : Type} (l : List α) (p : α)
    (hp : p ∈ l.tail.dropLast) : p ∈ l.dropLast := by
  cases l with
  | nil => simp at hp
  | cons a t =>
    cases t with
    | nil => simp at hp
    | cons b u =>
      rw [List.dropLast_cons_of_ne_nil (List.cons_ne_nil b u)]
      exact List.mem_cons_of_mem _ hp

/-- The points of a list without its last point, after the first `c` points are dropped, are
points of the list without its last point. -/
theorem mem_dropLast_of_mem_dropLast_drop {α : Type} (c : ℕ) :
    ∀ (l : List α) (p : α), p ∈ (l.drop c).dropLast → p ∈ l.dropLast := by
  induction c with
  | zero =>
    intro l p hp
    simpa using hp
  | succ n ih =>
    intro l p hp
    rw [← List.tail_drop] at hp
    exact ih l p (mem_dropLast_of_mem_dropLast_tail _ p hp)

/-- When the step loop goes on after a step, the new point lies outside the stop mask. -/
theorem stop_false_of_continue {F : Type} [LinearOrderedField F] {σ : Type}
    (f : StreamlineTrackingFilter F) (M : MathEnv F) (h : TrackingDataHandler F σ) (s : σ)
    (pos : Vec3 F) (olddirs : List (Vec3 F)) (oldIndex : Index3) (hsqrt0 : M.sqrt 0 = 0)
    (hmag : ¬ (f.GetNewDirection M h s pos olddirs oldIndex).1.magnitude M < 1 / 10000) :
    f.m_StopInterpolator pos = false := by
  by_contra hstop
  apply hmag
  rw [GetNewDirection_stop f M h s pos olddirs oldIndex (by simpa using hstop)]
  exact magnitude_fill_zero M hsqrt0

/-- A pass that appends at the back: when every point of the fiber passed in has the
property `Q`, which holds outside the stop mask, then every point of the fiber returned,
except the last, has the property `Q`. -/
theorem followLoop_stop_back {F : Type} [LinearOrderedField F] {σ : Type}
    (f : StreamlineTrackingFilter F) (M : MathEnv F) (h : TrackingDataHandler F σ)
    (hsqrt0 : M.sqrt 0 = 0) (Q : Vec3 F → Prop)
    (hQ : ∀ p, f.m_StopInterpolator p = false → Q p) (steps : ℕ) :
    ∀ (pos dir : Vec3 F) (fib : FiberType F) (tractLength : F) (last_dirs : List (Vec3 F))
      (s : σ), (∀ p ∈ fib, Q p) →
      ∀ p ∈ (followLoop f M h false steps pos dir fib tractLength last_dirs s).2.1.dropLast,
        Q p := by
  induction steps with
  | zero =>
    intro pos dir fib tractLength last_dirs s hfib p hp
    exact hfib p (List.mem_of_mem_dropLast hp)
  | succ n ih =>
    intro pos dir fib tractLength last_dirs s hfib p hp
    rw [followLoop_succ] at hp
    have hpush : pushPoint false (f.CalculateNewPosition pos dir) fib =
        fib ++ [f.CalculateNewPosition pos dir] := rfl
    rw [hpush] at hp
    generalize (if f.m_AposterioriCurvCheck then
      CheckCurvature M (fib ++ [f.CalculateNewPosition pos dir]) false else 0) = c at hp
    by_cases hab : h.m_AbortTracking s = true
    · rw [if_pos hab] at hp
      exact hfib p (List.mem_of_mem_dropLast hp)
    · rw [if_neg hab] at hp
      by_cases hc : c > 0
      · rw [if_pos hc] at hp
        have hp1 : p ∈ (popPoints false c (fib ++ [f.CalculateNewPosition pos dir])) :=
          List.mem_of_mem_dropLast hp
        rw [(popPoints_eq c _).2, List.length_append, List.length_singleton,
          List.take_append_of_le_length (by omega)] at hp1
        exact hfib p (List.mem_of_mem_take hp1)
      · rw [if_neg hc] at hp
        by_cases hmax : tractLength + f.m_StepSize > f.m_MaxTractLength
        · rw [if_pos hmax] at hp
          change p ∈ (fib ++ [f.CalculateNewPosition pos dir]).dropLast at hp
          rw [List.dropLast_concat] at hp
          exact hfib p hp
        · rw [if_neg hmax] at hp
          by_cases hmag : (f.GetNewDirection M h s (f.CalculateNewPosition pos dir)
              (pushDirection f M last_dirs dir) (h.WorldToIndex pos)).1.magnitude M < 1 / 10000
          · rw [if_pos hmag] at hp
            change p ∈ (fib ++ [f.CalculateNewPosition pos dir]).dropLast at hp
            rw [List.dropLast_concat] at hp
            exact hfib p hp
          · rw [if_neg hmag] at hp
            refine ih _ _ _ _ _ _ ?_ p hp
            intro q hq
            rcases List.mem_append.mp hq with hq1 | hq2
            · exact hfib q hq1
            · rw [List.mem_singleton] at hq2
              rw [hq2]
              exact hQ _ (stop_false_of_continue f M h s _ _ _ hsqrt0 hmag)

/-- A pass that puts its points in front: when every point of the fiber passed in, except
the last, has the property `Q`, which holds outside the stop mask, then every point of the
fiber returned, except the first and the last, has the property `Q`. -/
theorem followLoop_stop_front {F : Type} [LinearOrderedField F] {σ : Type}
    (f : StreamlineTrackingFilter F) (M : MathEnv F) (h : TrackingDataHandler F σ)
    (hsqrt0 : M.sqrt 0 = 0) (Q : Vec3 F → Prop)
    (hQ : ∀ p, f.m_StopInterpolator p = false → Q p) (steps : ℕ) :
    ∀ (pos dir : Vec3 F) (fib : FiberType F) (tractLength : F) (last_dirs : List (Vec3 F))
      (s : σ), (∀ p ∈ fib.dropLast, Q p) →
      ∀ p ∈ (followLoop f M h true steps pos dir fib tractLength last_dirs s).2.1.tail.dropLast,
        Q p := by
  induction steps with
  | zero =>
    intro pos dir fib tractLength last_dirs s hfib p hp
    exact hfib p (mem_dropLast_of_mem_dropLast_tail _ p hp)
  | succ n ih =>
    intro pos dir fib tractLength last_dirs s hfib p hp
    rw [followLoop_succ] at hp
    have hpush : pushPoint true (f.CalculateNewPosition pos dir) fib =
        f.CalculateNewPosition pos dir :: fib := rfl
    rw [hpush] at hp
    generalize (if f.m_AposterioriCurvCheck then
      CheckCurvature M (f.CalculateNewPosition pos dir :: fib) true else 0) = c at hp
    by_cases hab : h.m_AbortTracking s = true
    · rw [if_pos hab] at hp
      exact hfib p (mem_dropLast_of_mem_dropLast_tail _ p hp)
    · rw [if_neg hab] at hp
      by_cases hc : c > 0
      · rw [if_pos hc] at hp
        change p ∈ (popPoints true c (f.CalculateNewPosition pos dir :: fib)).tail.dropLast
          at hp
        rw [(popPoints_eq c _).1, List.tail_drop, List.drop_succ_cons] at hp
        exact hfib p (mem_dropLast_of_mem_dropLast_drop c fib p hp)
      · rw [if_neg hc] at hp
        by_cases hmax : tractLength + f.m_StepSize > f.m_MaxTractLength
        · rw [if_pos hmax] at hp
          exact hfib p hp
        · rw [if_neg hmax] at hp
          by_cases hmag : (f.GetNewDirection M h s (f.CalculateNewPosition pos dir)
              (pushDirection f M last_dirs dir) (h.WorldToIndex pos)).1.magnitude M < 1 / 10000
          · rw [if_pos hmag] at hp
            exact hfib p hp
          · rw [if_neg hmag] at hp
            refine ih _ _ _ _ _ _ ?_ p hp
            intro q hq
            cases fib with
            | nil => simp at hq
            | cons a t =>
              rw [List.dropLast_cons_of_ne_nil (List.cons_ne_nil a t)] at hq
              rcases List.mem_cons.mp hq with hq1 | hq2
              · rw [hq1]
                exact hQ _ (stop_false_of_continue f M h s _ _ _ hsqrt0 hmag)
              · exact hfib q hq2

/-- C21 as amended: when `sqrt 0 = 0`, in every pass of `FollowStreamline` a step whose new
point lies inside the stop mask is the last step of the pass (the pass with more iterations
left returns what the pass with this single iteration returns), so that every point of the
fiber that a pass builds from the empty fiber, except the last, lies outside the stop mask;
and in every traced fiber each point other than the first and the last is the seed point or
lies outside the stop mask.  The seed point itself is not tested against the stop mask. -/
theorem traceSeed_stop_mask {F : Type} [LinearOrderedField F] {σ : Type}
    (f : StreamlineTrackingFilter F) (M : MathEnv F) (h : TrackingDataHandler F σ) (s : σ)
    (worldPos : Vec3 F) (fib : FiberType F) (tractLength : F) (hsqrt0 : M.sqrt 0 = 0)
    (htrace : (f.traceSeed M h s worldPos).1 = some (fib, tractLength)) :
    (∀ (front : Bool) (n : ℕ) (pos dir : Vec3 F) (fib1 : FiberType F) (tl : F)
      (last_dirs : List (Vec3 F)) (s1 : σ),
      f.m_StopInterpolator (f.CalculateNewPosition pos dir) = true →
      followLoop f M h front (n + 1) pos dir fib1 tl last_dirs s1 =
        followLoop f M h front 1 pos dir fib1 tl last_dirs s1) ∧
    (∀ (s1 : σ) (pos dir : Vec3 F) (tl : F),
      ∀ p ∈ (f.FollowStreamline M h s1 pos dir [] tl false).2.1.dropLast,
        f.m_StopInterpolator p = false) ∧
    ∀ p ∈ fib.tail.dropLast, p = worldPos ∨ f.m_StopInterpolator p = false := by
  refine ⟨?_, ?_, ?_⟩
  · intro front n pos dir fib1 tl last_dirs s1 hstop
    have hmag : (f.GetNewDirection M h s1 (f.CalculateNewPosition pos dir)
        (pushDirection f M last_dirs dir) (h.WorldToIndex pos)).1.magnitude M < 1 / 10000 := by
      rw [GetNewDirection_stop f M h s1 _ _ _ hstop]
      exact magnitude_fill_zero M hsqrt0
    rw [followLoop_succ, followLoop_succ]
    simp only [hmag, if_true]
  · intro s1 pos dir tl p hp
    unfold StreamlineTrackingFilter.FollowStreamline at hp
    exact followLoop_stop_back f M h hsqrt0 (fun q => f.m_StopInterpolator q = false)
      (fun _ hq => hq) _ _ _ _ _ _ _ (fun q hq => absurd hq (List.not_mem_nil q)) p hp
  · unfold StreamlineTrackingFilter.traceSeed at htrace
    simp only at htrace
    generalize (if f.m_MaskInterpolator worldPos = true then
        h.ProposeDirection s worldPos (List.replicate f.m_NumPreviousDirections (Vec3.fill 0))
          ⟨0, 0, 0⟩ else (Vec3.fill 0, s)) = r at htrace
    by_cases hdir : r.1.magnitude M > 1 / 10000
    · rw [if_pos hdir] at htrace
      simp only [Option.some.injEq, Prod.mk.injEq] at htrace
      unfold StreamlineTrackingFilter.FollowStreamline at htrace
      have hf := followLoop_stop_back f M h hsqrt0
        (fun q => q = worldPos ∨ f.m_StopInterpolator q = false) (fun _ hq => Or.inr hq)
        (Int.tdiv f.m_MaxLength 2).toNat worldPos r.1 [] 0
        (List.replicate ((f.m_NumPreviousDirections + 4294967295) % 4294967296)
          (Vec3.fill 0)) r.2 (fun q hq => absurd hq (List.not_mem_nil q))
      generalize followLoop f M h false (Int.tdiv f.m_MaxLength 2).toNat worldPos r.1
        [] 0 (List.replicate ((f.m_NumPreviousDirections + 4294967295) % 4294967296)
          (Vec3.fill 0)) r.2 = fwd at hf htrace
      have hb := followLoop_stop_front f M h hsqrt0
        (fun q => q = worldPos ∨ f.m_StopInterpolator q = false) (fun _ hq => Or.inr hq)
        (Int.tdiv f.m_MaxLength 2).toNat worldPos r.1.neg (worldPos :: fwd.2.1) fwd.1
        (List.replicate ((f.m_NumPreviousDirections + 4294967295) % 4294967296)
          (Vec3.fill 0)) fwd.2.2
      rw [htrace.1] at hb
      refine hb ?_
      intro q hq
      cases hfw : fwd.2.1 with
      | nil =>
        rw [hfw] at hq
        simp at hq
      | cons a t =>
        rw [hfw, List.dropLast_cons_of_ne_nil (List.cons_ne_nil a t)] at hq
        rcases List.mem_cons.mp hq with hq1 | hq2
        · exact Or.inl hq1
        · rw [hfw] at hf
          exact hf q hq2
    · rw [if_neg hdir] at htrace
      exact absurd htrace (by simp)

/-- Witness for the amended C21: the seed at the origin in `stopFilter`, whose pass up the z
axis ends with the point `(0,0,2)` inside the stop mask. -/
theorem traceSeed_stop_mask_witness :
    ratMath.sqrt 0 = 0 ∧
    (stopFilter.traceSeed ratMath (demoHandler ℚ) 0 ⟨0, 0, 0⟩).1 =
      some ([⟨0, 0, -2⟩, ⟨0, 0, -1⟩, ⟨0, 0, 0⟩, ⟨0, 0, 1⟩, ⟨0, 0, 2⟩], 4) ∧
    stopFilter.m_StopInterpolator ⟨0, 0, 2⟩ = true ∧
    ∀ p ∈ ([⟨0, 0, -2⟩, ⟨0, 0, -1⟩, ⟨0, 0, 0⟩, ⟨0, 0, 1⟩, ⟨0, 0, 2⟩] :
        FiberType ℚ).tail.dropLast,
      p = ⟨0, 0, 0⟩ ∨ stopFilter.m_StopInterpolator p = false :=
  ⟨by decide!, by decide!, by decide!,
   (traceSeed_stop_mask stopFilter ratMath (demoHandler ℚ) 0 ⟨0, 0, 0⟩
    [⟨0, 0, -2⟩, ⟨0, 0, -1⟩, ⟨0, 0, 0⟩, ⟨0, 0, 1⟩, ⟨0, 0, 2⟩] 4 (by decide!)
    (by decide!)).2.2⟩

/-- Counterexample to C21 as stated: in `stopFilter` the seed at the origin lies inside the
tracking mask and inside the stop mask, its start direction is `(0,0,1)`, and the fiber traced
from it, which `GenerateData` accepts, continues on both sides of the seed: two points follow
it and two points precede it. -/
theorem seed_in_stop_mask_counterexample :
    stopFilter.m_MaskInterpolator ⟨0, 0, 0⟩ = true ∧
    stopFilter.m_StopInterpolator ⟨0, 0, 0⟩ = true ∧
    (stopFilter.traceSeed ratMath (demoHandler ℚ) 0 ⟨0, 0, 0⟩).1 =
      some ([⟨0, 0, -2⟩, ⟨0, 0, -1⟩, ⟨0, 0, 0⟩, ⟨0, 0, 1⟩, ⟨0, 0, 2⟩], 4) ∧
    (stopFilter.GenerateData ratMath (demoHandler ℚ) [⟨0, 0, 0⟩] 0).1.m_Tractogram =
      [[⟨0, 0, -2⟩, ⟨0, 0, -1⟩, ⟨0, 0, 0⟩, ⟨0, 0, 1⟩, ⟨0, 0, 2⟩]] := by
  decide!

/-! ### Determinism without random sampling (C22) -/

/-- Unless random seeding and random sampling are both enabled, an iteration of the probe
loop does not depend on the random generator of the handler. -/
theorem probeStep_ignores_random {F : Type} [LinearOrderedField F] {σ : Type}
    (f : StreamlineTrackingFilter F) (M : MathEnv F) (h : TrackingDataHandler F σ)
    (g : σ → F → F → F × σ) (hrand : (f.m_Random && f.m_RandomSampling) = false) :
    probeStep f M { h with GetRandDouble := g } = probeStep f M h := by
  funext pos olddirs oldIndex olddir st probe
  unfold probeStep
  simp only [hrand, Bool.false_eq_true, if_false]
  rfl

/-- Unless random seeding and random sampling are both enabled, `GetNewDirection` does not
depend on the random generator of the handler. -/
theorem GetNewDirection_ignores_random {F : Type} [LinearOrderedField F] {σ : Type}
    (f : StreamlineTrackingFilter F) (M : MathEnv F) (h : TrackingDataHandler F σ)
    (g : σ → F → F → F × σ) (hrand : (f.m_Random && f.m_RandomSampling) = false) :
    f.GetNewDirection M { h with GetRandDouble := g } = f.GetNewDirection M h := by
  funext s pos olddirs oldIndex
  unfold StreamlineTrackingFilter.GetNewDirection probeLoop
  rw [probeStep_ignores_random f M h g hrand]

/-- Unless random seeding and random sampling are both enabled, the step loop does not
depend on the random generator of the handler. -/
theorem followLoop_ignores_random {F : Type} [LinearOrderedField F] {σ : Type}
    (f : StreamlineTrackingFilter F) (M : MathEnv F) (h : TrackingDataHandler F σ)
    (g : σ → F → F → F × σ) (hrand : (f.m_Random && f.m_RandomSampling) = false)
    (front : Bool) (steps : ℕ) :
    ∀ (pos dir : Vec3 F) (fib : FiberType F) (tractLength : F) (last_dirs : List (Vec3 F))
      (s : σ),
      followLoop f M { h with GetRandDouble := g } front steps pos dir fib tractLength
          last_dirs s =
        followLoop f M h front steps pos dir fib tractLength last_dirs s := by
  induction steps with
  | zero =>
    intro pos dir fib tractLength last_dirs s
    rfl
  | succ n ih =>
    intro pos dir fib tractLength last_dirs s
    rw [followLoop_succ, followLoop_succ, GetNewDirection_ignores_random f M h g hrand]
    simp only [ih]

/-- Unless random seeding and random sampling are both enabled, the tracing of a seed does
not depend on the random generator of the handler. -/
theorem traceSeed_ignores_random {F : Type} [LinearOrderedField F] {σ : Type}
    (f : StreamlineTrackingFilter F) (M : MathEnv F) (h : TrackingDataHandler F σ)
    (g : σ → F → F → F × σ) (hrand : (f.m_Random && f.m_RandomSampling) = false) (s : σ)
    (worldPos : Vec3 F) :
    f.traceSeed M { h with GetRandDouble := g } s worldPos = f.traceSeed M h s worldPos := by
  unfold StreamlineTrackingFilter.traceSeed StreamlineTrackingFilter.FollowStreamline
  simp only [followLoop_ignores_random f M h g hrand]

/-- Unless random seeding and random sampling are both enabled, the loop of `GenerateData`
does not depend on the random generator of the handler. -/
theorem trackingLoop_ignores_random {F : Type} [LinearOrderedField F] {σ : Type}
    (f : StreamlineTrackingFilter F) (M : MathEnv F) (h : TrackingDataHandler F σ)
    (g : σ → F → F → F × σ) (hrand : (f.m_Random && f.m_RandomSampling) = false)
    (seeds : List (Vec3 F)) :
    ∀ (sh : SharedState F) (s : σ),
      f.trackingLoop M { h with GetRandDouble := g } seeds sh s =
        f.trackingLoop M h seeds sh s := by
  induction seeds with
  | nil =>
    intro sh s
    rfl
  | cons worldPos seeds ih =>
    intro sh s
    have hp : f.processSeed M { h with GetRandDouble := g } sh s worldPos =
        f.processSeed M h sh s worldPos := by
      unfold StreamlineTrackingFilter.processSeed
      rw [traceSeed_ignores_random f M h g hrand]
      rfl
    unfold StreamlineTrackingFilter.trackingLoop
    simp only [hp, ih]

/-- Without a limit on the number of accepted tracts, the acceptance of a fiber leaves the
stop flag cleared and appends to the tractogram what it appends to the empty tractogram. -/
theorem acceptFiber_append {F : Type} [LinearOrderedField F] {σ : Type}
    (f : StreamlineTrackingFilter F) (h : TrackingDataHandler F σ)
    (hcap : f.m_MaxNumTracts ≤ 0) (fib : FiberType F) (tractLength : F) (sh : SharedState F)
    (hstop : sh.m_StopTracking = false) :
    (f.acceptFiber h sh fib tractLength).m_StopTracking = false ∧
    (f.acceptFiber h sh fib tractLength).m_Tractogram =
      sh.m_Tractogram ++ (f.acceptFiber h initialSharedState fib tractLength).m_Tractogram := by
  have hnocap : ∀ c : ℕ, ¬ (f.m_MaxNumTracts > 0 ∧ (c : ℤ) ≥ f.m_MaxNumTracts % 4294967296) :=
    fun c hc => absurd hc.1 (not_lt.mpr hcap)
  unfold StreamlineTrackingFilter.acceptFiber StreamlineTrackingFilter.criticalSection
  by_cases hacc : tractLength ≥ f.m_MinTractLength ∧ fib.length ≥ 2
  · rw [if_pos hacc, if_pos hacc]
    by_cases hvalid : f.IsValidFiber fib = some true
    · rw [if_pos hvalid, if_pos hvalid]
      simp only [hstop, initialSharedState, Bool.not_false, if_true]
      cases hprob : f.m_UseOutputProbabilityMap
      · simp only [Bool.not_false, if_true]
        rw [if_neg (hnocap _), if_neg (hnocap _)]
        simp
      · simp only [Bool.not_true, Bool.false_eq_true, if_false]
        rw [if_neg (hnocap _), if_neg (hnocap _)]
        simp [hstop]
    · rw [if_neg hvalid, if_neg hvalid]
      simp [hstop, initialSharedState]
  · rw [if_neg hacc, if_neg hacc]
    simp [hstop, initialSharedState]

/-- Without a limit on the number of accepted tracts, the tractogram after the critical
blocks of a schedule is the concatenation, in the order of the schedule, of what each seed
contributes on its own. -/
theorem parallelRound_tractogram {F : Type} [LinearOrderedField F] {σ : Type}
    (f : StreamlineTrackingFilter F) (M : MathEnv F) (h : TrackingDataHandler F σ)
    (hcap : f.m_MaxNumTracts ≤ 0) (seeds : List (Vec3 F)) (s : σ) (completion : List ℕ) :
    (f.parallelRound M h seeds s completion).m_Tractogram =
      completion.flatMap fun k => (f.parallelRound M h seeds s [k]).m_Tractogram := by
  have hstep : ∀ (k : ℕ) (sh : SharedState F), sh.m_StopTracking = false →
      (match seeds.get? k with
        | some worldPos => (f.processSeed M h sh s worldPos).1
        | none => sh).m_StopTracking = false ∧
      (match seeds.get? k with
        | some worldPos => (f.processSeed M h sh s worldPos).1
        | none => sh).m_Tractogram =
        sh.m_Tractogram ++ (f.parallelRound M h seeds s [k]).m_Tractogram := by
    intro k sh hstop
    unfold StreamlineTrackingFilter.parallelRound
    simp only [List.foldl_cons, List.foldl_nil]
    cases seeds.get? k with
    | none => simp [hstop, initialSharedState]
    | some worldPos =>
      simp only
      unfold StreamlineTrackingFilter.processSeed
      rcases f.traceSeed M h s worldPos with ⟨_ | ⟨fib, tl⟩, s1⟩
      · simp [hstop, initialSharedState]
      · exact acceptFiber_append f h hcap fib tl sh hstop
  have hfold : ∀ (completion : List ℕ) (sh : SharedState F), sh.m_StopTracking = false →
      (completion.foldl (fun sh k =>
        match seeds.get? k with
        | some worldPos => (f.processSeed M h sh s worldPos).1
        | none => sh) sh).m_Tractogram =
        sh.m_Tractogram ++
          completion.flatMap fun k => (f.parallelRound M h seeds s [k]).m_Tractogram := by
    intro completion
    induction completion with
    | nil =>
      intro sh _
      simp
    | cons k ks ih =>
      intro sh hstop
      rw [List.foldl_cons, ih _ (hstep k sh hstop).1, (hstep k sh hstop).2,
        List.flatMap_cons, List.append_assoc]
  have := hfold completion initialSharedState rfl
  simpa [StreamlineTrackingFilter.parallelRound, initialSharedState] using this

/-- Unless random seeding and random sampling are both enabled, a schedule of the parallel
loop does not depend on the random generator of the handler. -/
theorem parallelRound_ignores_random {F : Type} [LinearOrderedField F] {σ : Type}
    (f : StreamlineTrackingFilter F) (M : MathEnv F) (h : TrackingDataHandler F σ)
    (g : σ → F → F → F × σ) (hrand : (f.m_Random && f.m_RandomSampling) = false)
    (seeds : List (Vec3 F)) (s : σ) (completion : List ℕ) :
    f.parallelRound M { h with GetRandDouble := g } seeds s completion =
      f.parallelRound M h seeds s completion := by
  have hp : ∀ (sh : SharedState F) (worldPos : Vec3 F),
      f.processSeed M { h with GetRandDouble := g } sh s worldPos =
        f.processSeed M h sh s worldPos := by
    intro sh worldPos
    unfold StreamlineTrackingFilter.processSeed
    rw [traceSeed_ignores_random f M h g hrand]
    rfl
  unfold StreamlineTrackingFilter.parallelRound
  simp only [hp]

/-- C22 as amended: unless random seeding and random sampling are both enabled (in
particular when both are disabled), `GetNewDirection`, `FollowStreamline` and the loop of
`GenerateData` run by one worker return the same results whatever the random generator of
the handler is: they never consult it, and a run is a function of the seed list, the
responses of the field model, the masks and the configuration.  With one worker per seed and
no limit on the number of accepted tracts, two runs whose workers finish in different orders
accept the same fibers, in a different storage order. -/
theorem GenerateData_deterministic {F : Type} [LinearOrderedField F] {σ : Type}
    (f : StreamlineTrackingFilter F) (M : MathEnv F) (h : TrackingDataHandler F σ)
    (hrand : (f.m_Random && f.m_RandomSampling) = false) :
    ∀ g : σ → F → F → F × σ,
      (∀ (s : σ) (pos : Vec3 F) (olddirs : List (Vec3 F)) (oldIndex : Index3),
        f.GetNewDirection M { h with GetRandDouble := g } s pos olddirs oldIndex =
          f.GetNewDirection M h s pos olddirs oldIndex) ∧
      (∀ (s : σ) (pos dir : Vec3 F) (fib : FiberType F) (tractLength : F) (front : Bool),
        f.FollowStreamline M { h with GetRandDouble := g } s pos dir fib tractLength front =
          f.FollowStreamline M h s pos dir fib tractLength front) ∧
      (∀ (seeds : List (Vec3 F)) (s : σ),
        f.GenerateData M { h with GetRandDouble := g } seeds s = f.GenerateData M h seeds s) ∧
      (f.m_MaxNumTracts ≤ 0 →
        ∀ (seeds : List (Vec3 F)) (s : σ) (c1 c2 : List ℕ), c1.Perm c2 →
          (f.parallelRound M { h with GetRandDouble := g } seeds s c1).m_Tractogram.Perm
            (f.parallelRound M h seeds s c2).m_Tractogram) := by
  intro g
  refine ⟨?_, ?_, ?_, ?_⟩
  · intro s pos olddirs oldIndex
    rw [GetNewDirection_ignores_random f M h g hrand]
  · intro s pos dir fib tractLength front
    unfold StreamlineTrackingFilter.FollowStreamline
    exact followLoop_ignores_random f M h g hrand front _ _ _ _ _ _ _
  · intro seeds s
    unfold StreamlineTrackingFilter.GenerateData
    exact trackingLoop_ignores_random f M h g hrand seeds _ _
  · intro hcap seeds s c1 c2 hperm
    rw [parallelRound_ignores_random f M h g hrand, parallelRound_tractogram f M h hcap,
      parallelRound_tractogram f M h hcap]
    exact List.Perm.flatMap_right _ hperm

/-- Witness for the amended C22: `demoFilter` (random seeding and random sampling disabled)
with the random generator of `demoHandler` replaced by one that returns the upper bound. -/
theorem GenerateData_deterministic_witness :
    (demoFilter.m_Random && demoFilter.m_RandomSampling) = false ∧
    demoFilter.GenerateData ratMath
        { demoHandler ℚ with GetRandDouble := fun s _ hi => (hi, s + 2) } [⟨0, 0, 0⟩] 0 =
      demoFilter.GenerateData ratMath (demoHandler ℚ) [⟨0, 0, 0⟩] 0 :=
  ⟨rfl, (GenerateData_deterministic demoFilter ratMath (demoHandler ℚ) rfl
    (fun s _ hi => (hi, s + 2))).2.2.1 [⟨0, 0, 0⟩] 0⟩

/-- Counterexample to C22 as stated: `cutoffFilter` has random seeding and random sampling
disabled and accepts at most one tract.  For the seed list `(0,0,0), (5,0,0)` and one worker
per seed, the run in which the first worker enters the critical block first accepts the
fiber through `(0,0,0)`, and the run in which the second worker enters it first accepts the
fiber through `(5,0,0)`: the two runs over the same seed list accept different fibers. -/
theorem accepted_set_schedule_counterexample :
    cutoffFilter.m_Random = false ∧ cutoffFilter.m_RandomSampling = false ∧
    cutoffFilter.m_MaxNumTracts = 1 ∧
    (cutoffFilter.parallelRound ratMath (demoHandler ℚ) [⟨0, 0, 0⟩, ⟨5, 0, 0⟩] 0
      [0, 1]).m_Tractogram =
      [[⟨0, 0, -1⟩, ⟨0, 0, 0⟩, ⟨0, 0, 1⟩, ⟨0, 0, 2⟩, ⟨0, 0, 3⟩, ⟨0, 0, 4⟩]] ∧
    (cutoffFilter.parallelRound ratMath (demoHandler ℚ) [⟨0, 0, 0⟩, ⟨5, 0, 0⟩] 0
      [1, 0]).m_Tractogram =
      [[⟨5, 0, -1⟩, ⟨5, 0, 0⟩, ⟨5, 0, 1⟩, ⟨5, 0, 2⟩, ⟨5, 0, 3⟩, ⟨5, 0, 4⟩]] ∧
    ¬ (cutoffFilter.parallelRound ratMath (demoHandler ℚ) [⟨0, 0, 0⟩, ⟨5, 0, 0⟩] 0
      [0, 1]).m_Tractogram.Perm
      (cutoffFilter.parallelRound ratMath (demoHandler ℚ) [⟨0, 0, 0⟩, ⟨5, 0, 0⟩] 0
        [1, 0]).m_Tractogram := by
  have h1 : (cutoffFilter.parallelRound ratMath (demoHandler ℚ) [⟨0, 0, 0⟩, ⟨5, 0, 0⟩] 0
      [0, 1]).m_Tractogram =
      [[⟨0, 0, -1⟩, ⟨0, 0, 0⟩, ⟨0, 0, 1⟩, ⟨0, 0, 2⟩, ⟨0, 0, 3⟩, ⟨0, 0, 4⟩]] := by decide!
  have h2 : (cutoffFilter.parallelRound ratMath (demoHandler ℚ) [⟨0, 0, 0⟩, ⟨5, 0, 0⟩] 0
      [1, 0]).m_Tractogram =
      [[⟨5, 0, -1⟩, ⟨5, 0, 0⟩, ⟨5, 0, 1⟩, ⟨5, 0, 2⟩, ⟨5, 0, 3⟩, ⟨5, 0, 4⟩]] := by decide!
  refine ⟨rfl, rfl, rfl, h1, h2, ?_⟩
  rw [h1, h2, List.perm_singleton, List.cons.injEq]
  intro hc
  exact absurd hc.1 (by decide!)

end itk
